import Mathlib

set_option maxRecDepth 100000
set_option linter.unusedVariables false

/-!
Verification development for a Python module (`project.py`) that emulates a
subset of sqlite3: an in-memory relational engine with a tokenizer, a
statement dispatcher, tables/views/rows, a three-tier lock manager and a
snapshot-based transaction protocol.

The definitions below are a shallow embedding of the Python source.  Python
values that flow through the engine (tokens, cells, schema entries) are
modelled by `PyVal`; Python `float` is modelled exactly as a rational number;
Python exceptions are modelled with `Except`, and a raised exception carries
the state mutated so far, mirroring CPython semantics.
-/

/-- A Python value as used by the engine: `None`, `int`, `float` (modelled
exactly as a rational), or `str`.  Bytes never occur in the modelled code. -/
inductive PyVal where
  | vnone
  | vint (i : Int)
  | vreal (q : Rat)
  | vstr (s : String)
deriving DecidableEq, Repr

/-- Python truthiness (`bool(x)`): `None`, `0`, `0.0` and `""` are falsy. -/
def pyTruthy : PyVal → Bool
  | .vnone => false
  | .vint i => i != 0
  | .vreal q => q != 0
  | .vstr s => s != ""

/-- Python `==` on the modelled values.  Numeric values compare across
`int`/`float`; `None` equals only `None`; strings compare as strings;
all other cross-type comparisons are `False`. -/
def pyEq : PyVal → PyVal → Bool
  | .vnone, .vnone => true
  | .vint a, .vint b => a == b
  | .vint a, .vreal b => ((a : Rat) == b)
  | .vreal a, .vint b => (a == (b : Rat))
  | .vreal a, .vreal b => a == b
  | .vstr a, .vstr b => a == b
  | _, _ => false

/-- Errors raised by the Python runtime while the engine executes.
`assertErr` models `AssertionError` (tokenizer made no progress, or a
statement does not end in a semicolon): the malformed-statement error kind. -/
inductive RunErr where
  | keyErr
  | valueErr
  | indexErr
  | typeErr
  | attrErr
  | assertErr
  /-- A loop in the source that provably never terminates on this input. -/
  | diverge
deriving DecidableEq, Repr

/-- Python `<` on the modelled values; mixed or `None` operands raise
`TypeError`. -/
def pyLt : PyVal → PyVal → Except RunErr Bool
  | .vint a, .vint b => .ok (decide (a < b))
  | .vint a, .vreal b => .ok (decide ((a : Rat) < b))
  | .vreal a, .vint b => .ok (decide (a < (b : Rat)))
  | .vreal a, .vreal b => .ok (decide (a < b))
  | .vstr a, .vstr b => .ok (decide (a < b))
  | _, _ => .error .typeErr

/-- Python `<=`. -/
def pyLe : PyVal → PyVal → Except RunErr Bool
  | .vint a, .vint b => .ok (decide (a ≤ b))
  | .vint a, .vreal b => .ok (decide ((a : Rat) ≤ b))
  | .vreal a, .vint b => .ok (decide (a ≤ (b : Rat)))
  | .vreal a, .vreal b => .ok (decide (a ≤ b))
  | .vstr a, .vstr b => .ok (decide (a ≤ b))
  | _, _ => .error .typeErr

/-- Python `>`. -/
def pyGt (a b : PyVal) : Except RunErr Bool := pyLt b a

/-- Python `>=`. -/
def pyGe (a b : PyVal) : Except RunErr Bool := pyLe b a

/-- List indexing by a `Nat` index; out of range raises `IndexError`. -/
def pyGetNat (l : List α) (i : Nat) : Except RunErr α :=
  match l.get? i with
  | some a => .ok a
  | none => .error .indexErr

/-- Python list indexing with possibly negative index (negative indices wrap
from the end); out of range raises `IndexError`. -/
def pyGetI (l : List α) (i : Int) : Except RunErr α :=
  if i < 0 then pyGetNat l (l.length - (-i).toNat)
  else pyGetNat l i.toNat

/-- Membership of a `PyVal` in a Python list, via `==`. -/
def pyListMem (l : List PyVal) (x : PyVal) : Bool :=
  l.any (fun y => pyEq y x)

/-- Lookup in a Python dict keyed by `PyVal` (insertion-ordered assoc list). -/
def pyDictGet (d : List (PyVal × α)) (k : PyVal) : Option α :=
  match d with
  | [] => none
  | (k', v) :: rest => if pyEq k' k then some v else pyDictGet rest k

/-- Membership test for a Python dict keyed by `PyVal`. -/
def pyDictContains (d : List (PyVal × α)) (k : PyVal) : Bool :=
  (pyDictGet d k).isSome

/-- Python dict assignment `d[k] = v`: updates the value in place when the key
exists (keeping its position), otherwise appends the new pair. -/
def pyDictInsert (d : List (PyVal × α)) (k : PyVal) (v : α) : List (PyVal × α) :=
  match d with
  | [] => [(k, v)]
  | (k', v') :: rest =>
      if pyEq k' k then (k', v) :: rest else (k', v') :: pyDictInsert rest k v

/-- Python dict deletion `d.pop(k)`: removes the first pair with the key. -/
def pyDictPop (d : List (PyVal × α)) (k : PyVal) : List (PyVal × α) :=
  match d with
  | [] => []
  | (k', v') :: rest =>
      if pyEq k' k then rest else (k', v') :: pyDictPop rest k

/-- Build a Python dict from zipped key/value lists (`zip` truncates to the
shorter list; later duplicate keys overwrite earlier ones). -/
def zipToDict (ks : List PyVal) (vs : List PyVal) : List (PyVal × PyVal) :=
  (ks.zip vs).foldl (fun d kv => pyDictInsert d kv.1 kv.2) []

/-! ## Lock manager (`LockSystem` in the source)

Counters are Python ints, hence `Int` here.  The `name` attribute of the
Python class is informational only (used by `__repr__`) and is omitted. -/

/-- The three lock counters of the shared lock manager. -/
structure LockSystem where
  shared : Int
  reserved : Int
  exclusive : Int
deriving DecidableEq, Repr

/-- The single kind of error the lock manager raises (`Exception` with a
lock-conflict message in the source). -/
inductive LockErr where
  | conflict
deriving DecidableEq, Repr

/-- Truthiness of the `current_lock` argument (a Python `None`-or-`str`). -/
def optTruthy : Option String → Bool
  | none => false
  | some s => s != ""

/-- Python `current_lock == s` where `current_lock` may be `None`. -/
def optEqStr (c : Option String) (s : String) : Bool :=
  match c with
  | none => false
  | some t => t == s

/-- Source `has_shared`: `self.shared != 0`. -/
def LockSystem.has_shared (l : LockSystem) : Bool := l.shared != 0

/-- Source `has_reserved`: `self.reserved != 0`. -/
def LockSystem.has_reserved (l : LockSystem) : Bool := l.reserved != 0

/-- Source `has_exclusive`: `self.exclusive != 0`. -/
def LockSystem.has_exclusive (l : LockSystem) : Bool := l.exclusive != 0

/-- Source `add_shared`: requires no exclusive holder, increments `shared`. -/
def LockSystem.add_shared (l : LockSystem) : Except LockErr (Bool × LockSystem) :=
  if !l.has_exclusive then .ok (true, { l with shared := l.shared + 1 })
  else .error .conflict

/-- Source `remove_shared`. -/
def LockSystem.remove_shared (l : LockSystem) : LockSystem :=
  { l with shared := l.shared - 1 }

/-- Source `add_reserved`: fails if a reserved or exclusive lock is held;
a caller upgrading from `shared` first gives up its shared lock. -/
def LockSystem.add_reserved (l : LockSystem) (current_lock : Option String) :
    Except LockErr (Bool × LockSystem) :=
  if l.has_reserved then .error .conflict
  else if l.has_exclusive then .error .conflict
  else
    let l :=
      if optTruthy current_lock && optEqStr current_lock "shared" then l.remove_shared else l
    .ok (true, { l with reserved := l.reserved + 1 })

/-- Source `remove_reserved`. -/
def LockSystem.remove_reserved (l : LockSystem) : LockSystem :=
  { l with reserved := l.reserved - 1 }

/-- Source `add_exclusive`: fails if an exclusive or any shared lock is held;
if a reserved lock is held it succeeds only for the caller upgrading from
`reserved`. -/
def LockSystem.add_exclusive (l : LockSystem) (current_lock : Option String) :
    Except LockErr (Bool × LockSystem) :=
  if l.has_exclusive then .error .conflict
  else if l.has_shared then .error .conflict
  else if l.has_reserved then
    if optTruthy current_lock && optEqStr current_lock "reserved" then
      .ok (true, { l with reserved := l.reserved - 1, exclusive := l.exclusive + 1 })
    else .error .conflict
  else .ok (true, { l with exclusive := l.exclusive + 1 })

/-- Source `remove_exclusive`. -/
def LockSystem.remove_exclusive (l : LockSystem) : LockSystem :=
  { l with exclusive := l.exclusive - 1 }

/-- Source `add_lock(lock_type, current_lock)`: returns `True` immediately
when the caller already holds the requested type; otherwise dispatches to the
specific adder.  An unknown `lock_type` falls off the end of the Python
function returning `None` (falsy), modelled as `.ok (false, l)`. -/
def LockSystem.add_lock (l : LockSystem) (lock_type : String)
    (current_lock : Option String) : Except LockErr (Bool × LockSystem) :=
  if optTruthy current_lock && optEqStr current_lock lock_type then .ok (true, l)
  else if lock_type == "shared" then l.add_shared
  else if lock_type == "reserved" then l.add_reserved current_lock
  else if lock_type == "exclusive" then l.add_exclusive current_lock
  else .ok (false, l)

/-- Source `remove_lock(lock_type)`: `None` is a no-op, otherwise the counter
for the named mode is decremented (an unknown name is a no-op). -/
def LockSystem.remove_lock (l : LockSystem) (lock_type : Option String) : LockSystem :=
  match lock_type with
  | none => l
  | some t =>
      if t == "shared" then l.remove_shared
      else if t == "reserved" then l.remove_reserved
      else if t == "exclusive" then l.remove_exclusive
      else l

/-- A fresh lock manager: all counters zero. -/
def initLocks : LockSystem := { shared := 0, reserved := 0, exclusive := 0 }

/-! ### Lock traces for claim C2 -/

/-- One public lock-manager call: `add_lock(req, cur)` or `remove_lock(t)`. -/
inductive LockOp where
  | add (req : String) (cur : Option String)
  | remove (t : String)
deriving DecidableEq, Repr

/-- The counter corresponding to a lock name. -/
def heldCount (l : LockSystem) (t : String) : Int :=
  if t == "shared" then l.shared
  else if t == "reserved" then l.reserved
  else if t == "exclusive" then l.exclusive
  else 0

/-- Apply one lock-manager call under the side conditions of claim C2:
an `add_lock` call must succeed (return `True`), and a `remove_lock` call
must name one of the three lock modes whose counter witnesses at least one
current holder (the formalisation of "a lock currently held by the removing
connection"). -/
def lockApply (op : LockOp) (l : LockSystem) : Option LockSystem :=
  match op with
  | .add req cur =>
      match l.add_lock req cur with
      | .ok (true, l') => some l'
      | _ => none
  | .remove t =>
      if (t == "shared" || t == "reserved" || t == "exclusive") && decide (1 ≤ heldCount l t) then
        some (l.remove_lock (some t))
      else none

/-- Run a sequence of lock-manager calls from a given state. -/
def runLocks (ops : List LockOp) (l : LockSystem) : Option LockSystem :=
  match ops with
  | [] => some l
  | op :: rest =>
      match lockApply op l with
      | some l' => runLocks rest l'
      | none => none

/-- The invariant claimed by the specification for the lock counters. -/
def LockInvariant (l : LockSystem) : Prop :=
  l.exclusive ≤ 1 ∧ l.reserved ≤ 1 ∧ (l.exclusive = 1 → l.shared = 0 ∧ l.reserved = 0)

instance : DecidablePred LockInvariant := fun _ => by
  unfold LockInvariant; infer_instance

/-- Strengthened inductive invariant used to prove `LockInvariant`. -/
def LockAux (l : LockSystem) : Prop :=
  0 ≤ l.exclusive ∧ l.exclusive ≤ 1 ∧ 0 ≤ l.reserved ∧ l.reserved ≤ 1 ∧
    (l.exclusive = 1 → l.shared = 0 ∧ l.reserved = 0)

theorem add_shared_aux {s r e : Int} {b : Bool} {l' : LockSystem}
    (h : LockSystem.add_shared ⟨s, r, e⟩ = .ok (b, l'))
    (hl : LockAux ⟨s, r, e⟩) : LockAux l' := by
  unfold LockSystem.add_shared LockSystem.has_exclusive at h
  unfold LockAux at hl
  dsimp only at h hl
  split at h
  next hc =>
    cases h
    simp only [bne, Bool.not_not, beq_iff_eq] at hc
    unfold LockAux
    dsimp only
    omega
  next hc => exact absurd h (by simp)

theorem add_reserved_aux {s r e : Int} {cur : Option String} {b : Bool} {l' : LockSystem}
    (h : LockSystem.add_reserved ⟨s, r, e⟩ cur = .ok (b, l'))
    (hl : LockAux ⟨s, r, e⟩) : LockAux l' := by
  unfold LockSystem.add_reserved LockSystem.has_reserved LockSystem.has_exclusive
    LockSystem.remove_shared at h
  unfold LockAux at hl
  dsimp only at h hl
  split at h
  next => exact absurd h (by simp)
  next hc1 =>
    split at h
    next => exact absurd h (by simp)
    next hc2 =>
      simp at hc1 hc2
      split at h
      all_goals cases h
      all_goals unfold LockAux
      all_goals dsimp only
      all_goals omega

theorem add_exclusive_aux {s r e : Int} {cur : Option String} {b : Bool} {l' : LockSystem}
    (h : LockSystem.add_exclusive ⟨s, r, e⟩ cur = .ok (b, l'))
    (hl : LockAux ⟨s, r, e⟩) : LockAux l' := by
  unfold LockSystem.add_exclusive LockSystem.has_reserved LockSystem.has_exclusive
    LockSystem.has_shared at h
  unfold LockAux at hl
  dsimp only at h hl
  split at h
  next => exact absurd h (by simp)
  next hc1 =>
    split at h
    next => exact absurd h (by simp)
    next hc2 =>
      simp at hc1 hc2
      split at h
      next hc3 =>
        simp only [bne_iff_ne] at hc3
        split at h
        next =>
          cases h
          unfold LockAux
          dsimp only
          omega
        next => exact absurd h (by simp)
      next hc3 =>
        simp at hc3
        cases h
        unfold LockAux
        dsimp only
        omega

theorem add_lock_aux {l l' : LockSystem} {req : String} {cur : Option String} {b : Bool}
    (h : l.add_lock req cur = .ok (b, l')) (hl : LockAux l) : LockAux l' := by
  obtain ⟨s, r, e⟩ := l
  unfold LockSystem.add_lock at h
  split at h
  next => cases h; exact hl
  next =>
    split at h
    next => exact add_shared_aux h hl
    next =>
      split at h
      next => exact add_reserved_aux h hl
      next =>
        split at h
        next => exact add_exclusive_aux h hl
        next => cases h; exact hl

theorem lockApply_aux {op : LockOp} {l l' : LockSystem}
    (h : lockApply op l = some l') (hl : LockAux l) : LockAux l' := by
  cases op with
  | add req cur =>
      unfold lockApply at h
      dsimp only at h
      cases hres : l.add_lock req cur with
      | error err => rw [hres] at h; exact Option.noConfusion h
      | ok p =>
          obtain ⟨b, l2⟩ := p
          rw [hres] at h
          cases b
          · exact Option.noConfusion h
          · simp only [Option.some.injEq] at h
            subst h
            exact add_lock_aux hres hl
  | remove t =>
      obtain ⟨s, r, e⟩ := l
      unfold lockApply at h
      dsimp only at h
      split at h
      next hc =>
        simp only [Option.some.injEq] at h
        subst h
        simp only [Bool.and_eq_true, Bool.or_eq_true, beq_iff_eq, decide_eq_true_eq] at hc
        obtain ⟨ht, hcount⟩ := hc
        unfold LockAux at hl
        dsimp only at hl
        unfold LockSystem.remove_lock LockSystem.remove_shared LockSystem.remove_reserved
          LockSystem.remove_exclusive
        rcases ht with (rfl | rfl) | rfl
        all_goals simp only [heldCount] at hcount
        all_goals simp only [LockSystem.remove_lock, LockSystem.remove_shared,
          LockSystem.remove_reserved, LockSystem.remove_exclusive]
        all_goals simp at hcount ⊢
        all_goals unfold LockAux
        all_goals dsimp only
        all_goals omega
      next => exact absurd h (by simp)

theorem runLocks_aux {ops : List LockOp} {l0 l : LockSystem}
    (h : runLocks ops l0 = some l) (hl : LockAux l0) : LockAux l := by
  induction ops generalizing l0 with
  | nil =>
      unfold runLocks at h
      cases h
      exact hl
  | cons op rest ih =>
      unfold runLocks at h
      cases happ : lockApply op l0 with
      | none => rw [happ] at h; exact Option.noConfusion h
      | some l1 =>
          rw [happ] at h
          exact ih h (lockApply_aux happ hl)

/-- C2: starting from a fresh `LockSystem`, for every sequence of successful
`add_lock` calls and of `remove_lock` calls each naming a lock mode whose
counter shows a current holder, the counters always satisfy
`exclusive ≤ 1`, `reserved ≤ 1`, and `exclusive = 1 → shared = 0 ∧
reserved = 0`. -/
theorem c2_lock_invariant (ops : List LockOp) (l : LockSystem)
    (h : runLocks ops initLocks = some l) : LockInvariant l := by
  have haux : LockAux l := by
    refine runLocks_aux h ?_
    unfold LockAux initLocks
    dsimp only
    omega
  unfold LockAux at haux
  unfold LockInvariant
  exact ⟨haux.2.1, haux.2.2.2.1, haux.2.2.2.2⟩

/-- Witness for C2: a concrete five-call trace (acquire shared, upgrade to
reserved, upgrade to exclusive, release, re-acquire shared) ends in the
state (1, 0, 0), which satisfies the invariant. -/
theorem c2_lock_invariant_witness :
    LockInvariant { shared := 1, reserved := 0, exclusive := 0 } :=
  c2_lock_invariant
    [.add "shared" none, .add "reserved" (some "shared"),
      .add "exclusive" (some "reserved"), .remove "exclusive", .add "shared" none]
    { shared := 1, reserved := 0, exclusive := 0 } (by decide)

/-- C9: for every lock-manager state and every lock type among shared,
reserved and exclusive, `add_lock` with `currently_held` equal to the
requested type returns success (True) and leaves all three counters
unchanged. -/
theorem c9_add_lock_idempotent (l : LockSystem) (t : String)
    (h : t = "shared" ∨ t = "reserved" ∨ t = "exclusive") :
    l.add_lock t (some t) = .ok (true, l) := by
  rcases h with rfl | rfl | rfl <;> rfl

/-- Witness for C9 at the fresh lock state and the shared mode. -/
theorem c9_add_lock_idempotent_witness :
    initLocks.add_lock "shared" (some "shared") = .ok (true, initLocks) :=
  c9_add_lock_idempotent initLocks "shared" (Or.inl rfl)

/-! ## Rows and predicate checking (`Row` in the source) -/

deriving instance DecidableEq for Except

/-- Helper for the operator section at the bottom of `Row.check_row`:
`=`, `!=`, `>`, `>=`, `<`, `<=` with Python comparison semantics, and
`False` for any unrecognised operator. -/
def checkOpsSection (column_value op value : PyVal) : Except RunErr Bool :=
  if pyEq op (.vstr "=") then .ok (pyEq column_value value)
  else if pyEq op (.vstr "!=") then .ok (!pyEq column_value value)
  else if pyEq op (.vstr ">") then pyGt column_value value
  else if pyEq op (.vstr ">=") then pyGe column_value value
  else if pyEq op (.vstr "<") then pyLt column_value value
  else if pyEq op (.vstr "<=") then pyLe column_value value
  else .ok false

/-- Source `Row.check_row(column_name, column_index, op, value)` where `data`
is the row's cell tuple.  The `column_name` parameter is unused by the source
body and is kept only for signature fidelity.  Note the source guards the
IS / IS NOT case with Python truthiness (`not column_value` /
`column_value`), not with an `is None` test, and when `value` is `None` but
the operator is an ordinary comparison it falls through to the operator
section with `value = None`. -/
def check_row (data : List PyVal) (column_name : PyVal) (column_index : Nat)
    (op : PyVal) (value : PyVal) : Except RunErr Bool :=
  match pyGetNat data column_index with
  | .error e => .error e
  | .ok column_value =>
      if value = .vnone then
        if pyEq op (.vstr "IS") then .ok (if pyTruthy column_value then false else true)
        else if pyEq op (.vstr "IS NOT") then .ok (if pyTruthy column_value then true else false)
        else checkOpsSection column_value op value
      else if column_value = .vnone then .ok false
      else checkOpsSection column_value op value

/-- C3 (code evaluated at the failing inputs): the predicate `(col, IS,
null)` matches the non-null cells integer 0, real 0.0 and empty text, and
`(col, IS NOT, null)` rejects them, because the source tests Python
truthiness of the cell instead of nullity.  The claim says IS must match
exactly the null cells, so these runs contradict it; genuinely null and
truthy cells behave as claimed. -/
theorem c3_is_null_truthiness :
    check_row [.vint 0] (.vstr "a") 0 (.vstr "IS") .vnone = .ok true ∧
    check_row [.vreal 0] (.vstr "a") 0 (.vstr "IS") .vnone = .ok true ∧
    check_row [.vstr ""] (.vstr "a") 0 (.vstr "IS") .vnone = .ok true ∧
    check_row [.vint 0] (.vstr "a") 0 (.vstr "IS NOT") .vnone = .ok false ∧
    check_row [.vnone] (.vstr "a") 0 (.vstr "IS") .vnone = .ok true ∧
    check_row [.vint 1] (.vstr "a") 0 (.vstr "IS") .vnone = .ok false ∧
    check_row [.vint 1] (.vstr "a") 0 (.vstr "IS NOT") .vnone = .ok true := by
  decide

/-! ## Tables (`Table` in the source) -/

/-- A table: name, insertion-ordered schema (column name to declared type
token), the derived column-name list, per-column defaults, the column count,
the row list (each row is its cell tuple) and the row count. -/
structure Table where
  name : PyVal
  schema : List (PyVal × PyVal)
  column_names : List PyVal
  default_values : List (PyVal × PyVal)
  column_size : Nat
  rows : List (List PyVal)
  size : Nat
deriving DecidableEq, Repr

/-- Python `isinstance(v, str)`. -/
def PyVal.isStrV : PyVal → Bool
  | .vstr _ => true
  | _ => false

/-- Python `isinstance(v, int)`. -/
def PyVal.isIntV : PyVal → Bool
  | .vint _ => true
  | _ => false

/-- Python `isinstance(v, float)`. -/
def PyVal.isRealV : PyVal → Bool
  | .vreal _ => true
  | _ => false

/-- The per-value type check of `Table.insert_row`: each value is zipped with
the schema's declared types; a `None` value always passes (the source's first
condition reduces to `value is None`); otherwise TEXT accepts str, REAL
accepts float, INTEGER accepts int, BLOB accepts anything, and anything else
(including an untyped column with a non-null value) fails. -/
def typeCheckOk (values : List PyVal) (schemaTypes : List PyVal) : Bool :=
  (values.zip schemaTypes).all fun vt =>
    let value := vt.1
    let value_type := vt.2
    if value = .vnone then true
    else if pyEq value_type (.vstr "TEXT") && value.isStrV then true
    else if pyEq value_type (.vstr "REAL") && value.isRealV then true
    else if pyEq value_type (.vstr "INTEGER") && value.isIntV then true
    else if pyEq value_type (.vstr "BLOB") then true
    else false

/-- The `values` argument of `Table.insert_row`: either the literal Python
string "DEFAULT" (the DEFAULT VALUES sub-mode) or a list of cell values. -/
inductive InsertVals where
  | defaultMarker
  | vals (vs : List PyVal)
deriving DecidableEq, Repr

/-- Source `Table.insert_row(values, insertion_columns)`.

Mirrors the source faithfully, in particular:
* a positional value list longer than `column_size` silently drops the insert;
* in the explicit-column mode the value list is padded with `None` up to the
  column list's length (`while len(insertion_columns) - len(values) > 0`);
* in the positional short-list branch the source loop is
  `while len(values) - self.column_size > 0: values.append(None)`, whose
  guard is never true in that branch, so no padding happens and the short
  list is inserted as-is;
* a failed type check silently drops the insert. -/
def Table.insert_row (t : Table) (values : InsertVals)
    (insertion_columns : Option (List PyVal)) : Table :=
  match values with
  | .defaultMarker =>
      let default_vals := t.column_names.map fun n =>
        match pyDictGet t.default_values n with
        | some v => v
        | none => PyVal.vnone
      { t with rows := t.rows ++ [default_vals], size := t.size + 1 }
  | .vals vs =>
      if t.column_size < vs.length then t
      else
        let values :=
          match insertion_columns with
          | some cols =>
              let padded := vs ++ List.replicate (cols.length - vs.length) PyVal.vnone
              let cols_to_values := zipToDict cols padded
              t.column_names.map fun column_name =>
                if pyListMem cols column_name then
                  match pyDictGet cols_to_values column_name with
                  | some v => v
                  | none => PyVal.vnone
                else
                  match pyDictGet t.default_values column_name with
                  | some v => v
                  | none => PyVal.vnone
          | none => vs
        if typeCheckOk values (t.schema.map Prod.snd) then
          { t with rows := t.rows ++ [values], size := t.size + 1 }
        else t

/-- A concrete two-column table `t(a INTEGER, b INTEGER)` used as the C4
failing input. -/
def twoColTable : Table :=
  { name := .vstr "t",
    schema := [(.vstr "a", .vstr "INTEGER"), (.vstr "b", .vstr "INTEGER")],
    column_names := [.vstr "a", .vstr "b"],
    default_values := [],
    column_size := 2,
    rows := [],
    size := 0 }

/-- C4 (code evaluated at the failing input): a positional insert of the
single value 7 into the two-column table passes the type check but is stored
as a row of arity 1, not right-padded with null to arity 2 as the claim
requires; the over-long part of the claim does hold (three values are
silently dropped). -/
theorem c4_short_insert_not_padded :
    (twoColTable.insert_row (.vals [.vint 7]) none).rows = [[PyVal.vint 7]] ∧
    (1 : Nat) ≠ twoColTable.schema.length ∧
    twoColTable.insert_row (.vals [.vint 1, .vint 2, .vint 3]) none = twoColTable := by
  decide

/-! ## Tokenizer (`collect_characters`, `remove_*`, `tokenize` in the source)

Queries are handled as `List Char`.  `string.whitespace`, `string.digits`
and `string.ascii_letters` are the usual ASCII classes.  The source condition
`query[0].isnumeric()` is modelled as an ASCII digit test: a non-ASCII
numeric character would make `collect_characters` return an empty run and
`int("")` raise `ValueError` in Python, while here it falls through to the
no-progress `AssertionError`; both are errors. -/

/-- The characters of Python `string.whitespace`. -/
def pyWhitespace : List Char := [' ', '\t', '\n', '\r', '\x0b', '\x0c']

/-- ASCII letter test (`string.ascii_letters`). -/
def isAsciiLetter (c : Char) : Bool :=
  ('a' ≤ c && c ≤ 'z') || ('A' ≤ c && c ≤ 'Z')

/-- ASCII digit test (`string.digits`). -/
def isDigitCh (c : Char) : Bool := '0' ≤ c && c ≤ '9'

/-- The identifier alphabet of `remove_word`: letters, `_.*` and digits. -/
def isWordChar (c : Char) : Bool :=
  isAsciiLetter c || c == '_' || c == '.' || c == '*' || isDigitCh c

/-- Does `pat` occur as a prefix of `cs`? -/
def listStarts : List Char → List Char → Bool
  | [], _ => true
  | _ :: _, [] => false
  | p :: ps, c :: rest => p == c && listStarts ps rest

/-- Auxiliary for Python `str.find`: first index (offset by `idx`) where
`pat` occurs in `cs`, or -1. -/
def findSubAux (pat : List Char) : List Char → Nat → Int
  | [], idx => if listStarts pat [] then (idx : Int) else -1
  | c :: rest, idx =>
      if listStarts pat (c :: rest) then (idx : Int) else findSubAux pat rest (idx + 1)

/-- Python `s.find(pat, start)` with a non-negative start. -/
def pyFind (cs pat : List Char) (start : Nat) : Int :=
  findSubAux pat (cs.drop start) start

/-- Python substring membership `sub in container`. -/
def pyStrContains (container sub : List Char) : Bool :=
  decide (0 ≤ findSubAux sub container 0)

/-- Normalize a Python slice endpoint against a length. -/
def pyNormIdx (len : Nat) (i : Int) : Nat :=
  if i < 0 then len - (-i).toNat else min i.toNat len

/-- Python `l[:i]` (negative `i` counts from the end). -/
def pySliceTo (cs : List α) (i : Int) : List α :=
  cs.take (pyNormIdx cs.length i)

/-- Python `l[i:]` (negative `i` counts from the end). -/
def pySliceFrom (cs : List α) (i : Int) : List α :=
  cs.drop (pyNormIdx cs.length i)

/-- Python `l[a:b]`. -/
def pySlice (cs : List α) (a b : Int) : List α :=
  (cs.take (pyNormIdx cs.length b)).drop (pyNormIdx cs.length a)

/-- Python `text.replace("''", "'")`: left-to-right, non-overlapping. -/
def replaceQuotes : List Char → List Char
  | [] => []
  | '\'' :: '\'' :: rest => '\'' :: replaceQuotes rest
  | c :: rest => c :: replaceQuotes rest

/-- Source `collect_characters(query, allowed)`. -/
def collect_characters (q : List Char) (allowed : Char → Bool) : List Char :=
  q.takeWhile allowed

/-- Source `remove_word`: collect the identifier run; the reserved word NULL
becomes the null token `None`. -/
def remove_word (q : List Char) : PyVal × List Char :=
  let word := collect_characters q isWordChar
  (if word == "NULL".data then PyVal.vnone else PyVal.vstr (String.mk word),
    q.drop word.length)

/-- The escaped-quote scanning loop of `remove_text`:
`while escape_index == end_quote_index and escape_index != -1`, re-searching
both indices from `escape_index + 2`.  The indices strictly grow by at least
two per iteration, so fuel `|q| + 2` always suffices. -/
def removeTextLoop (q : List Char) : Nat → Int → Int → Int
  | 0, endq, _ => endq
  | fuel + 1, endq, esc =>
      if esc == endq && esc != -1 then
        removeTextLoop q fuel (pyFind q ['\''] (esc + 2).toNat)
          (pyFind q ['\'', '\''] (esc + 2).toNat)
      else endq

/-- Source `remove_text`: the leading quote is dropped (the source `assert`
is guaranteed by the caller), the closing quote located with the
escaped-quote loop, doubled quotes collapsed on emission. -/
def remove_text (q : List Char) : PyVal × List Char :=
  let q1 := q.drop 1
  let endq0 := pyFind q1 ['\''] 0
  let endq :=
    if pyStrContains q1 ['\'', '\''] then
      removeTextLoop q1 (q1.length + 2) endq0 (pyFind q1 ['\'', '\''] 0)
    else endq0
  let text := replaceQuotes (pySliceTo q1 endq)
  (PyVal.vstr (String.mk text), pySliceFrom q1 (endq + 1))

/-- The numeric-literal alphabet of `remove_num`: digits and `-.E`. -/
def isNumChar (c : Char) : Bool :=
  isDigitCh c || c == '-' || c == '.' || c == 'E'

/-- The maximal numeric run collected by `remove_num`. -/
def collectNum (q : List Char) : List Char :=
  collect_characters q isNumChar

/-- All characters are ASCII digits. -/
def allDigits (cs : List Char) : Bool := cs.all isDigitCh

/-- Value of an ASCII digit run. -/
def digitsToNat (cs : List Char) : Nat :=
  cs.foldl (fun acc c => acc * 10 + (c.toNat - '0'.toNat)) 0

/-- Python `int(s)` restricted to the `remove_num` alphabet: an optional
leading minus followed by at least one digit; anything else (in particular
any `E` or `.`) raises `ValueError`, modelled as `none`. -/
def pyIntParse (cs : List Char) : Option Int :=
  match cs with
  | '-' :: rest =>
      if !rest.isEmpty && allDigits rest then some (-(digitsToNat rest : Int)) else none
  | _ =>
      if !cs.isEmpty && allDigits cs then some ((digitsToNat cs : Int)) else none

/-- Mantissa of a Python float literal over the `remove_num` alphabet:
`digits [. digits]` with at least one digit overall. -/
def parseMant (cs : List Char) : Option (Rat × List Char) :=
  let ip := cs.takeWhile isDigitCh
  let rest := cs.drop ip.length
  match rest with
  | '.' :: rest2 =>
      let fp := rest2.takeWhile isDigitCh
      let rest3 := rest2.drop fp.length
      if ip.isEmpty && fp.isEmpty then none
      else some ((digitsToNat ip : Rat) + (digitsToNat fp : Rat) / ((10 : Rat) ^ fp.length), rest3)
  | _ => if ip.isEmpty then none else some ((digitsToNat ip : Rat), rest)

/-- Optional exponent part `E [-] digits` of a Python float literal over the
`remove_num` alphabet. -/
def parseExp (cs : List Char) : Option Int :=
  match cs with
  | [] => some 0
  | 'E' :: rest =>
      match rest with
      | '-' :: ds =>
          if !ds.isEmpty && allDigits ds then some (-(digitsToNat ds : Int)) else none
      | ds => if !ds.isEmpty && allDigits ds then some ((digitsToNat ds : Int)) else none
  | _ => none

/-- Python `float(s)` restricted to the `remove_num` alphabet; the value is
exact as a rational. -/
def pyFloatParse (cs : List Char) : Option Rat :=
  let sc : Bool × List Char :=
    match cs with
    | '-' :: r => (true, r)
    | _ => (false, cs)
  match parseMant sc.2 with
  | none => none
  | some (m, rest) =>
      match parseExp rest with
      | none => none
      | some e =>
          let v := m * (10 : Rat) ^ e
          some (if sc.1 then -v else v)

/-- Source `remove_num`: collect the numeric run; convert with `float` iff it
contains a dot, else with `int`; a failed conversion raises `ValueError`. -/
def remove_num (q : List Char) : Except RunErr (PyVal × List Char) :=
  if (collectNum q).contains '.' then
    match pyFloatParse (collectNum q) with
    | some r => .ok (.vreal r, q.drop (collectNum q).length)
    | none => .error .valueErr
  else
    match pyIntParse (collectNum q) with
    | some i => .ok (.vint i, q.drop (collectNum q).length)
    | none => .error .valueErr

/-- The main loop of `tokenize`.  Each iteration consumes at least one
character or raises, so fuel `|q| + 1` suffices; the fuel-0 case is
unreachable from `tokenize`. -/
def tokenizeLoop : Nat → List Char → List PyVal → Except RunErr (List PyVal)
  | 0, q, tokens => if q.isEmpty then .ok tokens else .error .diverge
  | fuel + 1, q, tokens =>
      match q with
      | [] => .ok tokens
      | c :: qrest =>
          if pyWhitespace.contains c then
            tokenizeLoop fuel (q.drop (collect_characters q (pyWhitespace.contains ·)).length) tokens
          else if isAsciiLetter c || c == '_' then
            let p := remove_word q
            tokenizeLoop fuel p.2 (tokens ++ [p.1])
          else if "(),;*".data.contains c then
            tokenizeLoop fuel qrest (tokens ++ [.vstr c.toString])
          else if c == '\'' then
            let p := remove_text q
            tokenizeLoop fuel p.2 (tokens ++ [p.1])
          else if isDigitCh c || c == '-' then
            match remove_num q with
            | .error e => .error e
            | .ok p => tokenizeLoop fuel p.2 (tokens ++ [p.1])
          else if "<>=!".data.contains c then
            match tokens.getLast? with
            | none => .error .indexErr
            | some last_token =>
                match last_token with
                | .vstr s =>
                    if s.length < 2 then
                      if pyStrContains "!>".data s.data && c == '=' then
                        tokenizeLoop fuel qrest (tokens.dropLast ++ [.vstr (s.push c)])
                      else if s == "=" && c == '<' then
                        tokenizeLoop fuel qrest (tokens.dropLast ++ [.vstr (s.push c)])
                      else tokenizeLoop fuel qrest (tokens ++ [.vstr c.toString])
                    else tokenizeLoop fuel qrest (tokens ++ [.vstr c.toString])
                | _ => .error .typeErr
          else .error .assertErr

/-- Source `tokenize`. -/
def tokenize (q : List Char) : Except RunErr (List PyVal) :=
  tokenizeLoop (q.length + 1) q []

/-- C8 counterexample: the numeric literal `1E5` (no dot, with exponent
marker) makes `remove_num` — and hence tokenization — raise `ValueError`
(`int("1E5")`), whereas the claim says it is emitted as a real-valued token
and that tokenization of such a literal never fails. -/
theorem c8_counterexample :
    remove_num "1E5;".data = .error .valueErr ∧
    tokenize "1E5;".data = .error .valueErr := by
  decide

theorem allDigits_false_of_E {ds : List Char} (h : 'E' ∈ ds) :
    allDigits ds = false := by
  cases hb : allDigits ds
  · rfl
  · unfold allDigits at hb
    exact absurd (List.all_eq_true.mp hb _ h) (by decide)

theorem pyIntParse_none_of_E {cs : List Char} (h : cs.contains 'E' = true) :
    pyIntParse cs = none := by
  have hmem : 'E' ∈ cs := by simpa using h
  unfold pyIntParse
  split
  next rest =>
      have hErest : 'E' ∈ rest := by
        rcases List.mem_cons.mp hmem with h1 | h1
        · exact absurd h1 (by decide)
        · exact h1
      simp [allDigits_false_of_E hErest]
  next =>
      simp [allDigits_false_of_E hmem]

/-- C8 amended: for every input, a successfully tokenized numeric literal is
a real-valued token iff the collected run contains a dot (an integer token
otherwise); and a run containing the exponent marker `E` but no dot always
fails tokenization with `ValueError` (the source converts such runs with
`int`, which rejects `E`). -/
theorem c8_numeric_real_iff_dot (q : List Char) :
    (∀ t rest, remove_num q = .ok (t, rest) →
      (t.isRealV = true ↔ (collectNum q).contains '.' = true)) ∧
    ((collectNum q).contains '.' = false → (collectNum q).contains 'E' = true →
      remove_num q = .error .valueErr) := by
  constructor
  · intro t rest h
    unfold remove_num at h
    split at h
    next hdot =>
      cases hfp : pyFloatParse (collectNum q) with
      | none => rw [hfp] at h; exact Except.noConfusion h
      | some r =>
          rw [hfp] at h
          cases h
          simp only [PyVal.isRealV]
          exact iff_of_true trivial hdot
    next hdot =>
      cases hip : pyIntParse (collectNum q) with
      | none => rw [hip] at h; exact Except.noConfusion h
      | some i =>
          rw [hip] at h
          cases h
          simp only [PyVal.isRealV, Bool.false_eq_true, false_iff]
          simpa using hdot
  · intro hdot hE
    unfold remove_num
    rw [if_neg (by rw [hdot]; simp), pyIntParse_none_of_E hE]

/-- Witness for C8: the literal `12` tokenizes to the integer token 12 (no
dot), and the literal `1E5` fails. -/
theorem c8_numeric_real_iff_dot_witness :
    ((PyVal.vint 12).isRealV = true ↔ (collectNum "12;".data).contains '.' = true) ∧
    remove_num "1E5;".data = .error .valueErr :=
  ⟨(c8_numeric_real_iff_dot "12;".data).1 (.vint 12) ";".data (by decide),
    (c8_numeric_real_iff_dot "1E5;".data).2 (by decide) (by decide)⟩

/-! ## Table methods, views, databases -/

/-- Row equality (`Row.__eq__`): same arity and pointwise Python `==`. -/
def rowEq (a b : List PyVal) : Bool :=
  a.length == b.length && (a.zip b).all fun p => pyEq p.1 p.2

/-- Python `list.index(x)`: index of the first element `== x`, else
`ValueError`. -/
def pyListIndex (l : List PyVal) (x : PyVal) : Except RunErr Nat :=
  match l with
  | [] => .error .valueErr
  | y :: rest =>
      if pyEq y x then .ok 0
      else
        match pyListIndex rest x with
        | .ok n => .ok (n + 1)
        | .error e => .error e

/-- Python `list.index(x, start)`. -/
def pyListIndexFrom (l : List PyVal) (x : PyVal) (start : Nat) : Except RunErr Nat :=
  match pyListIndex (l.drop start) x with
  | .ok n => .ok (start + n)
  | .error e => .error e

/-- Python `list.index(x, start, stop)`. -/
def pyListIndexBetween (l : List PyVal) (x : PyVal) (start stop : Nat) : Except RunErr Nat :=
  match pyListIndex ((l.take stop).drop start) x with
  | .ok n => .ok (start + n)
  | .error e => .error e

/-- Source `Table.get_column_index`: `self.column_names.index(column_name)`. -/
def Table.get_column_index (t : Table) (column_name : PyVal) : Except RunErr Nat :=
  pyListIndex t.column_names column_name

/-- Source `Table.add_column`: extends the schema dict (overwriting an
existing key in place) and unconditionally appends to `column_names`. -/
def Table.add_column (t : Table) (column_name column_type : PyVal) : Table :=
  { t with
    schema := pyDictInsert t.schema column_name column_type,
    column_names := t.column_names ++ [column_name],
    column_size := t.column_size + 1 }

/-- Remove the first record equal (via `Row.__eq__`) to `row`. -/
def removeFirstRow (row : List PyVal) : List (List PyVal) → Option (List (List PyVal))
  | [] => none
  | r :: rest =>
      if rowEq row r then some rest
      else
        match removeFirstRow row rest with
        | some rest' => some (r :: rest')
        | none => none

/-- Source `Table.remove_row`: no-op on an empty table, otherwise removes the
first matching record and decrements `size`. -/
def Table.remove_row (t : Table) (row : List PyVal) : Table :=
  if t.size == 0 then t
  else
    match removeFirstRow row t.rows with
    | some rows' => { t with rows := rows', size := t.size - 1 }
    | none => t

/-- The schema-collecting loop of `Table.__init__`: reads `values[itr]` and
`values[itr + 1]` as a column-name/type pair, then skips one token (the
comma), breaking early when `itr + 2` hits the end.  `itr` grows by three per
iteration, so fuel `|values| + 2` always suffices; the fuel-0 case is
unreachable from `Table.init`. -/
def tableInitLoop (values : List PyVal) : Nat → Nat → Nat → List (PyVal × PyVal) →
    Except RunErr (Nat × List (PyVal × PyVal))
  | 0, _, _, _ => .error .diverge
  | fuel + 1, itr, colsize, schema =>
      if values.length != 0 && itr != values.length - 1 then
        match pyGetNat values itr with
        | .error e => .error e
        | .ok column_name =>
            match pyGetNat values (itr + 1) with
            | .error e => .error e
            | .ok column_type =>
                let schema := pyDictInsert schema column_name column_type
                if itr + 2 == values.length then .ok (colsize + 1, schema)
                else tableInitLoop values fuel (itr + 3) (colsize + 1) schema
      else .ok (colsize, schema)

/-- The default-values loop of `Table.__init__`.  The source re-computes
`values.index("DEFAULT")` (always the FIRST occurrence) on every iteration,
so after processing it once, `value_itr` is pinned at `default_index + 1`
forever: a second `DEFAULT` further right makes the Python loop spin without
terminating, modelled as the `diverge` error. -/
def tableInitDefaults (values : List PyVal) : Except RunErr (List (PyVal × PyVal)) :=
  if pyListMem values (.vstr "DEFAULT") then
    match pyListIndex values (.vstr "DEFAULT") with
    | .error e => .error e
    | .ok d =>
        match pyGetI values ((d : Int) - 2) with
        | .error e => .error e
        | .ok column_name =>
            match pyGetNat values (d + 1) with
            | .error e => .error e
            | .ok default_value =>
                if pyListMem (values.drop (d + 1)) (.vstr "DEFAULT") then .error .diverge
                else .ok [(column_name, default_value)]
  else .ok []

/-- Source `Table.__init__(table_name, values)`: parses the schema token list;
`column_names` and `column_size` are finally recomputed from the schema dict
(discarding the loop's running count). -/
def Table.init (table_name : PyVal) (values : List PyVal) : Except RunErr Table :=
  match tableInitLoop values (values.length + 2) 0 0 [] with
  | .error e => .error e
  | .ok cs =>
      match tableInitDefaults values with
      | .error e => .error e
      | .ok defaults =>
          let column_names := cs.2.map Prod.fst
          .ok { name := table_name, schema := cs.2, column_names := column_names,
                default_values := defaults, column_size := column_names.length,
                rows := [], size := 0 }

/-- The extra attributes a `View` carries beyond its `Table` part: the stored
SELECT text, the declared column list and the backing table name. -/
structure ViewData where
  statement : List Char
  view_columns : List PyVal
  table_name : PyVal
deriving DecidableEq, Repr

/-- A table-or-view entry of a database (`View` subclasses `Table` in the
source; `isinstance(x, View)` distinguishes them). -/
inductive TableV where
  | base (t : Table)
  | view (t : Table) (vd : ViewData)
deriving DecidableEq, Repr

/-- The `Table` part of a table-or-view. -/
def TableV.tbl : TableV → Table
  | .base t => t
  | .view t _ => t

/-- Replace the `Table` part of a table-or-view (an in-place mutation of the
Python object's `Table` attributes). -/
def TableV.setTbl : TableV → Table → TableV
  | .base _, t' => .base t'
  | .view _ vd, t' => .view t' vd

/-- The unqualified-schema construction of `View.__init__`: each string key
containing a dot is stripped through its first dot; a non-string key raises
`TypeError` (from `"." in table_cols`). -/
def unqualifySchema (table_schema : List (PyVal × PyVal)) :
    Except RunErr (List (PyVal × PyVal)) :=
  table_schema.foldlM (fun acc kv =>
    match kv.1 with
    | .vstr s =>
        if pyStrContains s.data ['.'] then
          .ok (pyDictInsert acc
            (.vstr (String.mk (pySliceFrom s.data (pyFind s.data ['.'] 0 + 1)))) kv.2)
        else .ok (pyDictInsert acc kv.1 kv.2)
    | _ => .error .typeErr) []

/-- The schema computation of `View.__init__`: for the single wildcard the
whole unqualified schema; otherwise the declared columns that occur verbatim
as keys of the unqualified schema, in declaration order.  A declared column
still written in qualified `table.col` form never matches an unqualified key
and is silently skipped. -/
def viewInitSchema (view_columns : List PyVal) (table_schema : List (PyVal × PyVal)) :
    Except RunErr (List (PyVal × PyVal)) :=
  match unqualifySchema table_schema with
  | .error e => .error e
  | .ok unq =>
      if pyListMem view_columns (.vstr "*") && view_columns.length == 1 then .ok unq
      else
        .ok (view_columns.foldl (fun acc col =>
          if pyDictContains unq col then
            pyDictInsert acc col ((pyDictGet unq col).getD PyVal.vnone)
          else acc) [])

/-- Source `View.__init__(view_name, table_name, view_columns, table_schema,
statement)`: the `Table` part starts empty and its schema, column names and
column count are overridden with the view schema. -/
def View.init (view_name table_name : PyVal) (view_columns : List PyVal)
    (table_schema : List (PyVal × PyVal)) (statement : List Char) :
    Except RunErr TableV :=
  match viewInitSchema view_columns table_schema with
  | .error e => .error e
  | .ok vschema =>
      .ok (.view
        { name := view_name, schema := vschema, column_names := vschema.map Prod.fst,
          default_values := [], column_size := (vschema.map Prod.fst).length,
          rows := [], size := 0 }
        { statement := statement, view_columns := view_columns, table_name := table_name })

/-- A database: name, table count, insertion-ordered table map and the
scratch slot for the most recently materialized join. -/
structure Database where
  name : String
  size : Int
  tables : List (PyVal × TableV)
  joined_table : Option Table
deriving DecidableEq, Repr

/-- Source `Database.add_table`: constructs a `Table` from the schema token
list and stores it. -/
def Database.add_table (db : Database) (table_name : PyVal) (values : List PyVal) :
    Except RunErr Database :=
  match Table.init table_name values with
  | .error e => .error e
  | .ok t =>
      .ok { db with tables := pyDictInsert db.tables table_name (.base t),
                    size := db.size + 1 }

/-- Source `Database.remove_table` (callers check the key is present first). -/
def Database.remove_table (db : Database) (table_name : PyVal) : Database :=
  { db with tables := pyDictPop db.tables table_name, size := db.size - 1 }

/-- Source `Database.add_view`. -/
def Database.add_view (db : Database) (view_name table_name : PyVal)
    (view_columns : List PyVal) (schema : List (PyVal × PyVal)) (statement : List Char) :
    Except RunErr Database :=
  match View.init view_name table_name view_columns schema statement with
  | .error e => .error e
  | .ok v =>
      .ok { db with tables := pyDictInsert db.tables view_name v, size := db.size + 1 }

/-- The joined schema of the E3/E6 scenario of the specification, used as the
concrete C5 input: a join of `names(name TEXT, id INTEGER)` with
`grades(id INTEGER, grade REAL)`. -/
def joinedSchemaE3 : List (PyVal × PyVal) :=
  [(.vstr "names.name", .vstr "TEXT"), (.vstr "names.id", .vstr "INTEGER"),
    (.vstr "grades.id", .vstr "INTEGER"), (.vstr "grades.grade", .vstr "REAL")]

/-- Strip a `table.` qualification (through the first dot) from a string. -/
def stripQual (v : PyVal) : PyVal :=
  match v with
  | .vstr s =>
      if pyStrContains s.data ['.'] then
        .vstr (String.mk (pySliceFrom s.data (pyFind s.data ['.'] 0 + 1)))
      else v
  | _ => v

/-- The view schema as claim C5 describes it: strip the qualification from
the backing schema's keys; for the single wildcard take it whole, otherwise
restrict to the declared columns — a qualified declared column referring to
its unqualified form — in list order. -/
def specViewSchema (view_columns : List PyVal) (table_schema : List (PyVal × PyVal)) :
    List (PyVal × PyVal) :=
  let unq := table_schema.foldl (fun acc kv => pyDictInsert acc (stripQual kv.1) kv.2) []
  if view_columns = [.vstr "*"] then unq
  else
    view_columns.foldl (fun acc col =>
      match pyDictGet unq (stripQual col) with
      | some ty => pyDictInsert acc (stripQual col) ty
      | none => acc) []

/-- C5 (code evaluated at the failing input): a view declared over the E3
join with qualified columns `names.name, grades.grade` gets the EMPTY schema
from `View.__init__` — the qualified declared names never match the
unqualified keys — whereas the claim requires the restriction
`{name: TEXT, grade: REAL}` (computed here by the spec-side definition).
With unqualified declared columns the code does produce the claimed
restriction. -/
theorem c5_view_schema_qualified_empty :
    viewInitSchema [.vstr "names.name", .vstr "grades.grade"] joinedSchemaE3 = .ok [] ∧
    specViewSchema [.vstr "names.name", .vstr "grades.grade"] joinedSchemaE3 =
      [(.vstr "name", .vstr "TEXT"), (.vstr "grade", .vstr "REAL")] ∧
    viewInitSchema [.vstr "name", .vstr "grade"]
        [(.vstr "name", .vstr "TEXT"), (.vstr "id", .vstr "INTEGER")] =
      .ok [(.vstr "name", .vstr "TEXT")] ∧
    viewInitSchema [.vstr "*"] joinedSchemaE3 =
      .ok [(.vstr "name", .vstr "TEXT"), (.vstr "id", .vstr "INTEGER"),
        (.vstr "grade", .vstr "REAL")] := by
  decide

/-! ## SELECT: filtering, ordering, projection (`Connection.select`) -/

/-- An entry of the `columns_index` list built by `Connection.select`: either
a column position or the literal string `"*"`. -/
inductive ColIdx where
  | idx (n : Nat)
  | star
deriving DecidableEq, Repr

/-- An element of the `distinct_column_set`: a cell value, or a whole record
tuple (the wildcard-DISTINCT case). -/
inductive DistKey where
  | val (v : PyVal)
  | tup (r : List PyVal)
deriving DecidableEq, Repr

/-- Python `==`/set-membership equality on `distinct_column_set` elements. -/
def distKeyEq : DistKey → DistKey → Bool
  | .val a, .val b => pyEq a b
  | .tup a, .tup b => rowEq a b
  | _, _ => false

/-- Membership in the `distinct_column_set` (a Python set, queried with
value equality). -/
def distMem (seen : List DistKey) (k : DistKey) : Bool :=
  seen.any (fun x => distKeyEq x k)

/-- The `conditions` preamble of `Connection.select`: extract the operator
(becoming `IS NOT` when the third token is the truthy string NOT) and the
comparison value (`None` in the IS case).  A present-but-empty conditions
list is falsy in Python and leaves both as `None`. -/
def condSetup (conditions : Option (List PyVal)) : Except RunErr (PyVal × PyVal) :=
  match conditions with
  | some cl =>
      if cl.length > 0 then
        match pyGetNat cl 1 with
        | .error e => .error e
        | .ok c1 =>
            if pyEq c1 (.vstr "IS") then
              match pyGetNat cl 2 with
              | .error e => .error e
              | .ok c2 =>
                  if pyTruthy c2 && pyEq c2 (.vstr "NOT") then .ok (.vstr "IS NOT", .vnone)
                  else .ok (c1, .vnone)
            else
              match pyGetNat cl 2 with
              | .error e => .error e
              | .ok c2 => .ok (c1, c2)
      else .ok (.vnone, .vnone)
  | none => .ok (.vnone, .vnone)

/-- The row-filtering loop of `Connection.select`: keep every row when no
conditions were given, otherwise keep the rows passing `check_row` (the
predicate column's index is recomputed for each row, as in the source). -/
def filterRows (table : Table) (conditions : Option (List PyVal)) (op value : PyVal) :
    Except RunErr (List (List PyVal)) :=
  table.rows.foldlM (fun acc row =>
    match conditions with
    | none => .ok (acc ++ [row])
    | some cl =>
        match pyGetNat cl 0 with
        | .error e => .error e
        | .ok column_name =>
            match pyListIndex table.column_names column_name with
            | .error e => .error e
            | .ok column_index =>
                match check_row row column_name column_index op value with
                | .error e => .error e
                | .ok b => .ok (if b then acc ++ [row] else acc)) []

/-- `order_indices`: positions of the ORDER BY columns that exist in the
table's column list (missing ones silently dropped). -/
def buildOrderIndices (order : List PyVal) (cn : List PyVal) : Except RunErr (List Nat) :=
  order.foldlM (fun acc nm =>
    if pyListMem cn nm then
      match pyListIndex cn nm with
      | .error e => .error e
      | .ok i => .ok (acc ++ [i])
    else .ok acc) []

/-- Three-way comparison underlying Python `<` on cells (`none` means the
pair is incomparable and comparison raises `TypeError`). -/
def pyCmpOpt : PyVal → PyVal → Option Ordering
  | .vint a, .vint b => some (if a < b then .lt else if b < a then .gt else .eq)
  | .vint a, .vreal b => some (if (a : Rat) < b then .lt else if b < (a : Rat) then .gt else .eq)
  | .vreal a, .vint b => some (if a < (b : Rat) then .lt else if (b : Rat) < a then .gt else .eq)
  | .vreal a, .vreal b => some (if a < b then .lt else if b < a then .gt else .eq)
  | .vstr a, .vstr b => some (if a < b then .lt else if b < a then .gt else .eq)
  | _, _ => none

/-- Strict key comparison for a single-column sort key (`itemgetter(i0)`). -/
def rowKeyLt1 (i0 : Nat) (ra rb : List PyVal) : Except RunErr Bool :=
  match pyGetNat ra i0 with
  | .error e => .error e
  | .ok ka =>
      match pyGetNat rb i0 with
      | .error e => .error e
      | .ok kb =>
          match pyCmpOpt ka kb with
          | some o => .ok (o == Ordering.lt)
          | none => .error .typeErr

/-- Strict key comparison for a two-column sort key
(`itemgetter(i0, i1)`): Python tuple `<` checks the first components with
`==` (never raising), comparing the second components only on equality. -/
def rowKeyLt2 (i0 i1 : Nat) (ra rb : List PyVal) : Except RunErr Bool :=
  match pyGetNat ra i0 with
  | .error e => .error e
  | .ok ka0 =>
      match pyGetNat rb i0 with
      | .error e => .error e
      | .ok kb0 =>
          if pyEq ka0 kb0 then
            match pyGetNat ra i1 with
            | .error e => .error e
            | .ok ka1 =>
                match pyGetNat rb i1 with
                | .error e => .error e
                | .ok kb1 =>
                    match pyCmpOpt ka1 kb1 with
                    | some o => .ok (o == Ordering.lt)
                    | none => .error .typeErr
          else
            match pyCmpOpt ka0 kb0 with
            | some o => .ok (o == Ordering.lt)
            | none => .error .typeErr

/-- Stable insertion of `x` into an already-sorted list: `x` goes before the
first element it is strictly less than, hence after all elements with equal
keys. -/
def insertSorted (lt : α → α → Except RunErr Bool) (x : α) :
    List α → Except RunErr (List α)
  | [] => .ok [x]
  | y :: rest =>
      match lt x y with
      | .error e => .error e
      | .ok true => .ok (x :: y :: rest)
      | .ok false =>
          match insertSorted lt x rest with
          | .ok rest' => .ok (y :: rest')
          | .error e => .error e

/-- Stable sort by a strict comparison that may raise.  This models
`list.sort`: the output and the raising condition agree with CPython except
that the exact comparison schedule (hence which of several incomparable
pairs raises first) may differ from timsort's. -/
def sortListM (lt : α → α → Except RunErr Bool) (l : List α) : Except RunErr (List α) :=
  l.foldlM (fun acc x => insertSorted lt x acc) []

/-- The ORDER BY phase of `Connection.select`: a single-key sort when exactly
one order index was found, otherwise a two-key sort reading
`order_indices[0]` and `order_indices[1]` (an `IndexError` when fewer than
two survive); `reverse=True` is the same stable sort under the flipped
comparison. -/
def sortPhase (result : List (List PyVal)) (order_indices : List Nat) (rev : Bool) :
    Except RunErr (List (List PyVal)) :=
  if order_indices.length == 1 then
    match pyGetNat order_indices 0 with
    | .error e => .error e
    | .ok i0 =>
        if rev then sortListM (fun a b => rowKeyLt1 i0 b a) result
        else sortListM (rowKeyLt1 i0) result
  else
    match pyGetNat order_indices 0 with
    | .error e => .error e
    | .ok i0 =>
        match pyGetNat order_indices 1 with
        | .error e => .error e
        | .ok i1 =>
            if rev then sortListM (fun a b => rowKeyLt2 i0 i1 b a) result
            else sortListM (rowKeyLt2 i0 i1) result

/-- `columns_index` construction: a name present in the column list yields
its position; otherwise a string name that is a substring of `"*"` yields the
star marker; other absent names are skipped; a non-string absent name raises
`TypeError` (from `name in "*"`). -/
def buildColumnsIndex (columns : List PyVal) (cn : List PyVal) :
    Except RunErr (List ColIdx) :=
  columns.foldlM (fun acc nm =>
    if pyListMem cn nm then
      match pyListIndex cn nm with
      | .error e => .error e
      | .ok i => .ok (acc ++ [ColIdx.idx i])
    else
      match nm with
      | .vstr s =>
          if pyStrContains "*".data s.data then .ok (acc ++ [ColIdx.star]) else .ok acc
      | _ => .error .typeErr) []

/-- The per-record projection loop of `Connection.select`: walk
`columns_index`, emitting each cell, except that a cell of the DISTINCT
column whose value was already seen is omitted (and a fresh value is
recorded); under the star marker the whole record is spliced in, with the
record tuple as the DISTINCT key when the DISTINCT column is `"*"`. -/
def slimRecordAux (cn : List PyVal) (dist : Option (List PyVal)) (record : List PyVal) :
    List ColIdx → List PyVal → List DistKey → Except RunErr (List PyVal × List DistKey)
  | [], acc, seen => .ok (acc, seen)
  | .idx i :: rest, acc, seen =>
      match dist with
      | some dl =>
          match pyGetNat cn i with
          | .error e => .error e
          | .ok cname =>
              match pyGetNat dl 0 with
              | .error e => .error e
              | .ok d0 =>
                  if pyEq cname d0 then
                    match pyGetNat record i with
                    | .error e => .error e
                    | .ok cell =>
                        if distMem seen (.val cell) then
                          slimRecordAux cn dist record rest acc seen
                        else
                          slimRecordAux cn dist record rest (acc ++ [cell])
                            (seen ++ [.val cell])
                  else
                    match pyGetNat record i with
                    | .error e => .error e
                    | .ok cell => slimRecordAux cn dist record rest (acc ++ [cell]) seen
      | none =>
          match pyGetNat record i with
          | .error e => .error e
          | .ok cell => slimRecordAux cn dist record rest (acc ++ [cell]) seen
  | .star :: rest, acc, seen =>
      match dist with
      | some dl =>
          match pyGetNat dl 0 with
          | .error e => .error e
          | .ok d0 =>
              if pyEq (.vstr "*") d0 then
                if distMem seen (.tup record) then slimRecordAux cn dist record rest acc seen
                else slimRecordAux cn dist record rest (acc ++ record) (seen ++ [.tup record])
              else slimRecordAux cn dist record rest (acc ++ record) seen
      | none => slimRecordAux cn dist record rest (acc ++ record) seen

/-- The slimming loop over all retained records: a record contributes its
projected tuple only when that tuple is non-empty. -/
def slimFold (cn : List PyVal) (cidx : List ColIdx) (dist : Option (List PyVal)) :
    List (List PyVal) → List DistKey → Except RunErr (List (List PyVal))
  | [], _ => .ok []
  | record :: rest, seen =>
      match slimRecordAux cn dist record cidx [] seen with
      | .error e => .error e
      | .ok (sr, seen') =>
          match slimFold cn cidx dist rest seen' with
          | .error e => .error e
          | .ok out => .ok (if sr.length != 0 then sr :: out else out)

/-- Source `Connection.select(table, columns, distinct, conditions, order)`. -/
def connSelect (table : Table) (columns : List PyVal) (distinct : Option (List PyVal))
    (conditions : Option (List PyVal)) (order : Option (List PyVal)) :
    Except RunErr (List (List PyVal)) :=
  match condSetup conditions with
  | .error e => .error e
  | .ok ov =>
      if columns.length > 0 then
        match filterRows table conditions ov.1 ov.2 with
        | .error e => .error e
        | .ok result =>
            let sorted : Except RunErr (List (List PyVal)) :=
              match order with
              | some ol =>
                  if ol.length > 0 then
                    match buildOrderIndices ol table.column_names with
                    | .error e => .error e
                    | .ok oi => sortPhase result oi (pyListMem ol (.vstr "DESC"))
                  else .ok result
              | none => .ok result
            match sorted with
            | .error e => .error e
            | .ok result2 =>
                match buildColumnsIndex columns table.column_names with
                | .error e => .error e
                | .ok cidx => slimFold table.column_names cidx distinct result2 []
      else .ok []

/-- The output row claim C10 predicts for a record whose DISTINCT-column
value was already emitted: the projected cells of all non-DISTINCT columns,
in projection order. -/
def distinctOmitted (cn : List PyVal) (cidx : List ColIdx) (d : PyVal)
    (record : List PyVal) : List PyVal :=
  cidx.filterMap fun c =>
    match c with
    | .idx i => if pyEq (cn.getD i .vnone) d then none else some (record.getD i .vnone)
    | .star => none

theorem pyGetNat_lt {l : List α} {i : Nat} (h : i < l.length) (dflt : α) :
    pyGetNat l i = .ok (l.getD i dflt) := by
  unfold pyGetNat
  rw [List.get?_eq_get h]
  simp [List.getD, List.getElem?_eq_getElem h]

theorem pyGetNat_cons_zero (x : α) (xs : List α) : pyGetNat (x :: xs) 0 = .ok x := rfl

theorem slimRecordAux_seen (cn : List PyVal) (d : PyVal) (record : List PyVal)
    (cidx : List ColIdx) (acc : List PyVal) (seen : List DistKey)
    (hidx : cidx.all (fun c =>
      match c with
      | .idx i => decide (i < record.length) && decide (i < cn.length)
      | .star => false) = true)
    (hseen : cidx.all (fun c =>
      match c with
      | .idx i => !pyEq (cn.getD i PyVal.vnone) d ||
          distMem seen (DistKey.val (record.getD i PyVal.vnone))
      | .star => true) = true) :
    slimRecordAux cn (some [d]) record cidx acc seen =
      .ok (acc ++ distinctOmitted cn cidx d record, seen) := by
  induction cidx generalizing acc with
  | nil => simp [slimRecordAux, distinctOmitted]
  | cons c rest ih =>
      simp only [List.all_cons, Bool.and_eq_true] at hidx hseen
      obtain ⟨hc, hrest⟩ := hidx
      obtain ⟨hs, hsrest⟩ := hseen
      cases c with
      | star => simp at hc
      | idx i =>
          dsimp only at hc hs
          simp only [Bool.and_eq_true, decide_eq_true_eq] at hc
          obtain ⟨hir, hic⟩ := hc
          unfold slimRecordAux
          dsimp only
          rw [pyGetNat_lt hic PyVal.vnone]
          dsimp only
          rw [pyGetNat_cons_zero]
          dsimp only
          by_cases hd : pyEq (cn.getD i PyVal.vnone) d = true
          · rw [if_pos hd, pyGetNat_lt hir PyVal.vnone]
            dsimp only
            have hmem : distMem seen (DistKey.val (record.getD i PyVal.vnone)) = true := by
              rcases (Bool.or_eq_true _ _).mp hs with h1 | h1
              · rw [hd] at h1
                exact absurd h1 (by simp)
              · exact h1
            rw [if_pos hmem, ih acc hrest hsrest]
            have hom : distinctOmitted cn (ColIdx.idx i :: rest) d record =
                distinctOmitted cn rest d record := by
              unfold distinctOmitted
              rw [List.filterMap_cons]
              dsimp only
              rw [if_pos hd]
            rw [hom]
          · rw [if_neg hd, pyGetNat_lt hir PyVal.vnone]
            dsimp only
            rw [ih (acc ++ [record.getD i PyVal.vnone]) hrest hsrest]
            have hom : distinctOmitted cn (ColIdx.idx i :: rest) d record =
                record.getD i PyVal.vnone :: distinctOmitted cn rest d record := by
              unfold distinctOmitted
              rw [List.filterMap_cons]
              dsimp only
              rw [if_neg hd]
            rw [hom]
            simp

/-- C10: for a SELECT DISTINCT over a multi-column projection, when a
retained record's value in the DISTINCT column has already been emitted, the
produced output row contains exactly the cells of the other projected
columns (only the DISTINCT cell is omitted, and the seen-set is unchanged),
and the record contributes a row to the result iff that projection is
non-empty — so a whole record is dropped only when its projection resolves
to zero cells. -/
theorem c10_distinct_partial_row (cn : List PyVal) (cidx : List ColIdx) (d : PyVal)
    (record : List PyVal) (seen : List DistKey)
    (hidx : cidx.all (fun c =>
      match c with
      | .idx i => decide (i < record.length) && decide (i < cn.length)
      | .star => false) = true)
    (hseen : cidx.all (fun c =>
      match c with
      | .idx i => !pyEq (cn.getD i PyVal.vnone) d ||
          distMem seen (DistKey.val (record.getD i PyVal.vnone))
      | .star => true) = true) :
    slimRecordAux cn (some [d]) record cidx [] seen =
      .ok (distinctOmitted cn cidx d record, seen) ∧
    ∀ rest out, slimFold cn cidx (some [d]) rest seen = .ok out →
      slimFold cn cidx (some [d]) (record :: rest) seen =
        .ok (if (distinctOmitted cn cidx d record).length != 0 then
              distinctOmitted cn cidx d record :: out
            else out) := by
  have h1 := slimRecordAux_seen cn d record cidx [] seen hidx hseen
  rw [List.nil_append] at h1
  refine ⟨h1, ?_⟩
  intro rest out hrest
  unfold slimFold
  rw [h1]
  dsimp only
  rw [hrest]

/-- Witness for C10: projecting columns `a, b` with DISTINCT on `a`, a record
`(1, 2)` whose value 1 in column `a` was already seen produces the partial
output row `(2,)`. -/
theorem c10_distinct_partial_row_witness :
    slimFold [.vstr "a", .vstr "b"] [.idx 0, .idx 1] (some [.vstr "a"])
      [[.vint 1, .vint 2]] [.val (.vint 1)] = .ok [[.vint 2]] := by
  have h := (c10_distinct_partial_row [.vstr "a", .vstr "b"] [.idx 0, .idx 1] (.vstr "a")
    [.vint 1, .vint 2] [.val (.vint 1)] (by decide) (by decide)).2 [] [] (by decide)
  rw [h]
  decide

/-! ## Worlds, the execution monad, and `Connection.lock_check`

A `World` models the state visible to one connection: the committed database
(the registry entry `_ALL_DATABASES[filename]`), the shared lock manager,
and the connection's own attributes.  Other connections to the same file are
represented by their effect on the shared lock counters.  The connection's
`self.database` is a `DbRef`: either an alias of the committed database (so
that mutation through it lands on the registry entry — CPython reference
semantics) or a private deep-copied snapshot. -/

/-- Errors surfaced by `Connection.execute`.  `runtime RunErr.assertErr` is
the malformed-statement error; `txnState` is raised only by the four
transaction-state raise sites; `lockConflict` only by the lock manager;
`schemaViolation` by the CREATE/DROP guards. -/
inductive Err where
  | txnState
  | schemaViolation
  | lockConflict
  | runtime (e : RunErr)
  | noFuel
deriving DecidableEq, Repr

/-- The connection's database handle. -/
inductive DbRef where
  | committedRef
  | snapshot (db : Database)
deriving DecidableEq, Repr

/-- The world one connection operates in. -/
structure World where
  committed : Database
  locks : LockSystem
  txnMode : Option String
  txnLock : Option String
  dbRef : DbRef
deriving DecidableEq, Repr

/-- Dereference the connection's handle (`self.database`). -/
def World.deref (w : World) : Database :=
  match w.dbRef with
  | .committedRef => w.committed
  | .snapshot db => db

/-- Mutate through the connection's handle: an aliasing handle mutates the
committed (registry) database in place. -/
def World.setDeref (w : World) (db : Database) : World :=
  match w.dbRef with
  | .committedRef => { w with committed := db }
  | .snapshot _ => { w with dbRef := .snapshot db }

/-- The execution monad: state passing over `World` where an error carries
the state mutated so far (CPython exception semantics). -/
def EM (α : Type) : Type := World → World × Except Err α

instance : Monad EM where
  pure a := fun w => (w, .ok a)
  bind x f := fun w =>
    match x w with
    | (w', .ok a) => f a w'
    | (w', .error e) => (w', .error e)

/-- Raise an exception. -/
def EM.throw (e : Err) : EM α := fun w => (w, .error e)

/-- Read the world. -/
def EM.getW : EM World := fun w => (w, .ok w)

/-- Update the world. -/
def EM.modifyW (f : World → World) : EM Unit := fun w => (f w, .ok ())

/-- Lift a Python-runtime computation. -/
def EM.liftR (x : Except RunErr α) : EM α := fun w =>
  (w, match x with
      | .ok a => .ok a
      | .error e => .error (.runtime e))

/-- `self.lock_system.add_lock(lock_type, current_lock)`: a raise mutates
nothing; on return the new counters are installed and the returned
truthiness handed back. -/
def EM.addLock (lock_type : String) (current_lock : Option String) : EM Bool := fun w =>
  match w.locks.add_lock lock_type current_lock with
  | .error _ => (w, .error .lockConflict)
  | .ok (b, l') => ({ w with locks := l' }, .ok b)

/-- `self.lock_system.remove_lock(lock_type)`. -/
def EM.removeLock (lock_type : Option String) : EM Unit := fun w =>
  ({ w with locks := w.locks.remove_lock lock_type }, .ok ())

/-- Source `Connection.lock_check(action)`. -/
def lock_check (action : String) : EM Unit := do
  let w ← EM.getW
  match w.txnMode with
  | none =>
      if action == "read" then do
        let b ← EM.addLock "shared" w.txnLock
        if b then
          EM.modifyW fun w0 => { w0 with txnLock := some "shared", dbRef := .committedRef }
        else pure ()
      else if action == "write" then do
        let b ← EM.addLock "exclusive" w.txnLock
        if b then
          EM.modifyW fun w0 =>
            { w0 with txnLock := some "exclusive", dbRef := .snapshot w0.committed }
        else pure ()
      else if action == "commit" then do
        let b ← EM.addLock "exclusive" w.txnLock
        if b then do
          EM.modifyW fun w0 => { w0 with txnLock := some "exclusive" }
          EM.removeLock (some "exclusive")
          EM.modifyW fun w0 =>
            { w0 with txnLock := none, committed := w0.deref, dbRef := .committedRef }
        else pure ()
      else if action == "relinquish" then do
        let w0 ← EM.getW
        EM.removeLock w0.txnLock
        EM.modifyW fun w1 => { w1 with txnLock := none }
      else pure ()
  | some mode =>
      if mode == "DEFERRED" then
        if action == "read" then do
          let w0 ← EM.getW
          if optTruthy w0.txnLock then pure ()
          else do
            let b ← EM.addLock "shared" w0.txnLock
            if b then EM.modifyW fun w1 => { w1 with txnLock := some "shared" }
            else pure ()
        else if action == "write" then do
          let w0 ← EM.getW
          let b ← EM.addLock "reserved" w0.txnLock
          if b then EM.modifyW fun w1 => { w1 with txnLock := some "reserved" }
          else pure ()
        else pure ()
      else if mode == "IMMEDIATE" then
        if action == "read" then pure ()
        else if action == "write" then do
          let w0 ← EM.getW
          if optTruthy w0.txnLock && optEqStr w0.txnLock "exclusive" then pure ()
          else do
            let b ← EM.addLock "reserved" w0.txnLock
            if b then EM.modifyW fun w1 => { w1 with txnLock := some "reserved" }
            else pure ()
        else pure ()
      else pure ()

/-- The trailing `if self.transaction_mode is None: self.lock_check("commit")`
of every write executor. -/
def autoCommit : EM Unit := do
  let w ← EM.getW
  if w.txnMode.isNone then lock_check "commit" else pure ()

/-- The trailing `if self.transaction_mode is None: self.lock_check("relinquish")`
of the two read executors. -/
def autoRelinquish : EM Unit := do
  let w ← EM.getW
  if w.txnMode.isNone then lock_check "relinquish" else pure ()

/-- `self.database.tables[name]` (KeyError when absent). -/
def EM.getTable (name : PyVal) : EM TableV := fun w =>
  match pyDictGet w.deref.tables name with
  | some tv => (w, .ok tv)
  | none => (w, .error (.runtime .keyErr))

/-- `self.database.tables[name] = tv` through the handle. -/
def EM.setTable (name : PyVal) (tv : TableV) : EM Unit := fun w =>
  (w.setDeref { w.deref with tables := pyDictInsert w.deref.tables name tv }, .ok ())

/-- Read `self.database` through the handle. -/
def EM.getDb : EM Database := fun w => (w, .ok w.deref)

/-- Write `self.database` through the handle. -/
def EM.setDb (db : Database) : EM Unit := fun w => (w.setDeref db, .ok ())

/-- Read-modify-write of a table object through the handle, mirroring
mutation through a Python alias into the tables dict. -/
def mutateTable (table_name : PyVal) (f : Table → Table) : EM Unit := do
  let tv ← EM.getTable table_name
  EM.setTable table_name (tv.setTbl (f tv.tbl))

/-! ## The statement executors of `Connection.execute` -/

/-- Python `sub in container` for strings: `TypeError` when the container is
not a string, or when it is and the left operand is not. -/
def pyInStrV (sub container : PyVal) : Except RunErr Bool :=
  match container, sub with
  | .vstr c, .vstr s => .ok (pyStrContains c.data s.data)
  | _, _ => .error .typeErr

/-- `tname + "." + col` (string concatenation; `TypeError` otherwise). -/
def qualify (tname col : PyVal) : Except RunErr PyVal :=
  match tname, col with
  | .vstr a, .vstr b => .ok (.vstr (a ++ "." ++ b))
  | _, _ => .error .typeErr

/-- `v[len(tname) + 1:]` (string slicing; `TypeError` on non-strings). -/
def stripLenPlus1 (tname v : PyVal) : Except RunErr PyVal :=
  match tname, v with
  | .vstr t, .vstr s => .ok (.vstr (String.mk (pySliceFrom s.data ((t.length : Int) + 1))))
  | _, _ => .error .typeErr

/-- Python tuple comparison: elementwise, first differing pair decides
(raising `TypeError` when incomparable), a proper prefix is smaller. -/
def pyTupCmp : List PyVal → List PyVal → Except RunErr Ordering
  | [], [] => .ok .eq
  | [], _ :: _ => .ok .lt
  | _ :: _, [] => .ok .gt
  | a :: as1, b :: bs =>
      if pyEq a b then pyTupCmp as1 bs
      else
        match pyCmpOpt a b with
        | some o => .ok o
        | none => .error .typeErr

/-- Python `max` over a list of row tuples (`ValueError` when empty). -/
def pyMaxList (l : List (List PyVal)) : Except RunErr (List PyVal) :=
  match l with
  | [] => .error .valueErr
  | x :: rest =>
      rest.foldlM (fun cur y =>
        match pyTupCmp y cur with
        | .error e => .error e
        | .ok o => .ok (if o == Ordering.gt then y else cur)) x

/-- Python `min` over a list of row tuples. -/
def pyMinList (l : List (List PyVal)) : Except RunErr (List PyVal) :=
  match l with
  | [] => .error .valueErr
  | x :: rest =>
      rest.foldlM (fun cur y =>
        match pyTupCmp y cur with
        | .error e => .error e
        | .ok o => .ok (if o == Ordering.lt then y else cur)) x

/-- The op/value extraction shared by the DELETE and UPDATE executors
(`op = conditions[1]`, a truthy NOT third token makes it `IS NOT`, otherwise
the third token is the comparison value). -/
def condFromList (cl : List PyVal) (c1 : PyVal) : EM (PyVal × PyVal) := do
  if pyEq c1 (.vstr "IS") then do
    let c2 ← EM.liftR (pyGetNat cl 2)
    if pyTruthy c2 && pyEq c2 (.vstr "NOT") then pure (.vstr "IS NOT", .vnone)
    else pure (c1, .vnone)
  else do
    let c2 ← EM.liftR (pyGetNat cl 2)
    pure (c1, c2)

/-- Source `Row.update_row`: assign the cell at the column index
(`IndexError` when the row is shorter). -/
def rowUpdate (row : List PyVal) (i : Nat) (v : PyVal) : Except RunErr (List PyVal) :=
  if i < row.length then .ok (row.set i v) else .error .indexErr

/-- Apply the SET assignments to one row, left to right; an exception leaves
the cells assigned so far in place. -/
def applyValues (cn : List PyVal) : List (PyVal × PyVal) → List PyVal →
    (List PyVal × Option RunErr)
  | [], row => (row, none)
  | (c, v) :: rest, row =>
      match pyListIndex cn c with
      | .error e => (row, some e)
      | .ok i =>
          match rowUpdate row i v with
          | .error e => (row, some e)
          | .ok row' => applyValues cn rest row'

/-- Update the rows whose flag is set, in order, stopping at the first
exception (rows already updated keep their new values). -/
def updateFlaggedSeq (cn : List PyVal) (values : List (PyVal × PyVal)) :
    List Bool → List (List PyVal) → (List (List PyVal) × Option RunErr)
  | _, [] => ([], none)
  | [], rows => (rows, none)
  | b :: fs, row :: rest =>
      if b then
        match applyValues cn values row with
        | (row', none) =>
            let pr := updateFlaggedSeq cn values fs rest
            (row' :: pr.1, pr.2)
        | (row', some e) => (row' :: rest, some e)
      else
        let pr := updateFlaggedSeq cn values fs rest
        (row :: pr.1, pr.2)

/-- `set_pairs`: pair up the filtered SET tokens two by two
(`sv[2k]`, `sv[2k + 1]`; an odd-length list raises `IndexError` on the last
pair). -/
def buildSetPairs (sv : List PyVal) : Except RunErr (List (PyVal × PyVal)) :=
  (List.range ((sv.length + 1) / 2)).foldlM (fun acc k =>
    match pyGetNat sv (2 * k) with
    | .error e => .error e
    | .ok c =>
        match pyGetNat sv (2 * k + 1) with
        | .error e => .error e
        | .ok v => .ok (acc ++ [(c, v)])) []

/-- The BEGIN ... TRANSACTION executor. -/
def beginBranch (tokens : List PyVal) : EM Unit := do
  let w ← EM.getW
  if w.txnMode.isSome then EM.throw .txnState
  else do
    let mode ← EM.liftR (pyGetI tokens 1)
    if pyEq mode (.vstr "DEFERRED") || pyEq mode (.vstr "TRANSACTION") then
      EM.modifyW fun w0 =>
        { w0 with dbRef := .snapshot w0.committed, txnMode := some "DEFERRED",
                  txnLock := none }
    else if pyEq mode (.vstr "IMMEDIATE") then do
      EM.modifyW fun w0 =>
        { w0 with dbRef := .snapshot w0.committed, txnMode := some "IMMEDIATE" }
      let b ← EM.addLock "reserved" none
      if b then EM.modifyW fun w0 => { w0 with txnLock := some "reserved" } else pure ()
    else if pyEq mode (.vstr "EXCLUSIVE") then do
      EM.modifyW fun w0 =>
        { w0 with dbRef := .snapshot w0.committed, txnMode := some "EXCLUSIVE" }
      let b ← EM.addLock "exclusive" none
      if b then EM.modifyW fun w0 => { w0 with txnLock := some "exclusive" } else pure ()
    else EM.throw .txnState

/-- The COMMIT TRANSACTION executor. -/
def commitBranch : EM Unit := do
  let w ← EM.getW
  if w.txnMode.isNone then EM.throw .txnState
  else do
    let w0 ← EM.getW
    if w0.txnLock.isNone then
      EM.modifyW fun w1 => { w1 with txnMode := none, dbRef := .committedRef }
    else pure ()
    let w1 ← EM.getW
    if optEqStr w1.txnLock "shared" then do
      EM.removeLock w1.txnLock
      EM.modifyW fun w2 => { w2 with txnLock := none, txnMode := none, dbRef := .committedRef }
    else if optEqStr w1.txnLock "reserved" then do
      let b ← EM.addLock "exclusive" w1.txnLock
      if b then do
        EM.modifyW fun w2 => { w2 with txnLock := some "exclusive" }
        EM.removeLock (some "exclusive")
        EM.modifyW fun w2 =>
          { w2 with txnLock := none, txnMode := none, committed := w2.deref,
                    dbRef := .committedRef }
      else pure ()
    else if optEqStr w1.txnLock "exclusive" then do
      EM.removeLock w1.txnLock
      EM.modifyW fun w2 =>
        { w2 with txnLock := none, txnMode := none, committed := w2.deref,
                  dbRef := .committedRef }
    else pure ()

/-- The ROLLBACK TRANSACTION executor. -/
def rollbackBranch : EM Unit := do
  let w ← EM.getW
  if w.txnMode.isNone then EM.throw .txnState
  else do
    EM.removeLock w.txnLock
    EM.modifyW fun w1 => { w1 with txnLock := none, txnMode := none, dbRef := .committedRef }

/-- The tail of the CREATE TABLE executor once the table name is settled. -/
def createTableCore (tokens : List PyVal) (table_name : PyVal) : EM Unit := do
  let schema_begin ← EM.liftR (pyListIndex tokens table_name)
  let schema := pySlice tokens ((schema_begin : Int) + 2) (-2)
  let db ← EM.getDb
  let db' ← EM.liftR (db.add_table table_name schema)
  EM.setDb db'
  autoCommit

/-- The CREATE TABLE executor.  An early `return None` (IF NOT EXISTS with
the table present) skips both the creation and the auto-commit, leaving the
exclusive lock held. -/
def createTableBranch (tokens : List PyVal) : EM Unit := do
  lock_check "write"
  let t2 ← EM.liftR (pyGetI tokens 2)
  let ifne ←
    (if pyEq t2 (.vstr "IF") then do
      let t3 ← EM.liftR (pyGetI tokens 3)
      if pyEq t3 (.vstr "NOT") then do
        let t4 ← EM.liftR (pyGetI tokens 4)
        pure (pyEq t4 (.vstr "EXISTS"))
      else pure false
    else pure false)
  if ifne then do
    let table_name ← EM.liftR (pyGetI tokens 5)
    let db ← EM.getDb
    if pyDictContains db.tables table_name then pure ()
    else createTableCore tokens table_name
  else do
    let table_name ← EM.liftR (pyGetI tokens 2)
    let db ← EM.getDb
    if pyDictContains db.tables table_name then EM.throw .schemaViolation
    else createTableCore tokens table_name

/-- The tail of the DROP TABLE executor. -/
def dropCore (table_name : PyVal) : EM Unit := do
  let db ← EM.getDb
  EM.setDb (db.remove_table table_name)
  autoCommit

/-- The DROP TABLE executor. -/
def dropTableBranch (tokens : List PyVal) : EM Unit := do
  lock_check "write"
  let t2 ← EM.liftR (pyGetI tokens 2)
  let ife ←
    (if pyEq t2 (.vstr "IF") then do
      let t3 ← EM.liftR (pyGetI tokens 3)
      pure (pyEq t3 (.vstr "EXISTS"))
    else pure false)
  if ife then do
    let table_name ← EM.liftR (pyGetI tokens 4)
    let db ← EM.getDb
    if !pyDictContains db.tables table_name then pure ()
    else dropCore table_name
  else do
    let table_name ← EM.liftR (pyGetI tokens 2)
    let db ← EM.getDb
    if !pyDictContains db.tables table_name then EM.throw .schemaViolation
    else dropCore table_name

/-- The multi-entry VALUES loop of the INSERT executor.  `entry_start`
strictly increases between iterations (the next `(` is searched from the
current `)` onwards), so fuel `|tokens| + 1` suffices.  The source's trailing
re-assignment of `value_entry` after the index updates is dead code
(overwritten at the top of the next iteration) and is not modelled. -/
def insertLoop (tokens : List PyVal) (table_name : PyVal)
    (columns_to_insert : Option (List PyVal)) :
    Nat → Nat → Nat → Nat → EM Unit
  | 0, _, _, _ => EM.throw (.runtime .diverge)
  | fuel + 1, entry_start, entry_end, values_end =>
      if entry_start < values_end then do
        let value_entry := (pySlice tokens (entry_start : Int) (entry_end : Int)).filter
          (fun v => !pyEq v (.vstr ",") && !pyEq v (.vstr "("))
        mutateTable table_name (fun t => t.insert_row (.vals value_entry) columns_to_insert)
        if !pyListMem (tokens.drop entry_end) (.vstr "(") then pure ()
        else do
          let es ← EM.liftR (pyListIndexFrom tokens (.vstr "(") entry_end)
          let ee ← EM.liftR (pyListIndexFrom tokens (.vstr ")") es)
          insertLoop tokens table_name columns_to_insert fuel es ee values_end
      else pure ()

/-- The INSERT INTO executor. -/
def insertBranch (tokens : List PyVal) : EM Unit := do
  lock_check "write"
  let table_name ← EM.liftR (pyGetI tokens 2)
  let _tv ← EM.getTable table_name
  let values_index ← EM.liftR (pyListIndex tokens (.vstr "VALUES"))
  let tprev ← EM.liftR (pyGetI tokens ((values_index : Int) - 1))
  if pyEq tprev (.vstr "DEFAULT") then do
    mutateTable table_name (fun t => t.insert_row .defaultMarker none)
    autoCommit
  else do
    let columns_to_insert ←
      (if (values_index : Int) - 3 != 0 then do
        let cs ← EM.liftR (pyListIndexFrom tokens (.vstr "(") 2)
        let cols_start := cs + 1
        let cols_end ← EM.liftR (pyListIndexBetween tokens (.vstr ")") cols_start values_index)
        pure (some ((pySlice tokens (cols_start : Int) (cols_end : Int)).filter
          (fun v => !pyEq v (.vstr ","))))
      else pure (none : Option (List PyVal)))
    let values_end ← EM.liftR (pyListIndexFrom tokens (.vstr ";") values_index)
    let es ← EM.liftR (pyListIndexFrom tokens (.vstr "(") values_index)
    let entry_start := es + 1
    let entry_end ← EM.liftR (pyListIndexFrom tokens (.vstr ")") entry_start)
    insertLoop tokens table_name columns_to_insert (tokens.length + 1)
      entry_start entry_end values_end
    autoCommit

/-- Source `Connection.delete_from(table_name, conditions)`. -/
def delete_from (table_name : PyVal) (conditions : Option (List PyVal)) : EM Unit := do
  let tv ← EM.getTable table_name
  let table := tv.tbl
  if table.size == 0 then pure ()
  else
    match conditions with
    | none => EM.setTable table_name (tv.setTbl { table with rows := [], size := 0 })
    | some cl => do
        let column_name ← EM.liftR (pyGetNat cl 0)
        let column_index ← EM.liftR (table.get_column_index column_name)
        let c1 ← EM.liftR (pyGetNat cl 1)
        let opv ← condFromList cl c1
        let rows_to_remove ← EM.liftR (table.rows.foldlM (fun acc row =>
          match check_row row column_name column_index opv.1 opv.2 with
          | .error e => .error e
          | .ok b => .ok (if b then acc ++ [row] else acc)) [])
        mutateTable table_name (fun t => rows_to_remove.foldl (fun tt r => tt.remove_row r) t)

/-- The DELETE FROM executor. -/
def deleteBranch (tokens : List PyVal) : EM Unit := do
  lock_check "write"
  let table_name ← EM.liftR (pyGetI tokens 2)
  let conditions ←
    (if pyListMem (tokens.drop 1) (.vstr "WHERE") then do
      let wi ← EM.liftR (pyListIndex tokens (.vstr "WHERE"))
      pure (some ((pySlice tokens ((wi : Int) + 1) (-1)).filter
        (fun v => v == PyVal.vnone || !pyEq v (.vstr ","))))
    else pure (none : Option (List PyVal)))
  delete_from table_name conditions
  autoCommit

/-- Source `Connection.update_table` (taking the table's dict key; the
source receives the aliased object itself). -/
def update_table (table_name : PyVal) (values : Option (List (PyVal × PyVal)))
    (conditions : Option (List PyVal)) : EM Unit := do
  let tv ← EM.getTable table_name
  let table := tv.tbl
  if table.size == 0 then pure ()
  else
    match conditions with
    | none =>
        match values with
        | none => if table.rows.isEmpty then pure () else EM.throw (.runtime .typeErr)
        | some vs => do
            let pr := updateFlaggedSeq table.column_names vs
              (table.rows.map (fun _ => true)) table.rows
            mutateTable table_name (fun t => { t with rows := pr.1 })
            match pr.2 with
            | some e => EM.throw (.runtime e)
            | none => pure ()
    | some cl => do
        let column_name ← EM.liftR (pyGetNat cl 0)
        let column_index ← EM.liftR (table.get_column_index column_name)
        let c1 ← EM.liftR (pyGetNat cl 1)
        let opv ← condFromList cl c1
        let flags ← EM.liftR (table.rows.foldlM (fun acc row =>
          match check_row row column_name column_index opv.1 opv.2 with
          | .error e => .error e
          | .ok b => .ok (acc ++ [b])) [])
        match values with
        | none =>
            if flags.any (fun b => b) then EM.throw (.runtime .typeErr) else pure ()
        | some vs => do
            let pr := updateFlaggedSeq table.column_names vs flags table.rows
            mutateTable table_name (fun t => { t with rows := pr.1 })
            match pr.2 with
            | some e => EM.throw (.runtime e)
            | none => pure ()

/-- The UPDATE executor. -/
def updateBranch (tokens : List PyVal) : EM Unit := do
  lock_check "write"
  let table_name ← EM.liftR (pyGetI tokens 1)
  let _tv ← EM.getTable table_name
  let end_index0 ← EM.liftR (pyListIndex tokens (.vstr ";"))
  let wc ←
    (if pyListMem ((tokens.take end_index0).drop 1) (.vstr "WHERE") then do
      let wi ← EM.liftR (pyListIndex tokens (.vstr "WHERE"))
      pure (some wi)
    else pure (none : Option Nat))
  let conditions : Option (List PyVal) :=
    match wc with
    | some wi => some ((pySlice tokens ((wi : Int) + 1) (-1)).filter
        (fun v => v == PyVal.vnone || !pyEq v (.vstr ",")))
    | none => none
  let end_index := match wc with | some wi => wi | none => end_index0
  let set_values ←
    (if pyListMem ((tokens.take end_index).drop 1) (.vstr "SET") then do
      let si ← EM.liftR (pyListIndex tokens (.vstr "SET"))
      let sv := (pySlice tokens ((si : Int) + 1) (end_index : Int)).filter
        (fun v => v == PyVal.vnone || (!pyEq v (.vstr ",") && !pyEq v (.vstr "=")))
      let pairs ← EM.liftR (buildSetPairs sv)
      pure (some pairs)
    else pure (none : Option (List (PyVal × PyVal))))
  update_table table_name set_values conditions
  autoCommit

/-- The `keywords` list at the top of `Connection.execute`. -/
def executeKeywords : List PyVal :=
  [.vstr "CREATE", .vstr "SELECT", .vstr "INSERT", .vstr "DELETE", .vstr "FROM",
    .vstr "ORDER", .vstr "GROUP", .vstr "WHERE"]

/-- The result of `Connection.execute`: Python `None` or a list of row
tuples. -/
abbrev ExecRes := Option (List (List PyVal))

/-- The projection-gathering loop of the join executor.  `table1.columns`
does not exist (`Table` declares `__slots__` without it), so a bare column
name reaching the final branch raises `AttributeError`. -/
def joinColumns (tokens : List PyVal) (join_key_start : Nat)
    (table1_name table2_name : PyVal) : Except RunErr (List PyVal) :=
  (pySlice tokens 1 ((join_key_start : Int) - 2)).foldlM (fun acc column =>
    match pyInStrV table1_name column with
    | .error e => .error e
    | .ok b1 =>
        if b1 then .ok (acc ++ [column])
        else
          match pyInStrV table2_name column with
          | .error e => .error e
          | .ok b2 =>
              if b2 then .ok (acc ++ [column])
              else if pyEq column (.vstr ",") then .ok acc
              else
                match pyInStrV (.vstr "*") column with
                | .error e => .error e
                | .ok bs =>
                    if bs then .ok (acc ++ [column])
                    else .error .attrErr) []

/-- Find the first foreign row whose join-key cell equals the primary key. -/
def findForeign (t2c : Nat) (pk : PyVal) : List (List PyVal) →
    Except RunErr (Option (List PyVal))
  | [] => .ok none
  | fr :: rest =>
      match pyGetNat fr t2c with
      | .error e => .error e
      | .ok v => if pyEq pk v then .ok (some fr) else findForeign t2c pk rest

/-- The LEFT OUTER JOIN executor.  Note that it stores the materialized join
into the scratch `joined_table` slot THROUGH THE CONNECTION'S HANDLE: in
auto-commit mode the handle aliases the committed database, which is mutated
in place. -/
def joinBranch (tokens : List PyVal) : EM (List (List PyVal)) := do
  lock_check "read"
  let join_key_start ← EM.liftR (pyListIndex tokens (.vstr "LEFT"))
  let join_key_end ← EM.liftR (pyListIndexFrom tokens (.vstr "JOIN") join_key_start)
  let table1_name ← EM.liftR (pyGetI tokens ((join_key_start : Int) - 1))
  let table2_name ← EM.liftR (pyGetI tokens ((join_key_end : Int) + 1))
  let tv1 ← EM.getTable table1_name
  let tv2 ← EM.getTable table2_name
  let table1 := tv1.tbl
  let table2 := tv2.tbl
  let on_index ← EM.liftR (pyListIndexFrom tokens (.vstr "ON") join_key_end)
  let on_conditions := (pySlice tokens ((on_index : Int) + 1) ((on_index : Int) + 4)).filter
    (fun v => v == PyVal.vnone || (!pyEq v (.vstr ",") && !pyListMem executeKeywords v))
  let order ←
    (if pyListMem (tokens.drop 1) (.vstr "ORDER") then do
      let semi ← EM.liftR (pyListIndex tokens (.vstr ";"))
      let oi ← EM.liftR (pyListIndexBetween tokens (.vstr "ORDER") on_index semi)
      pure (some ((pySlice tokens ((oi : Int) + 2) (semi : Int)).filter
        (fun v => !pyEq v (.vstr ","))))
    else pure (none : Option (List PyVal)))
  let columns ← EM.liftR (joinColumns tokens join_key_start table1_name table2_name)
  let joined0 : Table :=
    { name := .vstr "JoinedTable", schema := [], column_names := [], default_values := [],
      column_size := 0, rows := [], size := 0 }
  let joined1 ← EM.liftR (table1.schema.foldlM (fun jt kv =>
    match qualify table1.name kv.1 with
    | .error e => .error e
    | .ok q => .ok (jt.add_column q kv.2)) joined0)
  let joined2 ← EM.liftR (table2.schema.foldlM (fun jt kv =>
    match qualify table2.name kv.1 with
    | .error e => .error e
    | .ok q => .ok (jt.add_column q kv.2)) joined1)
  let c0 ← EM.liftR (pyGetNat on_conditions 0)
  let cm1 ← EM.liftR (pyGetI on_conditions (-1))
  let key1 ← EM.liftR (stripLenPlus1 table1_name c0)
  let key2 ← EM.liftR (stripLenPlus1 table2_name cm1)
  let t1c ← EM.liftR (table1.get_column_index key1)
  let t2c ← EM.liftR (table2.get_column_index key2)
  let primary_keys ← EM.liftR (table1.rows.foldlM (fun acc row =>
    match pyGetNat row t1c with
    | .error e => .error e
    | .ok v => .ok (acc ++ [v])) [])
  let foreign_rows ← EM.liftR (table2.rows.foldlM (fun acc row =>
    match pyGetNat row t2c with
    | .error e => .error e
    | .ok v => .ok (if pyListMem primary_keys v then acc ++ [row] else acc)) [])
  let joined3 ← EM.liftR (table1.rows.foldlM (fun jt row =>
    match pyGetNat row t1c with
    | .error e => .error e
    | .ok pk =>
        match findForeign t2c pk foreign_rows with
        | .error e => .error e
        | .ok (some fr) => .ok (jt.insert_row (.vals (row ++ fr)) none)
        | .ok none =>
            .ok (jt.insert_row
              (.vals (row ++ List.replicate table2.column_size PyVal.vnone)) none)) joined2)
  EM.modifyW fun w => w.setDeref { w.deref with joined_table := some joined3 }
  let query_result ← EM.liftR (connSelect joined3 columns none none order)
  autoRelinquish
  -- `query_result if len(query_result) > 0 else []` is the same list either way
  pure query_result

/-- The view re-materialization step of the SELECT executor: re-execute the
stored statement, rebuild the view object with fresh rows, and store it back
into the tables dict through the handle. -/
def viewRematerialize (rec : List Char → EM ExecRes) (table_name : PyVal)
    (vt : Table) (vd : ViewData) : EM Table := do
  let result ← rec vd.statement
  match result with
  | none => EM.throw (.runtime .typeErr)
  | some rows => do
      let nv ← EM.liftR (View.init vt.name table_name vd.view_columns vt.schema vd.statement)
      let nv2 := rows.foldl
        (fun acc row => acc.setTbl (acc.tbl.insert_row (.vals row) none)) nv
      EM.setTable nv2.tbl.name nv2
      pure nv2.tbl

/-- The SELECT executor after the target table is settled: aggregate
detection, DISTINCT, projection columns, WHERE, ORDER BY, the call to
`Connection.select`, lock release and the aggregate reduction. -/
def selectRest (tokens : List PyVal) (from_keyword : Nat) (table_name : PyVal)
    (table : Table) : EM (List (List PyVal)) := do
  let aggregate ← EM.liftR (do
    let am ←
      (if pyListMem tokens (.vstr "MAX") then do
        let i ← pyListIndex tokens (.vstr "MAX")
        pure (if i < from_keyword then some (PyVal.vstr "MAX") else none)
      else pure (none : Option PyVal))
    match am with
    | some a => pure (some a)
    | none =>
        if pyListMem tokens (.vstr "MIN") then do
          let i ← pyListIndex tokens (.vstr "MIN")
          pure (if i < from_keyword then some (PyVal.vstr "MIN") else none)
        else pure (none : Option PyVal))
  let dc ←
    (if pyListMem (tokens.take from_keyword) (.vstr "DISTINCT") then do
      let di ← EM.liftR (pyListIndex tokens (.vstr "DISTINCT"))
      let dv ← EM.liftR (pyGetNat tokens (di + 1))
      pure (some (di, [dv]))
    else pure (none : Option (Nat × List PyVal)))
  let distinct_columns := dc.map Prod.snd
  let curr_index0 := match dc with | some p => p.1 | none => 1
  let columns ← EM.liftR (((tokens.take from_keyword).drop curr_index0).foldlM
    (fun acc column =>
      match pyInStrV (.vstr ".") column with
      | .error e => .error e
      | .ok hdot =>
          if hdot then
            match pyInStrV table_name column with
            | .error e => .error e
            | .ok htab =>
                if htab then
                  match stripLenPlus1 table_name column with
                  | .error e => .error e
                  | .ok c' => .ok (acc ++ [c'])
                else if !pyEq column (.vstr ",") && !pyEq column (.vstr "DISTINCT") then
                  .ok (acc ++ [column])
                else .ok acc
          else if !pyEq column (.vstr ",") && !pyEq column (.vstr "DISTINCT") then
            .ok (acc ++ [column])
          else .ok acc) [])
  let wcond ←
    (if pyListMem (tokens.drop from_keyword) (.vstr "WHERE") then do
      let wi ← EM.liftR (pyListIndex tokens (.vstr "WHERE"))
      let conds0 := (pySlice tokens ((wi : Int) + 1) ((wi : Int) + 4)).filter
        (fun v => v == PyVal.vnone || (!pyEq v (.vstr ",") && !pyListMem executeKeywords v))
      let c0 ← EM.liftR (pyGetNat conds0 0)
      let conds1 ← EM.liftR (
        match pyInStrV (.vstr ".") c0 with
        | .error e => .error e
        | .ok hdot =>
            if hdot then
              match pyInStrV table_name c0 with
              | .error e => .error e
              | .ok htab =>
                  if htab then
                    match stripLenPlus1 table_name c0 with
                    | .error e => .error e
                    | .ok c0' => .ok (conds0.set 0 c0')
                  else .ok conds0
            else .ok conds0)
      pure (some conds1)
    else pure (none : Option (List PyVal)))
  let curr_index1 : Nat :=
    match wcond with
    | some cl => from_keyword + cl.length + 1
    | none => from_keyword
  let order ←
    (if pyListMem (tokens.drop (curr_index1 + 1)) (.vstr "ORDER") then do
      let tail := tokens.drop (curr_index1 + 4)
      let order0 := (pySliceTo tail (-1)).filter (fun v => !pyEq v (.vstr ","))
      let order1 ← EM.liftR (order0.foldlM (fun acc column =>
        match pyInStrV (.vstr ".") column with
        | .error e => .error e
        | .ok hdot =>
            if hdot then
              match pyInStrV table_name column with
              | .error e => .error e
              | .ok htab =>
                  if htab then
                    match stripLenPlus1 table_name column with
                    | .error e => .error e
                    | .ok c' => .ok (acc ++ [c'])
                  else .ok (acc ++ [column])
            else .ok (acc ++ [column])) [])
      pure (some order1)
    else pure (none : Option (List PyVal)))
  let query_result ← EM.liftR (connSelect table columns distinct_columns wcond order)
  autoRelinquish
  match aggregate with
  | some a =>
      if pyEq a (.vstr "MAX") then do
        let m ← EM.liftR (pyMaxList query_result)
        pure [m]
      else do
        let m ← EM.liftR (pyMinList query_result)
        pure [m]
  | none => pure query_result

/-- The SELECT executor.  `rec` re-enters `execute` for the stored statement
of a view. -/
def selectBranch (rec : List Char → EM ExecRes) (tokens : List PyVal) :
    EM (List (List PyVal)) := do
  lock_check "read"
  let from_keyword ← EM.liftR (pyListIndex tokens (.vstr "FROM"))
  let table_name ← EM.liftR (pyGetI tokens ((from_keyword : Int) + 1))
  let tv ← EM.getTable table_name
  let table ←
    (match tv with
    | .view vt vd => viewRematerialize rec table_name vt vd
    | .base t => pure t)
  selectRest tokens from_keyword table_name table

/-- The tail of the CREATE VIEW executor: lock upgrade, view creation, row
filling, scratch-slot clearing, auto-commit. -/
def createViewCore (view_name table_name : PyVal) (view_columns : List PyVal)
    (table_schema : List (PyVal × PyVal)) (view_statement : List Char)
    (result : ExecRes) : EM Unit := do
  lock_check "write"
  let db ← EM.getDb
  let db' ← EM.liftR (db.add_view view_name table_name view_columns table_schema
    view_statement)
  EM.setDb db'
  match result with
  | none => EM.throw (.runtime .typeErr)
  | some rows => do
      rows.forM (fun row => mutateTable view_name (fun t => t.insert_row (.vals row) none))
      EM.modifyW fun w => w.setDeref { w.deref with joined_table := none }
      autoCommit

/-- The CREATE VIEW executor.  `view_statement` is the raw statement text
from the first occurrence of the substring SELECT onwards. -/
def createViewBranch (rec : List Char → EM ExecRes) (stmt : List Char)
    (tokens : List PyVal) : EM Unit := do
  lock_check "read"
  let view_name ← EM.liftR (pyGetI tokens 2)
  let db0 ← EM.getDb
  if pyDictContains db0.tables view_name then EM.throw .schemaViolation
  else do
    let from_index ← EM.liftR (pyListIndex tokens (.vstr "FROM"))
    let _select_index ← EM.liftR (pyListIndex tokens (.vstr "SELECT"))
    let view_columns := (pySlice tokens ((_select_index : Int) + 1) (from_index : Int)).filter
      (fun v => !pyEq v (.vstr ","))
    let table_name0 ← EM.liftR (pyGetI tokens ((from_index : Int) + 1))
    let view_statement := pySliceFrom stmt (pyFind stmt "SELECT".data 0)
    let f2 ← EM.liftR (pyGetI tokens ((from_index : Int) + 2))
    let isJoin ←
      (if pyEq f2 (.vstr "LEFT") then do
        let f3 ← EM.liftR (pyGetI tokens ((from_index : Int) + 3))
        if pyEq f3 (.vstr "OUTER") then do
          let f4 ← EM.liftR (pyGetI tokens ((from_index : Int) + 4))
          pure (pyEq f4 (.vstr "JOIN"))
        else pure false
      else pure false)
    if isJoin then do
      let result ← rec view_statement
      let db1 ← EM.getDb
      match db1.joined_table with
      | none => EM.throw (.runtime .attrErr)
      | some jt =>
          createViewCore view_name jt.name view_columns jt.schema view_statement result
    else do
      let db1 ← EM.getDb
      if !pyDictContains db1.tables table_name0 then EM.throw .schemaViolation
      else do
        let result ← rec view_statement
        let db2 ← EM.getDb
        match pyDictGet db2.tables table_name0 with
        | none => EM.throw (.runtime .keyErr)
        | some btv =>
            createViewCore view_name table_name0 view_columns btv.tbl.schema
              view_statement result

/-- The dispatcher of `Connection.execute` over the token list of a
well-terminated statement.  The guard indexing uses a total default read:
whenever a guarded head matches, the trailing semicolon forces the token
list to have length at least two, so `tokens[1]` and `tokens[-2]` are in
range exactly when Python would evaluate them. -/
def execTokens (rec : List Char → EM ExecRes) (stmt : List Char) (tokens : List PyVal) :
    EM ExecRes :=
  if pyEq (tokens.getD 0 PyVal.vnone) (.vstr "BEGIN") &&
      pyEq (tokens.getD (tokens.length - 2) PyVal.vnone) (.vstr "TRANSACTION") then do
    beginBranch tokens
    pure none
  else if pyEq (tokens.getD 0 PyVal.vnone) (.vstr "COMMIT") &&
      pyEq (tokens.getD 1 PyVal.vnone) (.vstr "TRANSACTION") then do
    commitBranch
    pure none
  else if pyEq (tokens.getD 0 PyVal.vnone) (.vstr "ROLLBACK") &&
      pyEq (tokens.getD 1 PyVal.vnone) (.vstr "TRANSACTION") then do
    rollbackBranch
    pure none
  else if pyEq (tokens.getD 0 PyVal.vnone) (.vstr "CREATE") &&
      pyEq (tokens.getD 1 PyVal.vnone) (.vstr "TABLE") then do
    createTableBranch tokens
    pure none
  else if pyEq (tokens.getD 0 PyVal.vnone) (.vstr "CREATE") &&
      pyEq (tokens.getD 1 PyVal.vnone) (.vstr "VIEW") then do
    createViewBranch rec stmt tokens
    pure none
  else if pyEq (tokens.getD 0 PyVal.vnone) (.vstr "DROP") &&
      pyEq (tokens.getD 1 PyVal.vnone) (.vstr "TABLE") then do
    dropTableBranch tokens
    pure none
  else if pyEq (tokens.getD 0 PyVal.vnone) (.vstr "INSERT") &&
      pyEq (tokens.getD 1 PyVal.vnone) (.vstr "INTO") then do
    insertBranch tokens
    pure none
  else if pyEq (tokens.getD 0 PyVal.vnone) (.vstr "DELETE") &&
      pyEq (tokens.getD 1 PyVal.vnone) (.vstr "FROM") then do
    deleteBranch tokens
    pure none
  else if pyEq (tokens.getD 0 PyVal.vnone) (.vstr "UPDATE") then do
    updateBranch tokens
    pure none
  else if pyListMem tokens (.vstr "LEFT") && pyListMem tokens (.vstr "OUTER") &&
      pyListMem tokens (.vstr "JOIN") then do
    let r ← joinBranch tokens
    pure (some r)
  else if pyEq (tokens.getD 0 PyVal.vnone) (.vstr "SELECT") then do
    let r ← selectBranch rec tokens
    pure (some r)
  else pure none

/-- Source `Connection.execute(statement)`: tokenize, require a trailing
semicolon, dispatch.  `fuel` bounds the view re-evaluation depth (the source
recursion is unbounded for cyclically defined views). -/
def executeStmt : Nat → List Char → EM ExecRes
  | 0, _ => fun w => (w, .error .noFuel)
  | fuel + 1, stmt => fun w =>
      match tokenize stmt with
      | .error e => (w, .error (.runtime e))
      | .ok tokens =>
          if tokens.length == 0 ||
              !pyEq (tokens.getD (tokens.length - 1) PyVal.vnone) (.vstr ";") then
            (w, .error (.runtime .assertErr))
          else execTokens (executeStmt fuel) stmt tokens w

/-! ## Concrete worlds for the C1 and C6 evidence -/

/-- An empty committed database. -/
def emptyDb : Database :=
  { name := "x.db", size := 0, tables := [], joined_table := none }

/-- A fresh auto-commit connection over the empty database. -/
def emptyWorld : World :=
  { committed := emptyDb, locks := initLocks, txnMode := none, txnLock := none,
    dbRef := .committedRef }

/-- Table `t1(a INTEGER)` with the single row `(1)`. -/
def c1Table1 : Table :=
  { name := .vstr "t1", schema := [(.vstr "a", .vstr "INTEGER")],
    column_names := [.vstr "a"], default_values := [], column_size := 1,
    rows := [[.vint 1]], size := 1 }

/-- Table `t2(a INTEGER)` with no rows. -/
def c1Table2 : Table :=
  { name := .vstr "t2", schema := [(.vstr "a", .vstr "INTEGER")],
    column_names := [.vstr "a"], default_values := [], column_size := 1,
    rows := [], size := 0 }

/-- The committed database holding `t1` and `t2`. -/
def c1Db : Database :=
  { name := "x.db", size := 2,
    tables := [(.vstr "t1", TableV.base c1Table1), (.vstr "t2", TableV.base c1Table2)],
    joined_table := none }

/-- A fresh auto-commit connection over `c1Db`. -/
def c1World : World :=
  { committed := c1Db, locks := initLocks, txnMode := none, txnLock := none,
    dbRef := .committedRef }

/-- Table `t(a INTEGER)` with the single row `(1)`. -/
def c1ViewTable : Table :=
  { name := .vstr "t", schema := [(.vstr "a", .vstr "INTEGER")],
    column_names := [.vstr "a"], default_values := [], column_size := 1,
    rows := [[.vint 1]], size := 1 }

/-- The `Table` part of a view `v` over `t` whose materialized rows are
stale (empty). -/
def c1ViewEmpty : Table :=
  { name := .vstr "v", schema := [(.vstr "a", .vstr "INTEGER")],
    column_names := [.vstr "a"], default_values := [], column_size := 1,
    rows := [], size := 0 }

/-- The view attributes of `v`. -/
def c1ViewData : ViewData :=
  { statement := "SELECT * FROM t ;".data, view_columns := [.vstr "*"],
    table_name := .vstr "t" }

/-- The committed database holding `t` and the stale view `v`. -/
def c1ViewDb : Database :=
  { name := "x.db", size := 2,
    tables := [(.vstr "t", TableV.base c1ViewTable),
      (.vstr "v", TableV.view c1ViewEmpty c1ViewData)],
    joined_table := none }

/-- A fresh auto-commit connection over `c1ViewDb`. -/
def c1ViewWorld : World :=
  { committed := c1ViewDb, locks := initLocks, txnMode := none, txnLock := none,
    dbRef := .committedRef }

/-- C1 counterexample: two read-only statements in auto-commit mode mutate
the committed Database object in place.  A LEFT OUTER JOIN stores the
materialized join into the committed database's scratch `joined_table` slot
(the connection's handle aliases the registry entry during a read), and a
SELECT over a stale view replaces the view's entry in the committed tables
map with freshly materialized rows.  In both runs the committed database
after the statement differs from the one before, contradicting the claim. -/
theorem c1_counterexample :
    ((executeStmt 1 "SELECT * FROM t1 LEFT OUTER JOIN t2 ON t1.a = t2.a ;".data
        c1World).1.committed ≠ c1World.committed ∧
      (executeStmt 1 "SELECT * FROM t1 LEFT OUTER JOIN t2 ON t1.a = t2.a ;".data
        c1World).2 = .ok (some [[.vint 1, .vnone]])) ∧
    ((executeStmt 2 "SELECT * FROM v ;".data c1ViewWorld).1.committed
        ≠ c1ViewWorld.committed ∧
      (executeStmt 2 "SELECT * FROM v ;".data c1ViewWorld).2 = .ok (some [[.vint 1]])) := by
  decide

/-- C6 counterexample: an unrecognized well-terminated statement makes
`Connection.execute` return Python `None` (modelled `Option.none`), which is
not an empty sequence of tuples (`some []`); the claim asserts an empty
sequence is returned. -/
theorem c6_counterexample :
    executeStmt 1 "FOO ;".data emptyWorld = (emptyWorld, .ok none) ∧
    (none : ExecRes) ≠ some [] := by
  decide

/-! ## Running lemmas for the execution monad -/

theorem EM.bind_apply (x : EM α) (f : α → EM β) (w : World) :
    (x >>= f) w =
      match x w with
      | (w', .ok a) => f a w'
      | (w', .error e) => (w', .error e) := rfl

theorem EM.pure_apply (a : α) (w : World) : (pure a : EM α) w = (w, .ok a) := rfl

theorem EM.getW_apply (w : World) : EM.getW w = (w, .ok w) := rfl

theorem EM.throw_apply (e : Err) (w : World) : (EM.throw e : EM α) w = (w, .error e) := rfl

theorem EM.modifyW_apply (f : World → World) (w : World) :
    EM.modifyW f w = (f w, .ok ()) := rfl

theorem EM.liftR_apply (x : Except RunErr α) (w : World) :
    EM.liftR x w = (w, match x with
      | .ok a => .ok a
      | .error e => .error (.runtime e)) := rfl

/-- A branch that ends with `return None` yields `none` whenever it
succeeds. -/
theorem run_unit_none (x : EM Unit) (w w' : World) (r : ExecRes)
    (h : (x >>= fun _ => pure (none : ExecRes)) w = (w', .ok r)) : r = none := by
  rw [EM.bind_apply] at h
  cases hx : x w with
  | mk w1 res =>
      rw [hx] at h
      cases res with
      | ok a =>
          dsimp only at h
          rw [EM.pure_apply] at h
          injection h with h1 h2
          injection h2 with h3
          exact h3.symm
      | error e =>
          dsimp only at h
          injection h with h1 h2
          exact Except.noConfusion h2

theorem bool_ite_pos {c : Bool} (a b : α) (h : c = true) :
    (if c then a else b) = a := by subst h; rfl

theorem bool_ite_neg {c : Bool} (a b : α) (h : c = false) :
    (if c then a else b) = b := by subst h; rfl

/-- C6 (amended): a well-terminated statement that does not reach the JOIN
branch and whose first token is not SELECT makes `Connection.execute`
return Python `None` (`Option.none`) on success — not an empty sequence.
Every non-SELECT branch of the source ends in a bare `return None`
(modelled `pure none`), as does the unrecognized-statement fallthrough. -/
theorem c6_non_select_returns_none (fuel : Nat) (stmt : List Char)
    (tokens : List PyVal) (w w' : World) (r : ExecRes)
    (htok : tokenize stmt = .ok tokens)
    (hjoin : (pyListMem tokens (.vstr "LEFT") && pyListMem tokens (.vstr "OUTER") &&
      pyListMem tokens (.vstr "JOIN")) = false)
    (hsel : pyEq (tokens.getD 0 PyVal.vnone) (.vstr "SELECT") = false)
    (hrun : executeStmt (fuel + 1) stmt w = (w', .ok r)) :
    r = none := by
  unfold executeStmt at hrun
  rw [htok] at hrun
  dsimp only at hrun
  cases hsemi : (tokens.length == 0 ||
      !pyEq (tokens.getD (tokens.length - 1) PyVal.vnone) (.vstr ";")) with
  | true =>
      rw [bool_ite_pos _ _ hsemi] at hrun
      injection hrun with h1 h2
      exact Except.noConfusion h2
  | false =>
      rw [bool_ite_neg _ _ hsemi] at hrun
      unfold execTokens at hrun
      cases hg1 : (pyEq (tokens.getD 0 PyVal.vnone) (.vstr "BEGIN") &&
          pyEq (tokens.getD (tokens.length - 2) PyVal.vnone) (.vstr "TRANSACTION")) with
      | true =>
          rw [bool_ite_pos _ _ hg1] at hrun
          exact run_unit_none _ _ _ _ hrun
      | false =>
      rw [bool_ite_neg _ _ hg1] at hrun
      cases hg2 : (pyEq (tokens.getD 0 PyVal.vnone) (.vstr "COMMIT") &&
          pyEq (tokens.getD 1 PyVal.vnone) (.vstr "TRANSACTION")) with
      | true =>
          rw [bool_ite_pos _ _ hg2] at hrun
          exact run_unit_none _ _ _ _ hrun
      | false =>
      rw [bool_ite_neg _ _ hg2] at hrun
      cases hg3 : (pyEq (tokens.getD 0 PyVal.vnone) (.vstr "ROLLBACK") &&
          pyEq (tokens.getD 1 PyVal.vnone) (.vstr "TRANSACTION")) with
      | true =>
          rw [bool_ite_pos _ _ hg3] at hrun
          exact run_unit_none _ _ _ _ hrun
      | false =>
      rw [bool_ite_neg _ _ hg3] at hrun
      cases hg4 : (pyEq (tokens.getD 0 PyVal.vnone) (.vstr "CREATE") &&
          pyEq (tokens.getD 1 PyVal.vnone) (.vstr "TABLE")) with
      | true =>
          rw [bool_ite_pos _ _ hg4] at hrun
          exact run_unit_none _ _ _ _ hrun
      | false =>
      rw [bool_ite_neg _ _ hg4] at hrun
      cases hg5 : (pyEq (tokens.getD 0 PyVal.vnone) (.vstr "CREATE") &&
          pyEq (tokens.getD 1 PyVal.vnone) (.vstr "VIEW")) with
      | true =>
          rw [bool_ite_pos _ _ hg5] at hrun
          exact run_unit_none _ _ _ _ hrun
      | false =>
      rw [bool_ite_neg _ _ hg5] at hrun
      cases hg6 : (pyEq (tokens.getD 0 PyVal.vnone) (.vstr "DROP") &&
          pyEq (tokens.getD 1 PyVal.vnone) (.vstr "TABLE")) with
      | true =>
          rw [bool_ite_pos _ _ hg6] at hrun
          exact run_unit_none _ _ _ _ hrun
      | false =>
      rw [bool_ite_neg _ _ hg6] at hrun
      cases hg7 : (pyEq (tokens.getD 0 PyVal.vnone) (.vstr "INSERT") &&
          pyEq (tokens.getD 1 PyVal.vnone) (.vstr "INTO")) with
      | true =>
          rw [bool_ite_pos _ _ hg7] at hrun
          exact run_unit_none _ _ _ _ hrun
      | false =>
      rw [bool_ite_neg _ _ hg7] at hrun
      cases hg8 : (pyEq (tokens.getD 0 PyVal.vnone) (.vstr "DELETE") &&
          pyEq (tokens.getD 1 PyVal.vnone) (.vstr "FROM")) with
      | true =>
          rw [bool_ite_pos _ _ hg8] at hrun
          exact run_unit_none _ _ _ _ hrun
      | false =>
      rw [bool_ite_neg _ _ hg8] at hrun
      cases hg9 : (pyEq (tokens.getD 0 PyVal.vnone) (.vstr "UPDATE")) with
      | true =>
          rw [bool_ite_pos _ _ hg9] at hrun
          exact run_unit_none _ _ _ _ hrun
      | false =>
      rw [bool_ite_neg _ _ hg9] at hrun
      rw [bool_ite_neg _ _ hjoin] at hrun
      rw [bool_ite_neg _ _ hsel] at hrun
      rw [EM.pure_apply] at hrun
      injection hrun with h1 h2
      injection h2 with h3
      exact h3.symm

theorem c6_non_select_returns_none_witness :
    executeStmt 1 "FOO ;".data emptyWorld = (emptyWorld, .ok (none : ExecRes)) ∧
    (none : ExecRes) = none :=
  ⟨by decide, c6_non_select_returns_none 0 "FOO ;".data [.vstr "FOO", .vstr ";"]
    emptyWorld emptyWorld none (by decide) (by decide) (by decide) (by decide)⟩

/-! ## Committed-database preservation: the C1 analysis -/

/-- `x` never changes the committed (registry) database, even on error. -/
def PreservesCommitted (x : EM α) : Prop :=
  ∀ w, ((x w).1).committed = w.committed

/-- `x` may change at most the committed database's `joined_table` scratch
slot: its name, size and tables dict are preserved. -/
def PreservesShape (x : EM α) : Prop :=
  ∀ w, ((x w).1).committed.name = w.committed.name ∧
    ((x w).1).committed.size = w.committed.size ∧
    ((x w).1).committed.tables = w.committed.tables

theorem pc_pure (a : α) : PreservesCommitted (pure a : EM α) := fun _ => rfl

theorem pc_liftR (x : Except RunErr α) : PreservesCommitted (EM.liftR x) := fun _ => rfl

theorem pc_throw (e : Err) : PreservesCommitted (EM.throw e : EM α) := fun _ => rfl

theorem pc_getTable (n : PyVal) : PreservesCommitted (EM.getTable n) := by
  intro w
  unfold EM.getTable
  cases pyDictGet w.deref.tables n <;> rfl

theorem pc_bind {α β : Type} {x : EM α} {f : α → EM β} (hx : PreservesCommitted x)
    (hf : ∀ a, PreservesCommitted (f a)) : PreservesCommitted (x >>= f) := by
  intro w
  rw [EM.bind_apply]
  cases hxw : x w with
  | mk w1 res =>
      have h1 : w1.committed = w.committed := by
        have h2 := hx w
        rw [hxw] at h2
        exact h2
      cases res with
      | ok a =>
          dsimp only
          rw [hf a w1, h1]
      | error e => exact h1

/-- `lock_check` with any action other than `commit` leaves the committed
database untouched in every transaction mode: those paths mutate only the
lock counters, `self.current_lock` and (for auto-mode read/write) the
`self.database` handle. -/
theorem lock_check_committed_eq (action : String) (w : World)
    (hnc : (action == "commit") = false) :
    ((lock_check action w).1).committed = w.committed := by
  rcases w with ⟨c, l, tm, tl, dr⟩
  unfold lock_check
  rw [EM.bind_apply, EM.getW_apply]
  dsimp only
  cases tm with
  | none =>
      dsimp only
      cases ha1 : (action == "read") with
      | true =>
          rw [if_pos rfl, EM.bind_apply]
          dsimp only [EM.addLock]
          cases hab : LockSystem.add_lock l "shared" tl with
          | error e => rfl
          | ok p =>
              rcases p with ⟨b, l2⟩
              dsimp only
              cases b with
              | true => rfl
              | false => rfl
      | false =>
          rw [if_neg Bool.false_ne_true]
          cases ha2 : (action == "write") with
          | true =>
              rw [if_pos rfl, EM.bind_apply]
              dsimp only [EM.addLock]
              cases hab : LockSystem.add_lock l "exclusive" tl with
              | error e => rfl
              | ok p =>
                  rcases p with ⟨b, l2⟩
                  dsimp only
                  cases b with
                  | true => rfl
                  | false => rfl
          | false =>
              rw [if_neg Bool.false_ne_true, bool_ite_neg _ _ hnc]
              cases ha4 : (action == "relinquish") with
              | true => rw [if_pos rfl]; rfl
              | false => rw [if_neg Bool.false_ne_true]; rfl
  | some mode =>
      dsimp only
      cases hm1 : (mode == "DEFERRED") with
      | true =>
          rw [if_pos rfl]
          cases ha1 : (action == "read") with
          | true =>
              rw [if_pos rfl, EM.bind_apply, EM.getW_apply]
              dsimp only
              cases ht : optTruthy tl with
              | true => rw [if_pos rfl]; rfl
              | false =>
                  rw [if_neg Bool.false_ne_true, EM.bind_apply]
                  dsimp only [EM.addLock]
                  cases hab : LockSystem.add_lock l "shared" tl with
                  | error e => rfl
                  | ok p =>
                      rcases p with ⟨b, l2⟩
                      dsimp only
                      cases b with
                      | true => rfl
                      | false => rfl
          | false =>
              rw [if_neg Bool.false_ne_true]
              cases ha2 : (action == "write") with
              | true =>
                  rw [if_pos rfl, EM.bind_apply, EM.getW_apply]
                  dsimp only
                  rw [EM.bind_apply]
                  dsimp only [EM.addLock]
                  cases hab : LockSystem.add_lock l "reserved" tl with
                  | error e => rfl
                  | ok p =>
                      rcases p with ⟨b, l2⟩
                      dsimp only
                      cases b with
                      | true => rfl
                      | false => rfl
              | false => rw [if_neg Bool.false_ne_true]; rfl
      | false =>
          rw [if_neg Bool.false_ne_true]
          cases hm2 : (mode == "IMMEDIATE") with
          | true =>
              rw [if_pos rfl]
              cases ha1 : (action == "read") with
              | true => rw [if_pos rfl]; rfl
              | false =>
                  rw [if_neg Bool.false_ne_true]
                  cases ha2 : (action == "write") with
                  | true =>
                      rw [if_pos rfl, EM.bind_apply, EM.getW_apply]
                      dsimp only
                      cases ht : (optTruthy tl && optEqStr tl "exclusive") with
                      | true => rw [if_pos rfl]; rfl
                      | false =>
                          rw [if_neg Bool.false_ne_true, EM.bind_apply]
                          dsimp only [EM.addLock]
                          cases hab : LockSystem.add_lock l "reserved" tl with
                          | error e => rfl
                          | ok p =>
                              rcases p with ⟨b, l2⟩
                              dsimp only
                              cases b with
                              | true => rfl
                              | false => rfl
                  | false => rw [if_neg Bool.false_ne_true]; rfl
          | false => rw [if_neg Bool.false_ne_true]; rfl

theorem pc_lock_check_nc (action : String) (h : (action == "commit") = false) :
    PreservesCommitted (lock_check action) :=
  fun w => lock_check_committed_eq action w h

theorem pc_autoRelinquish : PreservesCommitted autoRelinquish := by
  intro w
  unfold autoRelinquish
  rw [EM.bind_apply, EM.getW_apply]
  dsimp only
  cases hn : w.txnMode.isNone with
  | true =>
      rw [if_pos rfl]
      exact lock_check_committed_eq "relinquish" w (by decide)
  | false => rw [if_neg Bool.false_ne_true]; rfl

/-- The post-resolution part of the SELECT executor never touches the
committed database: it reads, sorts and projects, then releases locks. -/
theorem pc_selectRest (tokens : List PyVal) (fk : Nat) (tn : PyVal) (t : Table) :
    PreservesCommitted (selectRest tokens fk tn t) := by
  unfold selectRest
  apply pc_bind (pc_liftR _)
  intro aggregate
  apply pc_bind
  · cases hc : pyListMem (tokens.take fk) (.vstr "DISTINCT") with
    | true =>
        rw [if_pos rfl]
        apply pc_bind (pc_liftR _)
        intro di
        apply pc_bind (pc_liftR _)
        intro dv
        exact pc_pure _
    | false =>
        rw [if_neg Bool.false_ne_true]
        exact pc_pure _
  intro dc
  dsimp only
  apply pc_bind (pc_liftR _)
  intro columns
  apply pc_bind
  · cases hc : pyListMem (tokens.drop fk) (.vstr "WHERE") with
    | true =>
        rw [if_pos rfl]
        apply pc_bind (pc_liftR _)
        intro wi
        dsimp only
        apply pc_bind (pc_liftR _)
        intro c0
        apply pc_bind (pc_liftR _)
        intro conds1
        exact pc_pure _
    | false =>
        rw [if_neg Bool.false_ne_true]
        exact pc_pure _
  intro wcond
  dsimp only
  apply pc_bind
  · cases hc : pyListMem
        (tokens.drop ((match wcond with
          | some cl => fk + cl.length + 1
          | none => fk) + 1)) (.vstr "ORDER") with
    | true =>
        rw [if_pos rfl]
        apply pc_bind (pc_liftR _)
        intro o1
        exact pc_pure _
    | false =>
        rw [if_neg Bool.false_ne_true]
        exact pc_pure _
  intro order
  apply pc_bind (pc_liftR _)
  intro qr
  apply pc_bind pc_autoRelinquish
  intro u
  cases aggregate with
  | some a =>
      dsimp only
      cases hm : pyEq a (.vstr "MAX") with
      | true =>
          rw [if_pos rfl]
          exact pc_bind (pc_liftR _) (fun m => pc_pure _)
      | false =>
          rw [if_neg Bool.false_ne_true]
          exact pc_bind (pc_liftR _) (fun m => pc_pure _)
  | none => exact pc_pure _

/-- Decidable side condition: the table a SELECT statement resolves
(`tokens[tokens.index("FROM") + 1]`) is absent or a base table (not a view)
in the given database. -/
def selectTargetIsBase (tokens : List PyVal) (d : Database) : Bool :=
  match pyListIndex tokens (.vstr "FROM") with
  | .error _ => true
  | .ok fk =>
      match pyGetI tokens ((fk : Int) + 1) with
      | .error _ => true
      | .ok tn =>
          match pyDictGet d.tables tn with
          | none => true
          | some (.base _) => true
          | some (.view _ _) => false

/-- In auto-commit mode with an aliasing handle, `lock_check("read")`
leaves the committed database unchanged and the handle still dereferences
to it. -/
theorem lock_check_read_auto (w : World) (htm : w.txnMode = none)
    (hdr : w.dbRef = .committedRef) :
    (lock_check "read" w).1.committed = w.committed ∧
    (lock_check "read" w).1.deref = w.committed := by
  rcases w with ⟨c, l, tm, tl, dr⟩
  have htm' : tm = none := htm
  have hdr' : dr = .committedRef := hdr
  subst htm'
  subst hdr'
  unfold lock_check
  rw [EM.bind_apply, EM.getW_apply]
  dsimp only
  rw [bool_ite_pos _ _ (by decide : ("read" == "read") = true), EM.bind_apply]
  dsimp only [EM.addLock]
  cases hab : LockSystem.add_lock l "shared" tl with
  | error e => exact ⟨rfl, rfl⟩
  | ok p =>
      rcases p with ⟨b, l2⟩
      dsimp only
      cases b with
      | true => exact ⟨rfl, rfl⟩
      | false => exact ⟨rfl, rfl⟩

/-- The SELECT executor run from a steady auto-commit state whose target
resolves to a base table leaves the committed database unchanged, whether
it succeeds or raises. -/
theorem selectBranch_committed (rec : List Char → EM ExecRes) (tokens : List PyVal)
    (w : World) (htm : w.txnMode = none) (hdr : w.dbRef = .committedRef)
    (hbase : selectTargetIsBase tokens w.committed = true) :
    ((selectBranch rec tokens w).1).committed = w.committed := by
  obtain ⟨hc1, hd1⟩ := lock_check_read_auto w htm hdr
  unfold selectBranch
  rw [EM.bind_apply]
  cases hlc : lock_check "read" w with
  | mk w1 res =>
      rw [hlc] at hc1 hd1
      dsimp only at hc1 hd1
      cases res with
      | error e => exact hc1
      | ok u =>
          dsimp only
          rw [EM.bind_apply, EM.liftR_apply]
          unfold selectTargetIsBase at hbase
          cases hfk : pyListIndex tokens (.vstr "FROM") with
          | error e => exact hc1
          | ok fk =>
              rw [hfk] at hbase
              dsimp only at hbase
              dsimp only
              rw [EM.bind_apply, EM.liftR_apply]
              cases htn : pyGetI tokens ((fk : Int) + 1) with
              | error e => exact hc1
              | ok tn =>
                  rw [htn] at hbase
                  dsimp only at hbase
                  dsimp only
                  rw [EM.bind_apply]
                  dsimp only [EM.getTable]
                  rw [hd1]
                  cases hdg : pyDictGet w.committed.tables tn with
                  | none => exact hc1
                  | some tv =>
                      rw [hdg] at hbase
                      cases tv with
                      | view vt vd =>
                          dsimp only at hbase
                          exact Bool.noConfusion hbase
                      | base t =>
                          dsimp only
                          rw [EM.bind_apply, EM.pure_apply]
                          dsimp only
                          rw [pc_selectRest tokens fk tn t w1, hc1]

theorem ps_of_pc {x : EM α} (h : PreservesCommitted x) : PreservesShape x := by
  intro w
  rw [h w]
  exact ⟨rfl, rfl, rfl⟩

theorem ps_bind {α β : Type} {x : EM α} {f : α → EM β} (hx : PreservesShape x)
    (hf : ∀ a, PreservesShape (f a)) : PreservesShape (x >>= f) := by
  intro w
  rw [EM.bind_apply]
  cases hxw : x w with
  | mk w1 res =>
      have h1 := hx w
      rw [hxw] at h1
      dsimp only at h1
      cases res with
      | ok a =>
          dsimp only
          obtain ⟨e1, e2, e3⟩ := h1
          obtain ⟨f1, f2, f3⟩ := hf a w1
          exact ⟨f1.trans e1, f2.trans e2, f3.trans e3⟩
      | error e => exact h1

/-- Writing the joined table into the scratch slot through the handle
changes at most the committed database's `joined_table` field. -/
theorem ps_setDeref_joined (j : Option Table) :
    PreservesShape (EM.modifyW fun w => w.setDeref { w.deref with joined_table := j }) := by
  intro w
  rcases w with ⟨c, l, tm, tl, dr⟩
  cases dr with
  | committedRef => exact ⟨rfl, rfl, rfl⟩
  | snapshot db => exact ⟨rfl, rfl, rfl⟩

/-- The LEFT OUTER JOIN executor preserves the committed database's name,
size and tables dict in every state; only the scratch `joined_table` slot
of whichever database the handle references can change (through an aliasing
handle that is the committed one — the C1 counterexample). -/
theorem ps_joinBranch (tokens : List PyVal) : PreservesShape (joinBranch tokens) := by
  unfold joinBranch
  apply ps_bind (ps_of_pc (pc_lock_check_nc "read" (by decide)))
  intro u0
  apply ps_bind (ps_of_pc (pc_liftR _))
  intro jks
  apply ps_bind (ps_of_pc (pc_liftR _))
  intro jke
  apply ps_bind (ps_of_pc (pc_liftR _))
  intro t1n
  apply ps_bind (ps_of_pc (pc_liftR _))
  intro t2n
  apply ps_bind (ps_of_pc (pc_getTable _))
  intro tv1
  apply ps_bind (ps_of_pc (pc_getTable _))
  intro tv2
  dsimp only
  apply ps_bind (ps_of_pc (pc_liftR _))
  intro oni
  dsimp only
  apply ps_bind
  · cases hc : pyListMem (tokens.drop 1) (.vstr "ORDER") with
    | true =>
        rw [if_pos rfl]
        apply ps_bind (ps_of_pc (pc_liftR _))
        intro semi
        apply ps_bind (ps_of_pc (pc_liftR _))
        intro oi
        exact ps_of_pc (pc_pure _)
    | false =>
        rw [if_neg Bool.false_ne_true]
        exact ps_of_pc (pc_pure _)
  intro order
  apply ps_bind (ps_of_pc (pc_liftR _))
  intro columns
  dsimp only
  apply ps_bind (ps_of_pc (pc_liftR _))
  intro joined1
  apply ps_bind (ps_of_pc (pc_liftR _))
  intro joined2
  apply ps_bind (ps_of_pc (pc_liftR _))
  intro c0
  apply ps_bind (ps_of_pc (pc_liftR _))
  intro cm1
  apply ps_bind (ps_of_pc (pc_liftR _))
  intro key1
  apply ps_bind (ps_of_pc (pc_liftR _))
  intro key2
  apply ps_bind (ps_of_pc (pc_liftR _))
  intro t1c
  apply ps_bind (ps_of_pc (pc_liftR _))
  intro t2c
  apply ps_bind (ps_of_pc (pc_liftR _))
  intro primary_keys
  apply ps_bind (ps_of_pc (pc_liftR _))
  intro foreign_rows
  apply ps_bind (ps_of_pc (pc_liftR _))
  intro joined3
  apply ps_bind (ps_setDeref_joined _)
  intro u1
  apply ps_bind (ps_of_pc (pc_liftR _))
  intro query_result
  apply ps_bind (ps_of_pc pc_autoRelinquish)
  intro u2
  exact ps_of_pc (pc_pure _)

/-- `add_lock("exclusive", cur)` never returns a falsy value: every
successful path returns `True`. -/
theorem add_lock_exclusive_ok_true (l l2 : LockSystem) (tl : Option String) (b : Bool)
    (h : l.add_lock "exclusive" tl = .ok (b, l2)) : b = true := by
  unfold LockSystem.add_lock at h
  cases hi : (optTruthy tl && optEqStr tl "exclusive") with
  | true =>
      rw [bool_ite_pos _ _ hi] at h
      injection h with h2
      injection h2 with hb hl
      exact hb.symm
  | false =>
      rw [bool_ite_neg _ _ hi] at h
      rw [bool_ite_neg _ _ (by decide : ("exclusive" == "shared") = false)] at h
      rw [bool_ite_neg _ _ (by decide : ("exclusive" == "reserved") = false)] at h
      rw [bool_ite_pos _ _ (by decide : ("exclusive" == "exclusive") = true)] at h
      unfold LockSystem.add_exclusive at h
      cases hx : l.has_exclusive with
      | true =>
          rw [bool_ite_pos _ _ hx] at h
          exact Except.noConfusion h
      | false =>
          rw [bool_ite_neg _ _ hx] at h
          cases hs : l.has_shared with
          | true =>
              rw [bool_ite_pos _ _ hs] at h
              exact Except.noConfusion h
          | false =>
              rw [bool_ite_neg _ _ hs] at h
              cases hr : l.has_reserved with
              | true =>
                  rw [bool_ite_pos _ _ hr] at h
                  cases hu : (optTruthy tl && optEqStr tl "reserved") with
                  | true =>
                      rw [bool_ite_pos _ _ hu] at h
                      injection h with h2
                      injection h2 with hb hl
                      exact hb.symm
                  | false =>
                      rw [bool_ite_neg _ _ hu] at h
                      exact Except.noConfusion h
              | false =>
                  rw [bool_ite_neg _ _ hr] at h
                  injection h with h2
                  injection h2 with hb hl
                  exact hb.symm

/-- In auto-commit mode, a successful `lock_check("write")` switches the
handle to a private deep-copied snapshot of the committed database (and
records the exclusive lock), leaving the committed database itself
untouched. -/
theorem lock_check_write_auto (w : World) (htm : w.txnMode = none)
    (hok : (lock_check "write" w).2 = .ok ()) :
    (lock_check "write" w).1.dbRef = .snapshot w.committed ∧
    (lock_check "write" w).1.txnLock = some "exclusive" ∧
    (lock_check "write" w).1.committed = w.committed := by
  rcases w with ⟨c, l, tm, tl, dr⟩
  have htm' : tm = none := htm
  subst htm'
  unfold lock_check at hok ⊢
  rw [EM.bind_apply, EM.getW_apply] at hok ⊢
  dsimp only at hok ⊢
  rw [bool_ite_neg _ _ (by decide : ("write" == "read") = false)] at hok ⊢
  rw [bool_ite_pos _ _ (by decide : ("write" == "write") = true)] at hok ⊢
  rw [EM.bind_apply] at hok ⊢
  dsimp only [EM.addLock] at hok ⊢
  cases hab : LockSystem.add_lock l "exclusive" tl with
  | error e => rw [hab] at hok; exact Except.noConfusion hok
  | ok p =>
      rcases p with ⟨b, l2⟩
      have hb := add_lock_exclusive_ok_true l l2 tl b hab
      subst hb
      dsimp only
      exact ⟨rfl, rfl, rfl⟩

/-- In auto-commit mode, a successful `lock_check("commit")` publishes the
snapshot: the committed (registry) database becomes what the handle
referenced, the handle reverts to aliasing the registry entry, and the
transaction lock is cleared. -/
theorem lock_check_commit_auto (w : World) (htm : w.txnMode = none)
    (hok : (lock_check "commit" w).2 = .ok ()) :
    (lock_check "commit" w).1.committed = w.deref ∧
    (lock_check "commit" w).1.dbRef = .committedRef ∧
    (lock_check "commit" w).1.txnLock = none := by
  rcases w with ⟨c, l, tm, tl, dr⟩
  have htm' : tm = none := htm
  subst htm'
  unfold lock_check at hok ⊢
  rw [EM.bind_apply, EM.getW_apply] at hok ⊢
  dsimp only at hok ⊢
  rw [bool_ite_neg _ _ (by decide : ("commit" == "read") = false)] at hok ⊢
  rw [bool_ite_neg _ _ (by decide : ("commit" == "write") = false)] at hok ⊢
  rw [bool_ite_pos _ _ (by decide : ("commit" == "commit") = true)] at hok ⊢
  rw [EM.bind_apply] at hok ⊢
  dsimp only [EM.addLock] at hok ⊢
  cases hab : LockSystem.add_lock l "exclusive" tl with
  | error e => rw [hab] at hok; exact Except.noConfusion hok
  | ok p =>
      rcases p with ⟨b, l2⟩
      have hb := add_lock_exclusive_ok_true l l2 tl b hab
      subst hb
      dsimp only
      cases dr with
      | committedRef => exact ⟨rfl, rfl, rfl⟩
      | snapshot db => exact ⟨rfl, rfl, rfl⟩

theorem bool_ite_and_neg {c d : Bool} (a b : α) (h : c = false) :
    (if c && d then a else b) = b := by subst h; rfl

theorem pyEq_funnel {v : PyVal} {a b : String} (h : pyEq v (.vstr a) = true)
    (hne : (a == b) = false) : pyEq v (.vstr b) = false := by
  cases v with
  | vnone => exact Bool.noConfusion h
  | vint i => exact Bool.noConfusion h
  | vreal q => exact Bool.noConfusion h
  | vstr s =>
      have hs : s = a := eq_of_beq (h : (s == a) = true)
      subst hs
      exact hne

/-- The tokens of the witness statement `SELECT * FROM t1 ;`. -/
def c1SelTokens : List PyVal :=
  [.vstr "SELECT", .vstr "*", .vstr "FROM", .vstr "t1", .vstr ";"]

/-- C1 (amended): the committed database is protected from plain SELECTs
and from writes-before-commit, but read-only statements are not all
harmless.  (i) A well-terminated SELECT whose target is a base table
leaves the committed database unchanged when run from a steady auto-commit
state.  (ii) The LEFT OUTER JOIN executor preserves the committed
database's name, size and tables, but materializes the join into the
`joined_table` scratch slot of the database the handle references — the
committed one in auto-commit read mode (and a SELECT over a view rebuilds
the view in place, `c1_counterexample`).  (iii) A successful auto-commit
`lock_check("write")` redirects the handle to a private snapshot of the
committed database without touching the committed one, and (iv) a
successful auto-commit `lock_check("commit")` publishes the handle's
database into the registry and reverts the handle to aliasing it. -/
theorem c1_snapshot_discipline (fuel : Nat) (stmt : List Char) (tokens : List PyVal)
    (w : World) (htm : w.txnMode = none) (hdr : w.dbRef = .committedRef) :
    (tokenize stmt = .ok tokens →
      pyEq (tokens.getD 0 PyVal.vnone) (.vstr "SELECT") = true →
      (pyListMem tokens (.vstr "LEFT") && pyListMem tokens (.vstr "OUTER") &&
        pyListMem tokens (.vstr "JOIN")) = false →
      selectTargetIsBase tokens w.committed = true →
      (executeStmt (fuel + 1) stmt w).1.committed = w.committed) ∧
    (((joinBranch tokens w).1).committed.name = w.committed.name ∧
      ((joinBranch tokens w).1).committed.size = w.committed.size ∧
      ((joinBranch tokens w).1).committed.tables = w.committed.tables) ∧
    ((lock_check "write" w).2 = .ok () →
      (lock_check "write" w).1.dbRef = .snapshot w.committed ∧
      (lock_check "write" w).1.committed = w.committed) ∧
    ((lock_check "commit" w).2 = .ok () →
      (lock_check "commit" w).1.committed = w.deref ∧
      (lock_check "commit" w).1.dbRef = .committedRef) := by
  refine ⟨?_, ps_joinBranch tokens w, ?_, ?_⟩
  · intro htok hsel hjoin hbase
    unfold executeStmt
    rw [htok]
    dsimp only
    cases hsemi : (tokens.length == 0 ||
        !pyEq (tokens.getD (tokens.length - 1) PyVal.vnone) (.vstr ";")) with
    | true =>
        rw [if_pos rfl]
    | false =>
        rw [if_neg Bool.false_ne_true]
        unfold execTokens
        rw [bool_ite_and_neg _ _ (pyEq_funnel hsel (by decide : ("SELECT" == "BEGIN") = false))]
        rw [bool_ite_and_neg _ _ (pyEq_funnel hsel (by decide : ("SELECT" == "COMMIT") = false))]
        rw [bool_ite_and_neg _ _ (pyEq_funnel hsel (by decide : ("SELECT" == "ROLLBACK") = false))]
        rw [bool_ite_and_neg _ _ (pyEq_funnel hsel (by decide : ("SELECT" == "CREATE") = false))]
        rw [bool_ite_and_neg _ _ (pyEq_funnel hsel (by decide : ("SELECT" == "CREATE") = false))]
        rw [bool_ite_and_neg _ _ (pyEq_funnel hsel (by decide : ("SELECT" == "DROP") = false))]
        rw [bool_ite_and_neg _ _ (pyEq_funnel hsel (by decide : ("SELECT" == "INSERT") = false))]
        rw [bool_ite_and_neg _ _ (pyEq_funnel hsel (by decide : ("SELECT" == "DELETE") = false))]
        rw [bool_ite_neg _ _ (pyEq_funnel hsel (by decide : ("SELECT" == "UPDATE") = false))]
        rw [bool_ite_neg _ _ hjoin]
        rw [bool_ite_pos _ _ hsel]
        rw [EM.bind_apply]
        have hsc := selectBranch_committed (executeStmt fuel) tokens w htm hdr hbase
        cases hsb : selectBranch (executeStmt fuel) tokens w with
        | mk w1 res =>
            rw [hsb] at hsc
            dsimp only at hsc
            cases res with
            | ok a => exact hsc
            | error e => exact hsc
  · intro hok
    obtain ⟨h1, h2, h3⟩ := lock_check_write_auto w htm hok
    exact ⟨h1, h3⟩
  · intro hok
    obtain ⟨h1, h2, h3⟩ := lock_check_commit_auto w htm hok
    exact ⟨h1, h2⟩

theorem c1_snapshot_discipline_witness :
    ((executeStmt 1 "SELECT * FROM t1 ;".data c1World).1.committed = c1World.committed ∧
      (lock_check "commit" c1World).1.committed = c1World.deref) ∧
    tokenize "SELECT * FROM t1 ;".data = .ok c1SelTokens :=
  have h := c1_snapshot_discipline 0 "SELECT * FROM t1 ;".data c1SelTokens c1World
    (by decide) (by decide)
  ⟨⟨h.1 (by decide) (by decide) (by decide) (by decide),
    ((h.2.2.2 (by decide)).1)⟩, by decide⟩

/-! ## Transaction-state errors: the C7 analysis

`Err.txnState` is raised by exactly three sites: the BEGIN executor (open
transaction, or unknown mode name) and the COMMIT/ROLLBACK executors (no
open transaction).  Everything else — including the recursive re-execution
of stored view statements — must be shown never to produce it. -/

/-- The token list dispatches to none of the eight verb-guarded branches of
`Connection.execute`; only the JOIN branch, the SELECT branch or the
fallthrough can run. -/
def headNotVerb (tokens : List PyVal) : Bool :=
  !(pyEq (tokens.getD 0 PyVal.vnone) (.vstr "BEGIN")) &&
  !(pyEq (tokens.getD 0 PyVal.vnone) (.vstr "COMMIT")) &&
  !(pyEq (tokens.getD 0 PyVal.vnone) (.vstr "ROLLBACK")) &&
  !(pyEq (tokens.getD 0 PyVal.vnone) (.vstr "CREATE")) &&
  !(pyEq (tokens.getD 0 PyVal.vnone) (.vstr "DROP")) &&
  !(pyEq (tokens.getD 0 PyVal.vnone) (.vstr "INSERT")) &&
  !(pyEq (tokens.getD 0 PyVal.vnone) (.vstr "DELETE")) &&
  !(pyEq (tokens.getD 0 PyVal.vnone) (.vstr "UPDATE"))

/-- A statement text is transaction-safe when executing it can never reach
the three `txnState` raise sites: its tokenization fails, or its tokens
avoid all verb-guarded branches. -/
def viewStmtSafe (s : List Char) : Bool :=
  match tokenize s with
  | .error _ => true
  | .ok toks => headNotVerb toks

/-- A stored table value is safe when any statement its re-materialization
would re-execute is transaction-safe. -/
def tvSafe : TableV → Bool
  | .base _ => true
  | .view _ vd => viewStmtSafe vd.statement

/-- All views of a database store transaction-safe statements. -/
def dbViewsOk (d : Database) : Bool := d.tables.all (fun kv => tvSafe kv.2)

/-- The connection-visible databases (registry entry and, if snapshotted,
the private snapshot) hold only transaction-safe views. -/
def WorldViewsOk (w : World) : Bool :=
  dbViewsOk w.committed &&
  (match w.dbRef with
   | .committedRef => true
   | .snapshot db => dbViewsOk db)

/-- `x` never raises the transaction-state error and keeps all stored view
statements transaction-safe. -/
def TxnSafe (x : EM α) : Prop :=
  ∀ w, WorldViewsOk w = true →
    (x w).2 ≠ .error .txnState ∧ WorldViewsOk ((x w).1) = true

theorem ok_ne_txn {α : Type} (a : α) : (Except.ok a : Except Err α) ≠ .error .txnState :=
  fun h => Except.noConfusion h

theorem err_ne_txn {α : Type} {e : Err} (he : e ≠ .txnState) :
    (Except.error e : Except Err α) ≠ .error .txnState :=
  fun h => he (Except.error.inj h)

theorem ts_bind {α β : Type} {x : EM α} {f : α → EM β} (hx : TxnSafe x)
    (hf : ∀ a, TxnSafe (f a)) : TxnSafe (x >>= f) := by
  intro w hw
  rw [EM.bind_apply]
  cases hxw : x w with
  | mk w1 res =>
      have h1 := hx w hw
      rw [hxw] at h1
      dsimp only at h1
      cases res with
      | ok a =>
          dsimp only
          exact hf a w1 h1.2
      | error e =>
          dsimp only
          exact ⟨err_ne_txn (fun hh => h1.1 (hh ▸ rfl)), h1.2⟩

/-- Value-aware sequencing: the first action also guarantees a property of
the value it returns, available to prove the continuation safe. -/
theorem ts_bind_val {α β : Type} {x : EM α} {f : α → EM β} {P : α → Prop}
    (hx : ∀ w, WorldViewsOk w = true →
      ((x w).2 ≠ .error .txnState ∧ WorldViewsOk ((x w).1) = true ∧
        ∀ a, (x w).2 = .ok a → P a))
    (hf : ∀ a, P a → TxnSafe (f a)) : TxnSafe (x >>= f) := by
  intro w hw
  rw [EM.bind_apply]
  cases hxw : x w with
  | mk w1 res =>
      have h1 := hx w hw
      rw [hxw] at h1
      dsimp only at h1
      cases res with
      | ok a =>
          dsimp only
          exact hf a (h1.2.2 a rfl) w1 h1.2.1
      | error e =>
          dsimp only
          exact ⟨err_ne_txn (fun hh => h1.1 (hh ▸ rfl)), h1.2.1⟩

theorem ts_pure (a : α) : TxnSafe (pure a : EM α) :=
  fun w hw => ⟨ok_ne_txn a, hw⟩

theorem ts_liftR (x : Except RunErr α) : TxnSafe (EM.liftR x) := by
  intro w hw
  cases x with
  | ok a => exact ⟨ok_ne_txn a, hw⟩
  | error e => exact ⟨err_ne_txn (by intro h; exact Err.noConfusion h), hw⟩

theorem ts_throwRt (e : RunErr) : TxnSafe (EM.throw (.runtime e) : EM α) :=
  fun w hw => ⟨err_ne_txn (by intro h; exact Err.noConfusion h), hw⟩

theorem ts_throwSchema : TxnSafe (EM.throw .schemaViolation : EM α) :=
  fun w hw => ⟨err_ne_txn (by decide), hw⟩

theorem ts_getW : TxnSafe EM.getW := fun w hw => ⟨ok_ne_txn w, hw⟩

theorem ts_addLock (lt : String) (cl : Option String) : TxnSafe (EM.addLock lt cl) := by
  intro w hw
  unfold EM.addLock
  cases h : w.locks.add_lock lt cl with
  | error e => exact ⟨err_ne_txn (by decide), hw⟩
  | ok p => exact ⟨ok_ne_txn p.1, hw⟩

theorem ts_removeLock (lt : Option String) : TxnSafe (EM.removeLock lt) :=
  fun w hw => ⟨ok_ne_txn (), hw⟩

theorem band_left {a b : Bool} (h : (a && b) = true) : a = true := by
  rw [Bool.and_eq_true] at h
  exact h.1

theorem band_right {a b : Bool} (h : (a && b) = true) : b = true := by
  rw [Bool.and_eq_true] at h
  exact h.2

theorem dbViewsOk_deref {w : World} (hw : WorldViewsOk w = true) :
    dbViewsOk w.deref = true := by
  rcases w with ⟨c, l, tm, tl, dr⟩
  cases dr with
  | committedRef => exact band_left hw
  | snapshot db => exact band_right hw

theorem wvOk_setDeref {w : World} {db : Database} (hw : WorldViewsOk w = true)
    (hdb : dbViewsOk db = true) : WorldViewsOk (w.setDeref db) = true := by
  rcases w with ⟨c, l, tm, tl, dr⟩
  cases dr with
  | committedRef =>
      show (dbViewsOk db && true) = true
      rw [hdb]
      rfl
  | snapshot db0 =>
      show (dbViewsOk c && dbViewsOk db) = true
      rw [band_left hw, hdb]
      rfl

theorem pyDictGet_all {α : Type} {p : α → Bool} {d : List (PyVal × α)} {k : PyVal}
    {v : α} (hall : d.all (fun kv => p kv.2) = true) (hget : pyDictGet d k = some v) :
    p v = true := by
  induction d with
  | nil => exact Option.noConfusion hget
  | cons kv rest ih =>
      rw [List.all_cons, Bool.and_eq_true] at hall
      unfold pyDictGet at hget
      rcases kv with ⟨k', v'⟩
      dsimp only at hget
      cases hk : pyEq k' k with
      | true =>
          rw [bool_ite_pos _ _ hk] at hget
          injection hget with hv
          rw [← hv]
          exact hall.1
      | false =>
          rw [bool_ite_neg _ _ hk] at hget
          exact ih hall.2 hget

theorem pyDictInsert_all {α : Type} {p : α → Bool} {d : List (PyVal × α)} {k : PyVal}
    {v : α} (hv : p v = true) (hall : d.all (fun kv => p kv.2) = true) :
    (pyDictInsert d k v).all (fun kv => p kv.2) = true := by
  induction d with
  | nil =>
      unfold pyDictInsert
      rw [List.all_cons, Bool.and_eq_true]
      exact ⟨hv, rfl⟩
  | cons kv rest ih =>
      rw [List.all_cons, Bool.and_eq_true] at hall
      rcases kv with ⟨k', v'⟩
      unfold pyDictInsert
      cases hk : pyEq k' k with
      | true =>
          rw [if_pos rfl, List.all_cons, Bool.and_eq_true]
          exact ⟨hv, hall.2⟩
      | false =>
          rw [if_neg Bool.false_ne_true, List.all_cons, Bool.and_eq_true]
          exact ⟨hall.1, ih hall.2⟩

theorem pyDictPop_all {α : Type} {p : α → Bool} {d : List (PyVal × α)} {k : PyVal}
    (hall : d.all (fun kv => p kv.2) = true) :
    (pyDictPop d k).all (fun kv => p kv.2) = true := by
  induction d with
  | nil => exact hall
  | cons kv rest ih =>
      rw [List.all_cons, Bool.and_eq_true] at hall
      rcases kv with ⟨k', v'⟩
      unfold pyDictPop
      cases hk : pyEq k' k with
      | true => rw [if_pos rfl]; exact hall.2
      | false =>
          rw [if_neg Bool.false_ne_true, List.all_cons, Bool.and_eq_true]
          exact ⟨hall.1, ih hall.2⟩

theorem tvSafe_setTbl (tv : TableV) (t : Table) : tvSafe (tv.setTbl t) = tvSafe tv := by
  cases tv <;> rfl

theorem ts_setTable (n : PyVal) (tv : TableV) (hsafe : tvSafe tv = true) :
    TxnSafe (EM.setTable n tv) := by
  intro w hw
  unfold EM.setTable
  refine ⟨ok_ne_txn (), ?_⟩
  exact wvOk_setDeref hw (pyDictInsert_all hsafe (dbViewsOk_deref hw))

theorem ts_setDb {db : Database} (hdb : dbViewsOk db = true) : TxnSafe (EM.setDb db) := by
  intro w hw
  unfold EM.setDb
  exact ⟨ok_ne_txn (), wvOk_setDeref hw hdb⟩

theorem ts_getTable_val (n : PyVal) : ∀ w, WorldViewsOk w = true →
    ((EM.getTable n w).2 ≠ .error .txnState ∧
      WorldViewsOk ((EM.getTable n w).1) = true ∧
      ∀ tv, (EM.getTable n w).2 = .ok tv → tvSafe tv = true) := by
  intro w hw
  unfold EM.getTable
  cases hget : pyDictGet w.deref.tables n with
  | none =>
      refine ⟨err_ne_txn (by decide), hw, ?_⟩
      intro tv h
      exact Except.noConfusion h
  | some tv0 =>
      refine ⟨ok_ne_txn tv0, hw, ?_⟩
      intro tv h
      injection h with h2
      rw [← h2]
      exact pyDictGet_all (dbViewsOk_deref hw) hget

theorem ts_getTable (n : PyVal) : TxnSafe (EM.getTable n) :=
  fun w hw => ⟨(ts_getTable_val n w hw).1, (ts_getTable_val n w hw).2.1⟩

theorem ts_getDb_val : ∀ w, WorldViewsOk w = true →
    ((EM.getDb w).2 ≠ .error .txnState ∧ WorldViewsOk ((EM.getDb w).1) = true ∧
      ∀ db, (EM.getDb w).2 = .ok db → dbViewsOk db = true) := by
  intro w hw
  refine ⟨ok_ne_txn w.deref, hw, ?_⟩
  intro db h
  injection h with h2
  rw [← h2]
  exact dbViewsOk_deref hw

theorem ts_mutateTable (n : PyVal) (f : Table → Table) : TxnSafe (mutateTable n f) := by
  unfold mutateTable
  apply ts_bind_val (ts_getTable_val n)
  intro tv htv
  apply ts_setTable
  rw [tvSafe_setTbl]
  exact htv

/-- `lock_check` never raises the transaction-state error (its only failure
is a lock conflict) and preserves view safety: the only database it ever
installs are the committed one (snapshot/publish), already covered by the
invariant. -/
theorem ts_lock_check (action : String) : TxnSafe (lock_check action) := by
  intro w hw
  rcases w with ⟨c, l, tm, tl, dr⟩
  have hc : dbViewsOk c = true := band_left hw
  unfold lock_check
  rw [EM.bind_apply, EM.getW_apply]
  dsimp only
  cases tm with
  | none =>
      dsimp only
      cases ha1 : (action == "read") with
      | true =>
          rw [if_pos rfl, EM.bind_apply]
          dsimp only [EM.addLock]
          cases hab : LockSystem.add_lock l "shared" tl with
          | error e => exact ⟨err_ne_txn (by decide), hw⟩
          | ok p =>
              rcases p with ⟨b, l2⟩
              dsimp only
              cases b with
              | true =>
                  refine ⟨ok_ne_txn (), ?_⟩
                  show (dbViewsOk c && true) = true
                  rw [hc]
                  rfl
              | false => exact ⟨ok_ne_txn (), hw⟩
      | false =>
          rw [if_neg Bool.false_ne_true]
          cases ha2 : (action == "write") with
          | true =>
              rw [if_pos rfl, EM.bind_apply]
              dsimp only [EM.addLock]
              cases hab : LockSystem.add_lock l "exclusive" tl with
              | error e => exact ⟨err_ne_txn (by decide), hw⟩
              | ok p =>
                  rcases p with ⟨b, l2⟩
                  dsimp only
                  cases b with
                  | true =>
                      refine ⟨ok_ne_txn (), ?_⟩
                      show (dbViewsOk c && dbViewsOk c) = true
                      rw [hc]
                      rfl
                  | false => exact ⟨ok_ne_txn (), hw⟩
          | false =>
              rw [if_neg Bool.false_ne_true]
              cases ha3 : (action == "commit") with
              | true =>
                  rw [if_pos rfl, EM.bind_apply]
                  dsimp only [EM.addLock]
                  cases hab : LockSystem.add_lock l "exclusive" tl with
                  | error e => exact ⟨err_ne_txn (by decide), hw⟩
                  | ok p =>
                      rcases p with ⟨b, l2⟩
                      dsimp only
                      cases b with
                      | true =>
                          refine ⟨ok_ne_txn (), ?_⟩
                          cases dr with
                          | committedRef =>
                              show (dbViewsOk c && true) = true
                              rw [hc]
                              rfl
                          | snapshot db =>
                              have hdb : dbViewsOk db = true := band_right hw
                              show (dbViewsOk db && true) = true
                              rw [hdb]
                              rfl
                      | false => exact ⟨ok_ne_txn (), hw⟩
              | false =>
                  rw [if_neg Bool.false_ne_true]
                  cases ha4 : (action == "relinquish") with
                  | true => rw [if_pos rfl]; exact ⟨ok_ne_txn (), hw⟩
                  | false => rw [if_neg Bool.false_ne_true]; exact ⟨ok_ne_txn (), hw⟩
  | some mode =>
      dsimp only
      cases hm1 : (mode == "DEFERRED") with
      | true =>
          rw [if_pos rfl]
          cases ha1 : (action == "read") with
          | true =>
              rw [if_pos rfl, EM.bind_apply, EM.getW_apply]
              dsimp only
              cases ht : optTruthy tl with
              | true => rw [if_pos rfl]; exact ⟨ok_ne_txn (), hw⟩
              | false =>
                  rw [if_neg Bool.false_ne_true, EM.bind_apply]
                  dsimp only [EM.addLock]
                  cases hab : LockSystem.add_lock l "shared" tl with
                  | error e => exact ⟨err_ne_txn (by decide), hw⟩
                  | ok p =>
                      rcases p with ⟨b, l2⟩
                      dsimp only
                      cases b with
                      | true => exact ⟨ok_ne_txn (), hw⟩
                      | false => exact ⟨ok_ne_txn (), hw⟩
          | false =>
              rw [if_neg Bool.false_ne_true]
              cases ha2 : (action == "write") with
              | true =>
                  rw [if_pos rfl, EM.bind_apply, EM.getW_apply]
                  dsimp only
                  rw [EM.bind_apply]
                  dsimp only [EM.addLock]
                  cases hab : LockSystem.add_lock l "reserved" tl with
                  | error e => exact ⟨err_ne_txn (by decide), hw⟩
                  | ok p =>
                      rcases p with ⟨b, l2⟩
                      dsimp only
                      cases b with
                      | true => exact ⟨ok_ne_txn (), hw⟩
                      | false => exact ⟨ok_ne_txn (), hw⟩
              | false => rw [if_neg Bool.false_ne_true]; exact ⟨ok_ne_txn (), hw⟩
      | false =>
          rw [if_neg Bool.false_ne_true]
          cases hm2 : (mode == "IMMEDIATE") with
          | true =>
              rw [if_pos rfl]
              cases ha1 : (action == "read") with
              | true => rw [if_pos rfl]; exact ⟨ok_ne_txn (), hw⟩
              | false =>
                  rw [if_neg Bool.false_ne_true]
                  cases ha2 : (action == "write") with
                  | true =>
                      rw [if_pos rfl, EM.bind_apply, EM.getW_apply]
                      dsimp only
                      cases ht : (optTruthy tl && optEqStr tl "exclusive") with
                      | true => rw [if_pos rfl]; exact ⟨ok_ne_txn (), hw⟩
                      | false =>
                          rw [if_neg Bool.false_ne_true, EM.bind_apply]
                          dsimp only [EM.addLock]
                          cases hab : LockSystem.add_lock l "reserved" tl with
                          | error e => exact ⟨err_ne_txn (by decide), hw⟩
                          | ok p =>
                              rcases p with ⟨b, l2⟩
                              dsimp only
                              cases b with
                              | true => exact ⟨ok_ne_txn (), hw⟩
                              | false => exact ⟨ok_ne_txn (), hw⟩
                  | false => rw [if_neg Bool.false_ne_true]; exact ⟨ok_ne_txn (), hw⟩
          | false => rw [if_neg Bool.false_ne_true]; exact ⟨ok_ne_txn (), hw⟩

theorem ts_autoCommit : TxnSafe autoCommit := by
  unfold autoCommit
  apply ts_bind ts_getW
  intro w0
  intro w hw
  cases hn : w0.txnMode.isNone with
  | true =>
      rw [if_pos rfl]
      exact ts_lock_check "commit" w hw
  | false => rw [if_neg Bool.false_ne_true]; exact ⟨ok_ne_txn (), hw⟩

theorem ts_autoRelinquish : TxnSafe autoRelinquish := by
  unfold autoRelinquish
  apply ts_bind ts_getW
  intro w0
  intro w hw
  cases hn : w0.txnMode.isNone with
  | true =>
      rw [if_pos rfl]
      exact ts_lock_check "relinquish" w hw
  | false => rw [if_neg Bool.false_ne_true]; exact ⟨ok_ne_txn (), hw⟩

theorem dbViewsOk_add_table {db db' : Database} {tn : PyVal} {vals : List PyVal}
    (hdb : dbViewsOk db = true) (h : db.add_table tn vals = .ok db') :
    dbViewsOk db' = true := by
  unfold Database.add_table at h
  cases hi : Table.init tn vals with
  | error e => rw [hi] at h; exact Except.noConfusion h
  | ok t =>
      rw [hi] at h
      injection h with h2
      rw [← h2]
      exact pyDictInsert_all rfl hdb

theorem dbViewsOk_remove_table {db : Database} (tn : PyVal)
    (hdb : dbViewsOk db = true) : dbViewsOk (db.remove_table tn) = true :=
  pyDictPop_all hdb

theorem dbViewsOk_add_view {db db' : Database} {vn tn : PyVal} {cols : List PyVal}
    {schema : List (PyVal × PyVal)} {stmt : List Char}
    (hdb : dbViewsOk db = true) (hs : viewStmtSafe stmt = true)
    (h : db.add_view vn tn cols schema stmt = .ok db') : dbViewsOk db' = true := by
  unfold Database.add_view at h
  unfold View.init at h
  cases hi : viewInitSchema cols schema with
  | error e => rw [hi] at h; exact Except.noConfusion h
  | ok vs =>
      rw [hi] at h
      injection h with h2
      rw [← h2]
      exact pyDictInsert_all hs hdb

theorem ts_getDb : TxnSafe EM.getDb :=
  fun w hw => ⟨ok_ne_txn w.deref, hw⟩

theorem ts_liftR_val {α : Type} {x : Except RunErr α} {P : α → Prop}
    (hp : ∀ a, x = .ok a → P a) :
    ∀ w, WorldViewsOk w = true →
      ((EM.liftR x w).2 ≠ .error .txnState ∧ WorldViewsOk ((EM.liftR x w).1) = true ∧
        ∀ a, (EM.liftR x w).2 = .ok a → P a) := by
  intro w hw
  cases hx : x with
  | ok a =>
      refine ⟨ok_ne_txn a, hw, ?_⟩
      intro a2 h
      injection h with h2
      exact h2 ▸ hp a hx
  | error e =>
      refine ⟨err_ne_txn (by intro hh; exact Err.noConfusion hh), hw, ?_⟩
      intro a2 h
      exact Except.noConfusion h

theorem ts_modifyW_joined (j : Option Table) :
    TxnSafe (EM.modifyW fun w => w.setDeref { w.deref with joined_table := j }) := by
  intro w hw
  exact ⟨ok_ne_txn (), wvOk_setDeref hw (dbViewsOk_deref hw)⟩

theorem ts_createTableCore (tokens : List PyVal) (tn : PyVal) :
    TxnSafe (createTableCore tokens tn) := by
  unfold createTableCore
  apply ts_bind (ts_liftR _)
  intro sb
  dsimp only
  apply ts_bind_val ts_getDb_val
  intro db hdb
  apply ts_bind_val (ts_liftR_val (fun db2 h => dbViewsOk_add_table hdb h))
  intro db2 hdb2
  apply ts_bind (ts_setDb hdb2)
  intro u
  exact ts_autoCommit

theorem ts_createTableBranch (tokens : List PyVal) : TxnSafe (createTableBranch tokens) := by
  unfold createTableBranch
  apply ts_bind (ts_lock_check "write")
  intro u0
  apply ts_bind (ts_liftR _)
  intro t2
  apply ts_bind
  · cases hc : pyEq t2 (.vstr "IF") with
    | true =>
        rw [if_pos rfl]
        apply ts_bind (ts_liftR _)
        intro t3
        cases hc3 : pyEq t3 (.vstr "NOT") with
        | true =>
            rw [if_pos rfl]
            apply ts_bind (ts_liftR _)
            intro t4
            exact ts_pure _
        | false => rw [if_neg Bool.false_ne_true]; exact ts_pure _
    | false => rw [if_neg Bool.false_ne_true]; exact ts_pure _
  intro ifne
  cases hi : ifne with
  | true =>
      rw [if_pos rfl]
      apply ts_bind (ts_liftR _)
      intro table_name
      apply ts_bind ts_getDb
      intro db
      cases hctn : pyDictContains db.tables table_name with
      | true => rw [if_pos rfl]; exact ts_pure _
      | false => rw [if_neg Bool.false_ne_true]; exact ts_createTableCore tokens table_name
  | false =>
      rw [if_neg Bool.false_ne_true]
      apply ts_bind (ts_liftR _)
      intro table_name
      apply ts_bind ts_getDb
      intro db
      cases hctn : pyDictContains db.tables table_name with
      | true => rw [if_pos rfl]; exact ts_throwSchema
      | false => rw [if_neg Bool.false_ne_true]; exact ts_createTableCore tokens table_name

theorem ts_dropCore (tn : PyVal) : TxnSafe (dropCore tn) := by
  unfold dropCore
  apply ts_bind_val ts_getDb_val
  intro db hdb
  apply ts_bind (ts_setDb (dbViewsOk_remove_table tn hdb))
  intro u
  exact ts_autoCommit

theorem ts_dropTableBranch (tokens : List PyVal) : TxnSafe (dropTableBranch tokens) := by
  unfold dropTableBranch
  apply ts_bind (ts_lock_check "write")
  intro u0
  apply ts_bind (ts_liftR _)
  intro t2
  apply ts_bind
  · cases hc : pyEq t2 (.vstr "IF") with
    | true =>
        rw [if_pos rfl]
        apply ts_bind (ts_liftR _)
        intro t3
        exact ts_pure _
    | false => rw [if_neg Bool.false_ne_true]; exact ts_pure _
  intro ife
  cases hi : ife with
  | true =>
      rw [if_pos rfl]
      apply ts_bind (ts_liftR _)
      intro table_name
      apply ts_bind ts_getDb
      intro db
      cases hctn : (!pyDictContains db.tables table_name) with
      | true => rw [if_pos rfl]; exact ts_pure _
      | false => rw [if_neg Bool.false_ne_true]; exact ts_dropCore table_name
  | false =>
      rw [if_neg Bool.false_ne_true]
      apply ts_bind (ts_liftR _)
      intro table_name
      apply ts_bind ts_getDb
      intro db
      cases hctn : (!pyDictContains db.tables table_name) with
      | true => rw [if_pos rfl]; exact ts_throwSchema
      | false => rw [if_neg Bool.false_ne_true]; exact ts_dropCore table_name

theorem ts_insertLoop (tokens : List PyVal) (tn : PyVal) (cols : Option (List PyVal)) :
    ∀ fuel es ee ve, TxnSafe (insertLoop tokens tn cols fuel es ee ve) := by
  intro fuel
  induction fuel with
  | zero => intro es ee ve; exact ts_throwRt _
  | succ n ih =>
      intro es ee ve
      unfold insertLoop
      by_cases hlt : es < ve
      · rw [if_pos hlt]
        apply ts_bind (ts_mutateTable _ _)
        intro u
        cases hb : (!pyListMem (tokens.drop ee) (.vstr "(")) with
        | true => rw [if_pos rfl]; exact ts_pure _
        | false =>
            rw [if_neg Bool.false_ne_true]
            apply ts_bind (ts_liftR _)
            intro es2
            apply ts_bind (ts_liftR _)
            intro ee2
            exact ih es2 ee2 ve
      · rw [if_neg hlt]
        exact ts_pure _

theorem ts_insertBranch (tokens : List PyVal) : TxnSafe (insertBranch tokens) := by
  unfold insertBranch
  apply ts_bind (ts_lock_check "write")
  intro u0
  apply ts_bind (ts_liftR _)
  intro table_name
  apply ts_bind (ts_getTable _)
  intro tv0
  apply ts_bind (ts_liftR _)
  intro values_index
  apply ts_bind (ts_liftR _)
  intro tprev
  cases hd : pyEq tprev (.vstr "DEFAULT") with
  | true =>
      rw [if_pos rfl]
      apply ts_bind (ts_mutateTable _ _)
      intro u
      exact ts_autoCommit
  | false =>
      rw [if_neg Bool.false_ne_true]
      apply ts_bind
      · cases hc : ((values_index : Int) - 3 != 0) with
        | true =>
            rw [if_pos rfl]
            apply ts_bind (ts_liftR _)
            intro cs
            dsimp only
            apply ts_bind (ts_liftR _)
            intro ce
            exact ts_pure _
        | false => rw [if_neg Bool.false_ne_true]; exact ts_pure _
      intro cols2
      apply ts_bind (ts_liftR _)
      intro values_end
      apply ts_bind (ts_liftR _)
      intro es
      dsimp only
      apply ts_bind (ts_liftR _)
      intro ee
      apply ts_bind (ts_insertLoop tokens table_name cols2 (tokens.length + 1) (es + 1) ee values_end)
      intro u
      exact ts_autoCommit

theorem ts_condFromList (cl : List PyVal) (c1 : PyVal) : TxnSafe (condFromList cl c1) := by
  unfold condFromList
  cases hc : pyEq c1 (.vstr "IS") with
  | true =>
      rw [if_pos rfl]
      apply ts_bind (ts_liftR _)
      intro c2
      cases hn : (pyTruthy c2 && pyEq c2 (.vstr "NOT")) with
      | true => rw [if_pos rfl]; exact ts_pure _
      | false => rw [if_neg Bool.false_ne_true]; exact ts_pure _
  | false =>
      rw [if_neg Bool.false_ne_true]
      apply ts_bind (ts_liftR _)
      intro c2
      exact ts_pure _

theorem ts_delete_from (tn : PyVal) (conditions : Option (List PyVal)) :
    TxnSafe (delete_from tn conditions) := by
  unfold delete_from
  apply ts_bind_val (ts_getTable_val tn)
  intro tv htv
  dsimp only
  cases hsz : (tv.tbl.size == 0) with
  | true => rw [if_pos rfl]; exact ts_pure _
  | false =>
      rw [if_neg Bool.false_ne_true]
      cases conditions with
      | none =>
          apply ts_setTable
          rw [tvSafe_setTbl]
          exact htv
      | some cl =>
          apply ts_bind (ts_liftR _)
          intro column_name
          apply ts_bind (ts_liftR _)
          intro column_index
          apply ts_bind (ts_liftR _)
          intro c1
          apply ts_bind (ts_condFromList cl c1)
          intro opv
          apply ts_bind (ts_liftR _)
          intro rows_to_remove
          exact ts_mutateTable _ _

theorem ts_deleteBranch (tokens : List PyVal) : TxnSafe (deleteBranch tokens) := by
  unfold deleteBranch
  apply ts_bind (ts_lock_check "write")
  intro u0
  apply ts_bind (ts_liftR _)
  intro table_name
  apply ts_bind
  · cases hc : pyListMem (tokens.drop 1) (.vstr "WHERE") with
    | true =>
        rw [if_pos rfl]
        apply ts_bind (ts_liftR _)
        intro wi
        exact ts_pure _
    | false => rw [if_neg Bool.false_ne_true]; exact ts_pure _
  intro conditions
  apply ts_bind (ts_delete_from table_name conditions)
  intro u
  exact ts_autoCommit

theorem ts_update_table (tn : PyVal) (values : Option (List (PyVal × PyVal)))
    (conditions : Option (List PyVal)) : TxnSafe (update_table tn values conditions) := by
  unfold update_table
  apply ts_bind_val (ts_getTable_val tn)
  intro tv htv
  dsimp only
  cases hsz : (tv.tbl.size == 0) with
  | true => rw [if_pos rfl]; exact ts_pure _
  | false =>
      rw [if_neg Bool.false_ne_true]
      cases conditions with
      | none =>
          cases values with
          | none =>
              cases he : tv.tbl.rows.isEmpty with
              | true => rw [if_pos rfl]; exact ts_pure _
              | false => rw [if_neg Bool.false_ne_true]; exact ts_throwRt _
          | some vs =>
              dsimp only
              apply ts_bind (ts_mutateTable _ _)
              intro u
              cases hpr : (updateFlaggedSeq tv.tbl.column_names vs
                  (tv.tbl.rows.map (fun _ => true)) tv.tbl.rows).2 with
              | some e => exact ts_throwRt _
              | none => exact ts_pure _
      | some cl =>
          apply ts_bind (ts_liftR _)
          intro column_name
          apply ts_bind (ts_liftR _)
          intro column_index
          apply ts_bind (ts_liftR _)
          intro c1
          apply ts_bind (ts_condFromList cl c1)
          intro opv
          apply ts_bind (ts_liftR _)
          intro flags
          cases values with
          | none =>
              cases ha : flags.any (fun b => b) with
              | true => rw [if_pos rfl]; exact ts_throwRt _
              | false => rw [if_neg Bool.false_ne_true]; exact ts_pure _
          | some vs =>
              dsimp only
              apply ts_bind (ts_mutateTable _ _)
              intro u
              cases hpr : (updateFlaggedSeq tv.tbl.column_names vs flags tv.tbl.rows).2 with
              | some e => exact ts_throwRt _
              | none => exact ts_pure _

theorem ts_updateBranch (tokens : List PyVal) : TxnSafe (updateBranch tokens) := by
  unfold updateBranch
  apply ts_bind (ts_lock_check "write")
  intro u0
  apply ts_bind (ts_liftR _)
  intro table_name
  apply ts_bind (ts_getTable _)
  intro tv0
  apply ts_bind (ts_liftR _)
  intro end_index0
  apply ts_bind
  · cases hc : pyListMem ((tokens.take end_index0).drop 1) (.vstr "WHERE") with
    | true =>
        rw [if_pos rfl]
        apply ts_bind (ts_liftR _)
        intro wi
        exact ts_pure _
    | false => rw [if_neg Bool.false_ne_true]; exact ts_pure _
  intro wc
  dsimp only
  apply ts_bind
  · cases hc : pyListMem
        ((tokens.take (match wc with | some wi => wi | none => end_index0)).drop 1)
        (.vstr "SET") with
    | true =>
        rw [if_pos rfl]
        apply ts_bind (ts_liftR _)
        intro si
        dsimp only
        apply ts_bind (ts_liftR _)
        intro pairs
        exact ts_pure _
    | false => rw [if_neg Bool.false_ne_true]; exact ts_pure _
  intro set_values
  apply ts_bind (ts_update_table _ _ _)
  intro u
  exact ts_autoCommit

theorem ts_selectRest (tokens : List PyVal) (fk : Nat) (tn : PyVal) (t : Table) :
    TxnSafe (selectRest tokens fk tn t) := by
  unfold selectRest
  apply ts_bind (ts_liftR _)
  intro aggregate
  apply ts_bind
  · cases hc : pyListMem (tokens.take fk) (.vstr "DISTINCT") with
    | true =>
        rw [if_pos rfl]
        apply ts_bind (ts_liftR _)
        intro di
        apply ts_bind (ts_liftR _)
        intro dv
        exact ts_pure _
    | false => rw [if_neg Bool.false_ne_true]; exact ts_pure _
  intro dc
  dsimp only
  apply ts_bind (ts_liftR _)
  intro columns
  apply ts_bind
  · cases hc : pyListMem (tokens.drop fk) (.vstr "WHERE") with
    | true =>
        rw [if_pos rfl]
        apply ts_bind (ts_liftR _)
        intro wi
        dsimp only
        apply ts_bind (ts_liftR _)
        intro c0
        apply ts_bind (ts_liftR _)
        intro conds1
        exact ts_pure _
    | false => rw [if_neg Bool.false_ne_true]; exact ts_pure _
  intro wcond
  dsimp only
  apply ts_bind
  · cases hc : pyListMem
        (tokens.drop ((match wcond with
          | some cl => fk + cl.length + 1
          | none => fk) + 1)) (.vstr "ORDER") with
    | true =>
        rw [if_pos rfl]
        apply ts_bind (ts_liftR _)
        intro o1
        exact ts_pure _
    | false => rw [if_neg Bool.false_ne_true]; exact ts_pure _
  intro order
  apply ts_bind (ts_liftR _)
  intro qr
  apply ts_bind ts_autoRelinquish
  intro u
  cases aggregate with
  | some a =>
      dsimp only
      cases hm : pyEq a (.vstr "MAX") with
      | true =>
          rw [if_pos rfl]
          exact ts_bind (ts_liftR _) (fun m => ts_pure _)
      | false =>
          rw [if_neg Bool.false_ne_true]
          exact ts_bind (ts_liftR _) (fun m => ts_pure _)
  | none => exact ts_pure _

theorem ts_joinBranch (tokens : List PyVal) : TxnSafe (joinBranch tokens) := by
  unfold joinBranch
  apply ts_bind (ts_lock_check "read")
  intro u0
  apply ts_bind (ts_liftR _)
  intro jks
  apply ts_bind (ts_liftR _)
  intro jke
  apply ts_bind (ts_liftR _)
  intro t1n
  apply ts_bind (ts_liftR _)
  intro t2n
  apply ts_bind (ts_getTable _)
  intro tv1
  apply ts_bind (ts_getTable _)
  intro tv2
  dsimp only
  apply ts_bind (ts_liftR _)
  intro oni
  dsimp only
  apply ts_bind
  · cases hc : pyListMem (tokens.drop 1) (.vstr "ORDER") with
    | true =>
        rw [if_pos rfl]
        apply ts_bind (ts_liftR _)
        intro semi
        apply ts_bind (ts_liftR _)
        intro oi
        exact ts_pure _
    | false => rw [if_neg Bool.false_ne_true]; exact ts_pure _
  intro order
  apply ts_bind (ts_liftR _)
  intro columns
  dsimp only
  apply ts_bind (ts_liftR _)
  intro joined1
  apply ts_bind (ts_liftR _)
  intro joined2
  apply ts_bind (ts_liftR _)
  intro c0
  apply ts_bind (ts_liftR _)
  intro cm1
  apply ts_bind (ts_liftR _)
  intro key1
  apply ts_bind (ts_liftR _)
  intro key2
  apply ts_bind (ts_liftR _)
  intro t1c
  apply ts_bind (ts_liftR _)
  intro t2c
  apply ts_bind (ts_liftR _)
  intro primary_keys
  apply ts_bind (ts_liftR _)
  intro foreign_rows
  apply ts_bind (ts_liftR _)
  intro joined3
  apply ts_bind (ts_modifyW_joined _)
  intro u1
  apply ts_bind (ts_liftR _)
  intro query_result
  apply ts_bind ts_autoRelinquish
  intro u2
  exact ts_pure _

theorem takeWhile_all_append {p : Char → Bool} {l1 : List Char} (l2 : List Char)
    (h : l1.all p = true) : (l1 ++ l2).takeWhile p = l1 ++ l2.takeWhile p := by
  induction l1 with
  | nil => rfl
  | cons c cs ih =>
      rw [List.all_cons, Bool.and_eq_true] at h
      rw [List.cons_append, List.takeWhile_cons, if_pos h.1, ih h.2]
      rfl

theorem list_beq_false_of_length_ne {α : Type} [BEq α] [LawfulBEq α] {l1 l2 : List α}
    (h : l1.length ≠ l2.length) : (l1 == l2) = false := by
  cases hx : l1 == l2 with
  | false => rfl
  | true => exact absurd (congrArg List.length (eq_of_beq hx)) h

theorem str_beq_false_of_length_ne {s t : String} (h : s.data.length ≠ t.data.length) :
    (s == t) = false := by
  cases hx : s == t with
  | false => rfl
  | true => exact absurd (congrArg (fun u => u.data.length) (eq_of_beq hx)) h

theorem str_beq_false_of_head_ne {s t : String} (h : s.data.head? ≠ t.data.head?) :
    (s == t) = false := by
  cases hx : s == t with
  | false => rfl
  | true => exact absurd (congrArg (fun u => u.data.head?) (eq_of_beq hx)) h

theorem headNotVerb_vnone (rest : List PyVal) : headNotVerb (.vnone :: rest) = true := rfl

theorem headNotVerb_vint (i : Int) (rest : List PyVal) :
    headNotVerb (.vint i :: rest) = true := rfl

theorem headNotVerb_vreal (x : Rat) (rest : List PyVal) :
    headNotVerb (.vreal x :: rest) = true := rfl

/-- A token shorter than every verb keyword dispatches to no verb branch. -/
theorem headNotVerb_vstr_short {s : String} (hs : s.data.length ≤ 3) (rest : List PyVal) :
    headNotVerb (.vstr s :: rest) = true := by
  have hb : ∀ t : String, 4 ≤ t.data.length → (s == t) = false := by
    intro t ht
    exact str_beq_false_of_length_ne (by omega)
  unfold headNotVerb
  rw [List.getD_cons_zero]
  have h1 : pyEq (PyVal.vstr s) (.vstr "BEGIN") = false := hb "BEGIN" (by decide)
  have h2 : pyEq (PyVal.vstr s) (.vstr "COMMIT") = false := hb "COMMIT" (by decide)
  have h3 : pyEq (PyVal.vstr s) (.vstr "ROLLBACK") = false := hb "ROLLBACK" (by decide)
  have h4 : pyEq (PyVal.vstr s) (.vstr "CREATE") = false := hb "CREATE" (by decide)
  have h5 : pyEq (PyVal.vstr s) (.vstr "DROP") = false := hb "DROP" (by decide)
  have h6 : pyEq (PyVal.vstr s) (.vstr "INSERT") = false := hb "INSERT" (by decide)
  have h7 : pyEq (PyVal.vstr s) (.vstr "DELETE") = false := hb "DELETE" (by decide)
  have h8 : pyEq (PyVal.vstr s) (.vstr "UPDATE") = false := hb "UPDATE" (by decide)
  rw [h1, h2, h3, h4, h5, h6, h7, h8]
  rfl

/-- A token starting with the letter S is none of the verb keywords. -/
theorem headNotVerb_vstr_S {s : String} (hs : s.data.head? = some 'S')
    (rest : List PyVal) : headNotVerb (.vstr s :: rest) = true := by
  have hb : ∀ t : String, t.data.head? ≠ some 'S' → (s == t) = false := by
    intro t ht
    refine str_beq_false_of_head_ne ?_
    rw [hs]
    exact fun hh => ht hh.symm
  unfold headNotVerb
  rw [List.getD_cons_zero]
  have h1 : pyEq (PyVal.vstr s) (.vstr "BEGIN") = false := hb "BEGIN" (by decide)
  have h2 : pyEq (PyVal.vstr s) (.vstr "COMMIT") = false := hb "COMMIT" (by decide)
  have h3 : pyEq (PyVal.vstr s) (.vstr "ROLLBACK") = false := hb "ROLLBACK" (by decide)
  have h4 : pyEq (PyVal.vstr s) (.vstr "CREATE") = false := hb "CREATE" (by decide)
  have h5 : pyEq (PyVal.vstr s) (.vstr "DROP") = false := hb "DROP" (by decide)
  have h6 : pyEq (PyVal.vstr s) (.vstr "INSERT") = false := hb "INSERT" (by decide)
  have h7 : pyEq (PyVal.vstr s) (.vstr "DELETE") = false := hb "DELETE" (by decide)
  have h8 : pyEq (PyVal.vstr s) (.vstr "UPDATE") = false := hb "UPDATE" (by decide)
  rw [h1, h2, h3, h4, h5, h6, h7, h8]
  rfl

theorem findSubAux_lower (pat : List Char) :
    ∀ cs idx, 0 ≤ findSubAux pat cs idx → (idx : Int) ≤ findSubAux pat cs idx := by
  intro cs
  induction cs with
  | nil =>
      intro idx h
      unfold findSubAux at h ⊢
      cases hs : listStarts pat [] with
      | true => rw [if_pos rfl]
      | false =>
          rw [bool_ite_neg _ _ hs] at h
          omega
  | cons c rest ih =>
      intro idx h
      unfold findSubAux at h ⊢
      cases hs : listStarts pat (c :: rest) with
      | true => rw [if_pos rfl]
      | false =>
          rw [bool_ite_neg _ _ hs] at h
          rw [if_neg Bool.false_ne_true]
          have := ih (idx + 1) h
          omega

theorem findSubAux_starts (pat : List Char) :
    ∀ cs idx, 0 ≤ findSubAux pat cs idx →
      listStarts pat (cs.drop ((findSubAux pat cs idx).toNat - idx)) = true := by
  intro cs
  induction cs with
  | nil =>
      intro idx h
      unfold findSubAux at h ⊢
      cases hs : listStarts pat [] with
      | true =>
          rw [if_pos rfl]
          rw [List.drop_nil]
          exact hs
      | false =>
          rw [bool_ite_neg _ _ hs] at h
          omega
  | cons c rest ih =>
      intro idx h
      unfold findSubAux at h ⊢
      cases hs : listStarts pat (c :: rest) with
      | true =>
          rw [if_pos rfl]
          rw [Int.toNat_ofNat, Nat.sub_self]
          exact hs
      | false =>
          rw [bool_ite_neg _ _ hs] at h
          rw [if_neg Bool.false_ne_true]
          have hlow := findSubAux_lower pat rest (idx + 1) h
          have hih := ih (idx + 1) h
          have harith : (findSubAux pat rest (idx + 1)).toNat - idx =
              ((findSubAux pat rest (idx + 1)).toNat - (idx + 1)) + 1 := by omega
          rw [harith, List.drop_succ_cons]
          exact hih

theorem findSubAux_neg_or_nonneg (pat : List Char) (cs : List Char) (idx : Nat) :
    findSubAux pat cs idx = -1 ∨ 0 ≤ findSubAux pat cs idx := by
  induction cs generalizing idx with
  | nil =>
      unfold findSubAux
      cases hs : listStarts pat [] with
      | true => rw [if_pos rfl]; right; omega
      | false => rw [if_neg Bool.false_ne_true]; left; rfl
  | cons c rest ih =>
      unfold findSubAux
      cases hs : listStarts pat (c :: rest) with
      | true => rw [if_pos rfl]; right; omega
      | false => rw [if_neg Bool.false_ne_true]; exact ih (idx + 1)

theorem listStarts_exists {pat l : List Char} (h : listStarts pat l = true) :
    ∃ tail, l = pat ++ tail := by
  induction pat generalizing l with
  | nil => exact ⟨l, rfl⟩
  | cons p ps ih =>
      cases l with
      | nil => exact Bool.noConfusion h
      | cons c rest =>
          unfold listStarts at h
          rw [Bool.and_eq_true] at h
          obtain ⟨tail, ht⟩ := ih h.2
          refine ⟨tail, ?_⟩
          rw [List.cons_append, ← ht, eq_of_beq h.1]

/-- The tokenizer only appends tokens at the end of the accumulator, and its
operator-merging step rewrites the LAST token only when that token is a
short (length < 2) operator string.  Hence once a long first token is in
place, it survives to the output. -/
theorem tokenizeLoop_head_stable {s : String} (hlen : 2 ≤ s.data.length) :
    ∀ fuel q acc toks, acc.head? = some (.vstr s) →
      tokenizeLoop fuel q acc = .ok toks → toks.head? = some (.vstr s) := by
  intro fuel
  induction fuel with
  | zero =>
      intro q acc toks hhead hrun
      unfold tokenizeLoop at hrun
      cases he : q.isEmpty with
      | true =>
          rw [bool_ite_pos _ _ he] at hrun
          injection hrun with h2
          rw [← h2]
          exact hhead
      | false =>
          rw [bool_ite_neg _ _ he] at hrun
          exact Except.noConfusion hrun
  | succ n ih =>
      intro q acc toks hhead hrun
      unfold tokenizeLoop at hrun
      cases q with
      | nil =>
          injection hrun with h2
          rw [← h2]
          exact hhead
      | cons c qrest =>
          dsimp only at hrun
          cases acc with
          | nil => exact Option.noConfusion hhead
          | cons a0 as =>
              injection hhead with ha0
              subst ha0
              cases hw1 : pyWhitespace.contains c with
              | true =>
                  rw [bool_ite_pos _ _ hw1] at hrun
                  refine ih _ _ _ ?_ hrun
                  rfl
              | false =>
                  rw [bool_ite_neg _ _ hw1] at hrun
                  cases hl : (isAsciiLetter c || c == '_') with
                  | true =>
                      rw [bool_ite_pos _ _ hl] at hrun
                      refine ih _ _ _ ?_ hrun
                      rfl
                  | false =>
                      rw [bool_ite_neg _ _ hl] at hrun
                      cases hp : "(),;*".data.contains c with
                      | true =>
                          rw [bool_ite_pos _ _ hp] at hrun
                          refine ih _ _ _ ?_ hrun
                          rfl
                      | false =>
                          rw [bool_ite_neg _ _ hp] at hrun
                          cases hq : (c == '\'') with
                          | true =>
                              rw [bool_ite_pos _ _ hq] at hrun
                              refine ih _ _ _ ?_ hrun
                              rfl
                          | false =>
                              rw [bool_ite_neg _ _ hq] at hrun
                              cases hn2 : (isDigitCh c || c == '-') with
                              | true =>
                                  rw [bool_ite_pos _ _ hn2] at hrun
                                  cases hrn : remove_num (c :: qrest) with
                                  | error e =>
                                      rw [hrn] at hrun
                                      exact Except.noConfusion hrun
                                  | ok p =>
                                      rw [hrn] at hrun
                                      dsimp only at hrun
                                      refine ih _ _ _ ?_ hrun
                                      rfl
                              | false =>
                                  rw [bool_ite_neg _ _ hn2] at hrun
                                  cases ho : "<>=!".data.contains c with
                                  | true =>
                                      rw [bool_ite_pos _ _ ho] at hrun
                                      cases hlast : (PyVal.vstr s :: as).getLast? with
                                      | none =>
                                          rw [hlast] at hrun
                                          exact Except.noConfusion hrun
                                      | some lt =>
                                          rw [hlast] at hrun
                                          dsimp only at hrun
                                          cases lt with
                                          | vnone => exact Except.noConfusion hrun
                                          | vint i => exact Except.noConfusion hrun
                                          | vreal x => exact Except.noConfusion hrun
                                          | vstr s0 =>
                                              dsimp only at hrun
                                              by_cases h2 : s0.length < 2
                                              · rw [if_pos h2] at hrun
                                                cases as with
                                                | nil =>
                                                    have hs0 : PyVal.vstr s = PyVal.vstr s0 := by
                                                      injection hlast with h3
                                                    have hss : s = s0 := by
                                                      injection hs0
                                                    rw [← hss] at h2
                                                    have : s.length = s.data.length := rfl
                                                    omega
                                                | cons a1 as1 =>
                                                    cases hm1 : (pyStrContains "!>".data s0.data
                                                        && (c == '=')) with
                                                    | true =>
                                                        rw [bool_ite_pos _ _ hm1] at hrun
                                                        refine ih _ _ _ ?_ hrun
                                                        rfl
                                                    | false =>
                                                        rw [bool_ite_neg _ _ hm1] at hrun
                                                        cases hm2 : ((s0 == "=") && (c == '<')) with
                                                        | true =>
                                                            rw [bool_ite_pos _ _ hm2] at hrun
                                                            refine ih _ _ _ ?_ hrun
                                                            rfl
                                                        | false =>
                                                            rw [bool_ite_neg _ _ hm2] at hrun
                                                            refine ih _ _ _ ?_ hrun
                                                            rfl
                                              · rw [if_neg h2] at hrun
                                                refine ih _ _ _ ?_ hrun
                                                rfl
                                  | false =>
                                      rw [bool_ite_neg _ _ ho] at hrun
                                      exact Except.noConfusion hrun

theorem tokenizeLoop_one_nil (acc : List PyVal) : tokenizeLoop 1 [] acc = .ok acc := rfl

/-- A statement whose text begins with the characters `SELECT` tokenizes (if
at all) to a token list whose first token is a word starting with `S`, which
matches none of the verb guards. -/
theorem viewStmtSafe_select_prefix (tail : List Char) :
    viewStmtSafe ("SELECT".data ++ tail) = true := by
  unfold viewStmtSafe
  have hcoll : collect_characters ("SELECT".data ++ tail) isWordChar =
      "SELECT".data ++ tail.takeWhile isWordChar :=
    takeWhile_all_append tail (by decide)
  have hnn : (("SELECT".data ++ tail.takeWhile isWordChar) == "NULL".data) = false := by
    show (('S' :: ("ELECT".data ++ tail.takeWhile isWordChar)) ==
      ('N' :: "ULL".data)) = false
    show (('S' == 'N') && (("ELECT".data ++ tail.takeWhile isWordChar) == "ULL".data))
      = false
    rw [show ('S' == 'N') = false from by decide]
    rfl
  have hword : remove_word ("SELECT".data ++ tail) =
      (.vstr (String.mk ("SELECT".data ++ tail.takeWhile isWordChar)),
        ("SELECT".data ++ tail).drop ("SELECT".data ++ tail.takeWhile isWordChar).length) := by
    unfold remove_word
    rw [hcoll]
    dsimp only
    rw [hnn]
    rfl
  have hstep : tokenize ("SELECT".data ++ tail) =
      tokenizeLoop ("SELECT".data ++ tail).length (remove_word ("SELECT".data ++ tail)).2
        [(remove_word ("SELECT".data ++ tail)).1] := rfl
  rw [hstep, hword]
  dsimp only
  cases hrun : tokenizeLoop ("SELECT".data ++ tail).length
      (("SELECT".data ++ tail).drop ("SELECT".data ++ tail.takeWhile isWordChar).length)
      [.vstr (String.mk ("SELECT".data ++ tail.takeWhile isWordChar))] with
  | error e => rfl
  | ok toks =>
      have hlen : 2 ≤ (String.mk ("SELECT".data ++ tail.takeWhile isWordChar)).data.length := by
        show 2 ≤ ("SELECT".data ++ tail.takeWhile isWordChar).length
        rw [List.length_append]
        have : "SELECT".data.length = 6 := rfl
        omega
      have hhead := tokenizeLoop_head_stable hlen _ _
        [.vstr (String.mk ("SELECT".data ++ tail.takeWhile isWordChar))] _ rfl hrun
      cases toks with
      | nil => exact Option.noConfusion hhead
      | cons t0 rest =>
          injection hhead with ht0
          subst ht0
          refine headNotVerb_vstr_S ?_ rest
          rfl

/-- Any single-character statement is transaction-safe: whatever token it
produces (if tokenization does not fail) is at most one character long. -/
theorem viewStmtSafe_single (c : Char) : viewStmtSafe [c] = true := by
  unfold viewStmtSafe
  have hstep : tokenize [c] =
      (if pyWhitespace.contains c then
        tokenizeLoop 1 ([c].drop (collect_characters [c] (fun x => pyWhitespace.contains x)).length) []
      else if isAsciiLetter c || c == '_' then
        tokenizeLoop 1 (remove_word [c]).2 [(remove_word [c]).1]
      else if "(),;*".data.contains c then
        tokenizeLoop 1 [] [.vstr c.toString]
      else if c == '\'' then
        tokenizeLoop 1 (remove_text [c]).2 [(remove_text [c]).1]
      else if isDigitCh c || c == '-' then
        match remove_num [c] with
        | .error e => .error e
        | .ok p => tokenizeLoop 1 p.2 [p.1]
      else if "<>=!".data.contains c then
        .error .indexErr
      else .error .assertErr) := rfl
  rw [hstep]
  cases h1 : pyWhitespace.contains c with
  | true =>
      rw [if_pos rfl]
      have hcw : ([c].drop (collect_characters [c] (fun x => pyWhitespace.contains x)).length)
          = [] := by
        unfold collect_characters
        rw [List.takeWhile_cons, bool_ite_pos _ _ h1]
        rfl
      rw [hcw, tokenizeLoop_one_nil]
      rfl
  | false =>
      rw [if_neg Bool.false_ne_true]
      cases h2 : (isAsciiLetter c || c == '_') with
      | true =>
          rw [if_pos rfl]
          have hwc : isWordChar c = true := by
            unfold isWordChar
            cases hA : isAsciiLetter c with
            | true => rfl
            | false =>
                rw [hA] at h2
                have hU : (c == '_') = true := h2
                rw [hU]
                rfl
          have hword : remove_word [c] = (.vstr (String.mk [c]), []) := by
            unfold remove_word collect_characters
            rw [List.takeWhile_cons, bool_ite_pos _ _ hwc]
            dsimp only
            have hnn : ((c :: List.takeWhile isWordChar []) == "NULL".data) = false :=
              list_beq_false_of_length_ne (show (1 : Nat) ≠ 4 from by decide)
            rw [hnn]
            rfl
          rw [hword, tokenizeLoop_one_nil]
          refine headNotVerb_vstr_short ?_ []
          show (1 : Nat) ≤ 3
          decide
      | false =>
          rw [if_neg Bool.false_ne_true]
          cases h3 : "(),;*".data.contains c with
          | true =>
              rw [if_pos rfl, tokenizeLoop_one_nil]
              refine headNotVerb_vstr_short ?_ []
              show c.toString.data.length ≤ 3
              show (1 : Nat) ≤ 3
              decide
          | false =>
              rw [if_neg Bool.false_ne_true]
              cases h4 : (c == '\'') with
              | true =>
                  have hc : c = '\'' := eq_of_beq h4
                  subst hc
                  decide
              | false =>
                  rw [if_neg Bool.false_ne_true]
                  cases h5 : (isDigitCh c || c == '-') with
                  | true =>
                      rw [if_pos rfl]
                      have hnum : isNumChar c = true := by
                        unfold isNumChar
                        cases hdg : isDigitCh c with
                        | true => rfl
                        | false =>
                            rw [hdg] at h5
                            have hM : (c == '-') = true := h5
                            rw [hM]
                            rfl
                      have hcoll : collectNum [c] = [c] := by
                        unfold collectNum collect_characters
                        rw [List.takeWhile_cons, bool_ite_pos _ _ hnum]
                        rfl
                      cases hrn : remove_num [c] with
                      | error e => rfl
                      | ok p =>
                          rcases p with ⟨t, r⟩
                          have hshape : r = [c].drop (collectNum [c]).length ∧
                              ((∃ x, t = .vreal x) ∨ ∃ i, t = .vint i) := by
                            unfold remove_num at hrn
                            cases hdot : (collectNum [c]).contains '.' with
                            | true =>
                                rw [bool_ite_pos _ _ hdot] at hrn
                                cases hfp : pyFloatParse (collectNum [c]) with
                                | none => rw [hfp] at hrn; exact Except.noConfusion hrn
                                | some x =>
                                    rw [hfp] at hrn
                                    injection hrn with hp2
                                    injection hp2 with hpa hpb
                                    exact ⟨hpb.symm, .inl ⟨x, hpa.symm⟩⟩
                            | false =>
                                rw [bool_ite_neg _ _ hdot] at hrn
                                cases hip : pyIntParse (collectNum [c]) with
                                | none => rw [hip] at hrn; exact Except.noConfusion hrn
                                | some i =>
                                    rw [hip] at hrn
                                    injection hrn with hp2
                                    injection hp2 with hpa hpb
                                    exact ⟨hpb.symm, .inr ⟨i, hpa.symm⟩⟩
                          have hr : r = [] := by
                            rw [hshape.1, hcoll]
                            rfl
                          rw [hr]
                          dsimp only
                          rw [tokenizeLoop_one_nil]
                          rcases hshape.2 with ⟨x, hx⟩ | ⟨i, hi⟩
                          · rw [hx]
                            exact headNotVerb_vreal x []
                          · rw [hi]
                            exact headNotVerb_vint i []
                  | false =>
                      rw [if_neg Bool.false_ne_true]
                      cases h6 : "<>=!".data.contains c with
                      | true => rw [if_pos rfl]
                      | false => rw [if_neg Bool.false_ne_true]

theorem drop_pred_length_le (l : List Char) : (l.drop (l.length - 1)).length ≤ 1 := by
  rw [List.length_drop]
  omega

/-- The empty statement is transaction-safe. -/
theorem viewStmtSafe_nil : viewStmtSafe [] = true := by decide

/-- The statement slice stored by CREATE VIEW — the raw text from the first
occurrence of the substring `SELECT` onwards (the whole suffix `s[-1:]` when
there is none) — is always transaction-safe. -/
theorem viewStmtSafe_slice (stmt : List Char) :
    viewStmtSafe (pySliceFrom stmt (pyFind stmt "SELECT".data 0)) = true := by
  unfold pyFind
  rw [List.drop_zero]
  rcases findSubAux_neg_or_nonneg "SELECT".data stmt 0 with hneg | hpos
  · rw [hneg]
    unfold pySliceFrom pyNormIdx
    rw [if_pos (by decide : (-1 : Int) < 0)]
    show viewStmtSafe (stmt.drop (stmt.length - 1)) = true
    have hle : (stmt.drop (stmt.length - 1)).length ≤ 1 := by
      rw [List.length_drop]
      omega
    cases hd : stmt.drop (stmt.length - 1) with
    | nil => exact viewStmtSafe_nil
    | cons c rest =>
        rw [hd] at hle
        cases rest with
        | nil => exact viewStmtSafe_single c
        | cons c2 r2 => simp at hle
  · have hstart := findSubAux_starts "SELECT".data stmt 0 hpos
    rw [Nat.sub_zero] at hstart
    obtain ⟨tail, htail⟩ := listStarts_exists hstart
    have hlt : (findSubAux "SELECT".data stmt 0).toNat ≤ stmt.length := by
      by_contra hgt
      rw [List.drop_eq_nil_of_le (by omega)] at htail
      have := congrArg List.length htail
      rw [List.length_append] at this
      have h6 : "SELECT".data.length = 6 := rfl
      simp at this
      omega
    unfold pySliceFrom pyNormIdx
    rw [if_neg (by omega)]
    rw [show min (findSubAux "SELECT".data stmt 0).toNat stmt.length =
      (findSubAux "SELECT".data stmt 0).toNat from by omega]
    rw [htail]
    exact viewStmtSafe_select_prefix tail

theorem tvSafe_View_init {vn tn : PyVal} {cols : List PyVal}
    {schema : List (PyVal × PyVal)} {stmt : List Char} {tv : TableV}
    (hs : viewStmtSafe stmt = true) (h : View.init vn tn cols schema stmt = .ok tv) :
    tvSafe tv = true := by
  unfold View.init at h
  cases hi : viewInitSchema cols schema with
  | error e => rw [hi] at h; exact Except.noConfusion h
  | ok vs =>
      rw [hi] at h
      injection h with h2
      rw [← h2]
      exact hs

theorem foldl_setTbl_safe (rows : List (List PyVal)) (nv : TableV)
    (h : tvSafe nv = true) :
    tvSafe (rows.foldl (fun acc row => acc.setTbl (acc.tbl.insert_row (.vals row) none))
      nv) = true := by
  induction rows generalizing nv with
  | nil => exact h
  | cons r rs ih =>
      rw [List.foldl_cons]
      refine ih _ ?_
      rw [tvSafe_setTbl]
      exact h

theorem ts_forM {α : Type} (l : List α) (f : α → EM Unit) (hf : ∀ a, TxnSafe (f a)) :
    TxnSafe (l.forM f) := by
  induction l with
  | nil => exact ts_pure _
  | cons a as ih =>
      exact ts_bind (hf a) (fun _ => ih)

theorem ts_viewRematerialize (rec : List Char → EM ExecRes) (tn : PyVal) (vt : Table)
    (vd : ViewData) (hrec : ∀ s, viewStmtSafe s = true → TxnSafe (rec s))
    (hvd : viewStmtSafe vd.statement = true) :
    TxnSafe (viewRematerialize rec tn vt vd) := by
  unfold viewRematerialize
  apply ts_bind (hrec _ hvd)
  intro result
  cases result with
  | none => exact ts_throwRt _
  | some rows =>
      dsimp only
      apply ts_bind_val (ts_liftR_val (fun nv h => tvSafe_View_init hvd h))
      intro nv hnv
      dsimp only
      apply ts_bind (ts_setTable _ _ (foldl_setTbl_safe rows nv hnv))
      intro u
      exact ts_pure _

theorem ts_createViewCore (vn tn : PyVal) (cols : List PyVal)
    (schema : List (PyVal × PyVal)) (stmt : List Char) (result : ExecRes)
    (hs : viewStmtSafe stmt = true) :
    TxnSafe (createViewCore vn tn cols schema stmt result) := by
  unfold createViewCore
  apply ts_bind (ts_lock_check "write")
  intro u0
  apply ts_bind_val ts_getDb_val
  intro db hdb
  apply ts_bind_val (ts_liftR_val (fun db2 h => dbViewsOk_add_view hdb hs h))
  intro db2 hdb2
  apply ts_bind (ts_setDb hdb2)
  intro u1
  cases result with
  | none => exact ts_throwRt _
  | some rows =>
      dsimp only
      apply ts_bind (ts_forM rows _ (fun row => ts_mutateTable _ _))
      intro u2
      apply ts_bind (ts_modifyW_joined none)
      intro u3
      exact ts_autoCommit

theorem ts_createViewBranch (rec : List Char → EM ExecRes) (stmt : List Char)
    (tokens : List PyVal) (hrec : ∀ s, viewStmtSafe s = true → TxnSafe (rec s)) :
    TxnSafe (createViewBranch rec stmt tokens) := by
  unfold createViewBranch
  apply ts_bind (ts_lock_check "read")
  intro u0
  apply ts_bind (ts_liftR _)
  intro view_name
  apply ts_bind ts_getDb
  intro db0
  cases hc : pyDictContains db0.tables view_name with
  | true => rw [if_pos rfl]; exact ts_throwSchema
  | false =>
      rw [if_neg Bool.false_ne_true]
      apply ts_bind (ts_liftR _)
      intro from_index
      apply ts_bind (ts_liftR _)
      intro select_index
      dsimp only
      apply ts_bind (ts_liftR _)
      intro table_name0
      apply ts_bind (ts_liftR _)
      intro f2
      apply ts_bind
      · cases hf2 : pyEq f2 (.vstr "LEFT") with
        | true =>
            rw [if_pos rfl]
            apply ts_bind (ts_liftR _)
            intro f3
            cases hf3 : pyEq f3 (.vstr "OUTER") with
            | true =>
                rw [if_pos rfl]
                apply ts_bind (ts_liftR _)
                intro f4
                exact ts_pure _
            | false => rw [if_neg Bool.false_ne_true]; exact ts_pure _
        | false => rw [if_neg Bool.false_ne_true]; exact ts_pure _
      intro isJoin
      cases hj : isJoin with
      | true =>
          rw [if_pos rfl]
          apply ts_bind (hrec _ (viewStmtSafe_slice stmt))
          intro result
          apply ts_bind ts_getDb
          intro db1
          cases hjt : db1.joined_table with
          | none => exact ts_throwRt _
          | some jt =>
              exact ts_createViewCore view_name jt.name _ jt.schema _ result
                (viewStmtSafe_slice stmt)
      | false =>
          rw [if_neg Bool.false_ne_true]
          apply ts_bind ts_getDb
          intro db1
          cases hc1 : (!pyDictContains db1.tables table_name0) with
          | true => rw [if_pos rfl]; exact ts_throwSchema
          | false =>
              rw [if_neg Bool.false_ne_true]
              apply ts_bind (hrec _ (viewStmtSafe_slice stmt))
              intro result
              apply ts_bind ts_getDb
              intro db2
              cases hbt : pyDictGet db2.tables table_name0 with
              | none => exact ts_throwRt _
              | some btv =>
                  exact ts_createViewCore view_name table_name0 _ btv.tbl.schema _ result
                    (viewStmtSafe_slice stmt)

theorem ts_selectBranch (rec : List Char → EM ExecRes) (tokens : List PyVal)
    (hrec : ∀ s, viewStmtSafe s = true → TxnSafe (rec s)) :
    TxnSafe (selectBranch rec tokens) := by
  unfold selectBranch
  apply ts_bind (ts_lock_check "read")
  intro u0
  apply ts_bind (ts_liftR _)
  intro fk
  apply ts_bind (ts_liftR _)
  intro tn
  apply ts_bind_val (ts_getTable_val _)
  intro tv htv
  apply ts_bind
  · cases tv with
    | view vt vd => exact ts_viewRematerialize rec tn vt vd hrec htv
    | base t => exact ts_pure t
  intro table
  exact ts_selectRest tokens fk tn table

theorem not_eq_true_to_false {a : Bool} (h : (!a) = true) : a = false := by
  cases a with
  | false => rfl
  | true => exact absurd h (by decide)

/-- Executing any transaction-safe statement never raises the
transaction-state error and preserves view safety, at every fuel. -/
theorem exec_no_txn : ∀ fuel s w, viewStmtSafe s = true → WorldViewsOk w = true →
    (executeStmt fuel s w).2 ≠ .error .txnState ∧
    WorldViewsOk (executeStmt fuel s w).1 = true := by
  intro fuel
  induction fuel with
  | zero =>
      intro s w hs hw
      exact ⟨err_ne_txn (by decide), hw⟩
  | succ n ih =>
      intro s w hs hw
      have hrec : ∀ s2, viewStmtSafe s2 = true → TxnSafe (executeStmt n s2) :=
        fun s2 hs2 w2 hw2 => ih s2 w2 hs2 hw2
      unfold executeStmt
      unfold viewStmtSafe at hs
      cases htk : tokenize s with
      | error e =>
          rw [htk] at hs
          exact ⟨err_ne_txn (by intro hh; exact Err.noConfusion hh), hw⟩
      | ok toks =>
          rw [htk] at hs
          dsimp only at hs
          dsimp only
          have h8 : pyEq (toks.getD 0 PyVal.vnone) (.vstr "UPDATE") = false :=
            not_eq_true_to_false (band_right hs)
          have h7 : pyEq (toks.getD 0 PyVal.vnone) (.vstr "DELETE") = false :=
            not_eq_true_to_false (band_right (band_left hs))
          have h6 : pyEq (toks.getD 0 PyVal.vnone) (.vstr "INSERT") = false :=
            not_eq_true_to_false (band_right (band_left (band_left hs)))
          have h5 : pyEq (toks.getD 0 PyVal.vnone) (.vstr "DROP") = false :=
            not_eq_true_to_false (band_right (band_left (band_left (band_left hs))))
          have h4 : pyEq (toks.getD 0 PyVal.vnone) (.vstr "CREATE") = false :=
            not_eq_true_to_false (band_right (band_left (band_left (band_left
              (band_left hs)))))
          have h3 : pyEq (toks.getD 0 PyVal.vnone) (.vstr "ROLLBACK") = false :=
            not_eq_true_to_false (band_right (band_left (band_left (band_left
              (band_left (band_left hs))))))
          have h2 : pyEq (toks.getD 0 PyVal.vnone) (.vstr "COMMIT") = false :=
            not_eq_true_to_false (band_right (band_left (band_left (band_left
              (band_left (band_left (band_left hs)))))))
          have h1 : pyEq (toks.getD 0 PyVal.vnone) (.vstr "BEGIN") = false :=
            not_eq_true_to_false (band_left (band_left (band_left (band_left
              (band_left (band_left (band_left hs)))))))
          cases hsemi : (toks.length == 0 ||
              !pyEq (toks.getD (toks.length - 1) PyVal.vnone) (.vstr ";")) with
          | true =>
              rw [if_pos rfl]
              exact ⟨err_ne_txn (by decide), hw⟩
          | false =>
              rw [if_neg Bool.false_ne_true]
              unfold execTokens
              rw [bool_ite_and_neg _ _ h1, bool_ite_and_neg _ _ h2,
                bool_ite_and_neg _ _ h3, bool_ite_and_neg _ _ h4,
                bool_ite_and_neg _ _ h4, bool_ite_and_neg _ _ h5,
                bool_ite_and_neg _ _ h6, bool_ite_and_neg _ _ h7,
                bool_ite_neg _ _ h8]
              cases hj : (pyListMem toks (.vstr "LEFT") && pyListMem toks (.vstr "OUTER") &&
                  pyListMem toks (.vstr "JOIN")) with
              | true =>
                  rw [if_pos rfl]
                  exact ts_bind (ts_joinBranch toks) (fun r => ts_pure _) w hw
              | false =>
                  rw [if_neg Bool.false_ne_true]
                  cases hsel : pyEq (toks.getD 0 PyVal.vnone) (.vstr "SELECT") with
                  | true =>
                      rw [if_pos rfl]
                      exact ts_bind (ts_selectBranch (executeStmt n) toks hrec)
                        (fun r => ts_pure _) w hw
                  | false =>
                      rw [if_neg Bool.false_ne_true]
                      exact ⟨ok_ne_txn _, hw⟩

/-- Outcomes of the BEGIN executor: an open transaction raises the
transaction-state error without mutating anything; otherwise a recognized
mode token never produces that error, and an unrecognized one raises it
with the state unchanged. -/
theorem beginBranch_run (b : PyVal) (tokens : List PyVal) (w : World)
    (hget : pyGetI tokens 1 = .ok b) :
    (w.txnMode.isSome = true → beginBranch tokens w = (w, .error .txnState)) ∧
    (w.txnMode = none →
      ((pyEq b (.vstr "DEFERRED") || pyEq b (.vstr "TRANSACTION")) = false →
        pyEq b (.vstr "IMMEDIATE") = false →
        pyEq b (.vstr "EXCLUSIVE") = false →
        beginBranch tokens w = (w, .error .txnState)) ∧
      (((pyEq b (.vstr "DEFERRED") || pyEq b (.vstr "TRANSACTION")) = true ∨
          pyEq b (.vstr "IMMEDIATE") = true ∨ pyEq b (.vstr "EXCLUSIVE") = true) →
        (beginBranch tokens w).2 ≠ .error .txnState)) := by
  unfold beginBranch
  rw [EM.bind_apply, EM.getW_apply]
  dsimp only
  constructor
  · intro hm
    rw [bool_ite_pos _ _ hm]
    rfl
  · intro hnone
    have hm : w.txnMode.isSome = false := by rw [hnone]; rfl
    rw [bool_ite_neg _ _ hm, EM.bind_apply, EM.liftR_apply, hget]
    dsimp only
    constructor
    · intro hd1 hd2 hd3
      rw [bool_ite_neg _ _ hd1, bool_ite_neg _ _ hd2, bool_ite_neg _ _ hd3]
      rfl
    · intro hdor
      cases hd1 : (pyEq b (.vstr "DEFERRED") || pyEq b (.vstr "TRANSACTION")) with
      | true =>
          rw [if_pos rfl]
          exact ok_ne_txn ()
      | false =>
          rw [if_neg Bool.false_ne_true]
          cases hd2 : pyEq b (.vstr "IMMEDIATE") with
          | true =>
              rw [if_pos rfl, EM.bind_apply, EM.modifyW_apply]
              dsimp only
              rw [EM.bind_apply]
              dsimp only [EM.addLock]
              cases hab : w.locks.add_lock "reserved" none with
              | error e => exact err_ne_txn (by decide)
              | ok p =>
                  rcases p with ⟨b2, l2⟩
                  dsimp only
                  cases b2 with
                  | true => exact ok_ne_txn ()
                  | false => exact ok_ne_txn ()
          | false =>
              rw [if_neg Bool.false_ne_true]
              cases hd3 : pyEq b (.vstr "EXCLUSIVE") with
              | true =>
                  rw [if_pos rfl, EM.bind_apply, EM.modifyW_apply]
                  dsimp only
                  rw [EM.bind_apply]
                  dsimp only [EM.addLock]
                  cases hab : w.locks.add_lock "exclusive" none with
                  | error e => exact err_ne_txn (by decide)
                  | ok p =>
                      rcases p with ⟨b2, l2⟩
                      dsimp only
                      cases b2 with
                      | true => exact ok_ne_txn ()
                      | false => exact ok_ne_txn ()
              | false =>
                  rcases hdor with h | h | h
                  · rw [hd1] at h; exact Bool.noConfusion h
                  · rw [hd2] at h; exact Bool.noConfusion h
                  · rw [hd3] at h; exact Bool.noConfusion h

/-- Outcomes of the COMMIT executor: with no open transaction it raises the
transaction-state error leaving the state unchanged; with one open it never
produces that error. -/
theorem commitBranch_run (w : World) :
    (w.txnMode = none → commitBranch w = (w, .error .txnState)) ∧
    (w.txnMode.isSome = true → (commitBranch w).2 ≠ .error .txnState) := by
  rcases w with ⟨c, l, tm, tl, dr⟩
  constructor
  · intro htm
    have htm' : tm = none := htm
    subst htm'
    rfl
  · intro hsome
    cases tm with
    | none => exact Bool.noConfusion hsome
    | some m =>
        unfold commitBranch
        rw [EM.bind_apply, EM.getW_apply]
        dsimp only
        rw [bool_ite_neg _ _ (show (Option.some m).isNone = false from rfl),
          EM.bind_apply, EM.getW_apply]
        dsimp only
        cases tl with
        | none => exact ok_ne_txn ()
        | some s =>
            rw [bool_ite_neg _ _ (show (Option.some s).isNone = false from rfl),
              EM.bind_apply, EM.pure_apply]
            dsimp only
            rw [EM.bind_apply, EM.getW_apply]
            dsimp only
            cases hs1 : (s == "shared") with
            | true =>
                rw [bool_ite_pos _ _ (show optEqStr (some s) "shared" = true from hs1)]
                exact ok_ne_txn ()
            | false =>
                rw [bool_ite_neg _ _ (show optEqStr (some s) "shared" = false from hs1)]
                cases hs2 : (s == "reserved") with
                | true =>
                    rw [bool_ite_pos _ _ (show optEqStr (some s) "reserved" = true from hs2),
                      EM.bind_apply]
                    dsimp only [EM.addLock]
                    cases hab : l.add_lock "exclusive" (some s) with
                    | error e => exact err_ne_txn (by decide)
                    | ok p =>
                        rcases p with ⟨b2, l2⟩
                        dsimp only
                        cases b2 with
                        | true => exact ok_ne_txn ()
                        | false => exact ok_ne_txn ()
                | false =>
                    rw [bool_ite_neg _ _ (show optEqStr (some s) "reserved" = false from hs2)]
                    cases hs3 : (s == "exclusive") with
                    | true =>
                        rw [bool_ite_pos _ _
                          (show optEqStr (some s) "exclusive" = true from hs3)]
                        exact ok_ne_txn ()
                    | false =>
                        rw [bool_ite_neg _ _
                          (show optEqStr (some s) "exclusive" = false from hs3)]
                        exact ok_ne_txn ()

/-- Outcomes of the ROLLBACK executor, analogous to COMMIT. -/
theorem rollbackBranch_run (w : World) :
    (w.txnMode = none → rollbackBranch w = (w, .error .txnState)) ∧
    (w.txnMode.isSome = true → (rollbackBranch w).2 ≠ .error .txnState) := by
  rcases w with ⟨c, l, tm, tl, dr⟩
  constructor
  · intro htm
    have htm' : tm = none := htm
    subst htm'
    rfl
  · intro hsome
    cases tm with
    | none => exact Bool.noConfusion hsome
    | some m => exact ok_ne_txn ()

/-- The trailing-semicolon well-formedness check of `Connection.execute`
(`assert len(statement_tokens) > 0 and statement_tokens[-1] == ";"`). -/
def wellTermB (tokens : List PyVal) : Bool :=
  !(tokens.length == 0 ||
    !pyEq (tokens.getD (tokens.length - 1) PyVal.vnone) (.vstr ";"))

/-- The exact condition under which `Connection.execute` raises the
transaction-state error, phrased over the token list and the connection's
transaction mode: a BEGIN ... TRANSACTION statement with a transaction
already open or with an unrecognized mode token, or a COMMIT/ROLLBACK
TRANSACTION statement with no open transaction. -/
def txnErrCond (tokens : List PyVal) (mode : Option String) : Bool :=
  ((pyEq (tokens.getD 0 PyVal.vnone) (.vstr "BEGIN") &&
      pyEq (tokens.getD (tokens.length - 2) PyVal.vnone) (.vstr "TRANSACTION")) &&
    (mode.isSome ||
      (!(pyEq (tokens.getD 1 PyVal.vnone) (.vstr "DEFERRED") ||
          pyEq (tokens.getD 1 PyVal.vnone) (.vstr "TRANSACTION")) &&
        !(pyEq (tokens.getD 1 PyVal.vnone) (.vstr "IMMEDIATE")) &&
        !(pyEq (tokens.getD 1 PyVal.vnone) (.vstr "EXCLUSIVE"))))) ||
  (((pyEq (tokens.getD 0 PyVal.vnone) (.vstr "COMMIT") &&
      pyEq (tokens.getD 1 PyVal.vnone) (.vstr "TRANSACTION")) ||
    (pyEq (tokens.getD 0 PyVal.vnone) (.vstr "ROLLBACK") &&
      pyEq (tokens.getD 1 PyVal.vnone) (.vstr "TRANSACTION"))) &&
    mode.isNone)

theorem bool_tf_absurd {x : Bool} (hf : x = false) (ht : x = true) : False := by
  rw [hf] at ht
  exact Bool.noConfusion ht

theorem c7_pack_false {A B : Prop} {x : Bool} (hA : ¬A) (hx : x = false) :
    (A ↔ x = true) ∧ (x = true → B) :=
  ⟨iff_of_false hA (fun hh => bool_tf_absurd hx hh),
    fun hh => absurd hh (fun hh2 => bool_tf_absurd hx hh2)⟩

theorem c7_pack_true {A B : Prop} {x : Bool} (hA : A) (hx : x = true) (hB : B) :
    (A ↔ x = true) ∧ (x = true → B) :=
  ⟨iff_of_true hA hx, fun _ => hB⟩

/-- C7: for a statement that tokenizes, over a connection whose stored views
are transaction-safe (as every view created by this module is), `execute`
raises the transaction-state error exactly when the statement is
well-terminated and `txnErrCond` holds of its tokens and the connection's
transaction mode — BEGIN ... TRANSACTION with a transaction already open or
with an unrecognized mode token, or COMMIT/ROLLBACK TRANSACTION with no open
transaction — and in every such case the connection's state (committed
database, locks, transaction attributes, handle) is completely unchanged. -/
theorem c7_txn_state_exact (fuel : Nat) (stmt : List Char) (tokens : List PyVal)
    (w : World) (htok : tokenize stmt = .ok tokens) (hw : WorldViewsOk w = true) :
    ((executeStmt (fuel + 1) stmt w).2 = .error .txnState ↔
      (wellTermB tokens && txnErrCond tokens w.txnMode) = true) ∧
    ((wellTermB tokens && txnErrCond tokens w.txnMode) = true →
      (executeStmt (fuel + 1) stmt w).1 = w) := by
  have hrec : ∀ s2, viewStmtSafe s2 = true → TxnSafe (executeStmt fuel s2) :=
    fun s2 hs2 w2 hw2 => exec_no_txn fuel s2 w2 hs2 hw2
  unfold executeStmt
  rw [htok]
  dsimp only
  cases hsemi : (tokens.length == 0 ||
      !pyEq (tokens.getD (tokens.length - 1) PyVal.vnone) (.vstr ";")) with
  | true =>
      rw [if_pos rfl]
      have hwt : wellTermB tokens = false := by unfold wellTermB; rw [hsemi]; rfl
      rw [hwt]
      exact c7_pack_false (err_ne_txn (by decide)) rfl
  | false =>
      rw [if_neg Bool.false_ne_true]
      have hwt : wellTermB tokens = true := by unfold wellTermB; rw [hsemi]; rfl
      rw [hwt, Bool.true_and]
      unfold execTokens
      cases hg1 : (pyEq (tokens.getD 0 PyVal.vnone) (.vstr "BEGIN") &&
          pyEq (tokens.getD (tokens.length - 2) PyVal.vnone) (.vstr "TRANSACTION")) with
      | true =>
          rw [if_pos rfl]
          cases tokens with
          | nil => exact Bool.noConfusion (band_left hg1)
          | cons a rest =>
              cases rest with
              | nil =>
                  have htr : pyEq ([a].getD 0 PyVal.vnone) (.vstr "TRANSACTION") = true :=
                    band_right hg1
                  have hff := pyEq_funnel (band_left hg1)
                    (by decide : ("BEGIN" == "TRANSACTION") = false)
                  rw [hff] at htr
                  exact Bool.noConfusion htr
              | cons b rest2 =>
                  have hbr := beginBranch_run b (a :: b :: rest2) w rfl
                  have hC := pyEq_funnel (band_left hg1)
                    (by decide : ("BEGIN" == "COMMIT") = false)
                  have hR := pyEq_funnel (band_left hg1)
                    (by decide : ("BEGIN" == "ROLLBACK") = false)
                  cases htm : w.txnMode with
                  | some m =>
                      have heq := hbr.1 (by rw [htm]; rfl)
                      rw [EM.bind_apply, heq]
                      dsimp only
                      have hrhs : txnErrCond (a :: b :: rest2) (some m) = true := by
                        unfold txnErrCond
                        rw [hg1]
                        rfl
                      exact c7_pack_true rfl hrhs rfl
                  | none =>
                      cases hd1 : (pyEq b (.vstr "DEFERRED") ||
                          pyEq b (.vstr "TRANSACTION")) with
                      | true =>
                          have hne := (hbr.2 htm).2 (Or.inl hd1)
                          have hd1g : (pyEq ((a :: b :: rest2).getD 1 PyVal.vnone)
                              (.vstr "DEFERRED") ||
                            pyEq ((a :: b :: rest2).getD 1 PyVal.vnone)
                              (.vstr "TRANSACTION")) = true := hd1
                          have hrhs : txnErrCond (a :: b :: rest2) none = false := by
                            unfold txnErrCond
                            rw [hg1, hd1g, hC, hR]
                            rfl
                          rw [EM.bind_apply]
                          cases hbb : beginBranch (a :: b :: rest2) w with
                          | mk w1 res =>
                              rw [hbb] at hne
                              dsimp only at hne
                              cases res with
                              | ok u =>
                                  dsimp only
                                  exact c7_pack_false (fun hh => Except.noConfusion hh) hrhs
                              | error e =>
                                  dsimp only
                                  exact c7_pack_false (err_ne_txn (fun h2 => hne (h2 ▸ rfl))) hrhs
                      | false =>
                          have hd1g : (pyEq ((a :: b :: rest2).getD 1 PyVal.vnone)
                              (.vstr "DEFERRED") ||
                            pyEq ((a :: b :: rest2).getD 1 PyVal.vnone)
                              (.vstr "TRANSACTION")) = false := hd1
                          cases hd2 : pyEq b (.vstr "IMMEDIATE") with
                          | true =>
                              have hne := (hbr.2 htm).2 (Or.inr (Or.inl hd2))
                              have hd2g : pyEq ((a :: b :: rest2).getD 1 PyVal.vnone)
                                  (.vstr "IMMEDIATE") = true := hd2
                              have hrhs : txnErrCond (a :: b :: rest2) none = false := by
                                unfold txnErrCond
                                rw [hg1, hd1g, hd2g, hC, hR]
                                rfl
                              rw [EM.bind_apply]
                              cases hbb : beginBranch (a :: b :: rest2) w with
                              | mk w1 res =>
                                  rw [hbb] at hne
                                  dsimp only at hne
                                  cases res with
                                  | ok u =>
                                      dsimp only
                                      exact c7_pack_false (fun hh => Except.noConfusion hh) hrhs
                                  | error e =>
                                      dsimp only
                                      exact c7_pack_false (err_ne_txn (fun h2 => hne (h2 ▸ rfl))) hrhs
                          | false =>
                              have hd2g : pyEq ((a :: b :: rest2).getD 1 PyVal.vnone)
                                  (.vstr "IMMEDIATE") = false := hd2
                              cases hd3 : pyEq b (.vstr "EXCLUSIVE") with
                              | true =>
                                  have hne := (hbr.2 htm).2 (Or.inr (Or.inr hd3))
                                  have hd3g : pyEq ((a :: b :: rest2).getD 1 PyVal.vnone)
                                      (.vstr "EXCLUSIVE") = true := hd3
                                  have hrhs : txnErrCond (a :: b :: rest2) none
                                      = false := by
                                    unfold txnErrCond
                                    rw [hg1, hd1g, hd2g, hd3g, hC, hR]
                                    rfl
                                  rw [EM.bind_apply]
                                  cases hbb : beginBranch (a :: b :: rest2) w with
                                  | mk w1 res =>
                                      rw [hbb] at hne
                                      dsimp only at hne
                                      cases res with
                                      | ok u =>
                                          dsimp only
                                          exact c7_pack_false
                                            (fun hh => Except.noConfusion hh) hrhs
                                      | error e =>
                                          dsimp only
                                          exact c7_pack_false (err_ne_txn (fun h2 => hne (h2 ▸ rfl))) hrhs
                              | false =>
                                  have hd3g : pyEq ((a :: b :: rest2).getD 1 PyVal.vnone)
                                      (.vstr "EXCLUSIVE") = false := hd3
                                  have heq := (hbr.2 htm).1 hd1 hd2 hd3
                                  rw [EM.bind_apply, heq]
                                  dsimp only
                                  have hrhs : txnErrCond (a :: b :: rest2) none
                                      = true := by
                                    unfold txnErrCond
                                    rw [hg1, hd1g, hd2g, hd3g]
                                    rfl
                                  exact c7_pack_true rfl hrhs rfl
      | false =>
          rw [if_neg Bool.false_ne_true]
          cases hg2 : (pyEq (tokens.getD 0 PyVal.vnone) (.vstr "COMMIT") &&
              pyEq (tokens.getD 1 PyVal.vnone) (.vstr "TRANSACTION")) with
          | true =>
              rw [if_pos rfl]
              have hB := pyEq_funnel (band_left hg2)
                (by decide : ("COMMIT" == "BEGIN") = false)
              have hbr := commitBranch_run w
              cases htm : w.txnMode with
              | none =>
                  have heq := hbr.1 htm
                  rw [EM.bind_apply, heq]
                  dsimp only
                  have hrhs : txnErrCond tokens none = true := by
                    unfold txnErrCond
                    rw [hg2, hB]
                    rfl
                  exact c7_pack_true rfl hrhs rfl
              | some m =>
                  have hne := hbr.2 (by rw [htm]; rfl)
                  have hrhs : txnErrCond tokens (some m) = false := by
                    unfold txnErrCond
                    rw [hg2, hB]
                    rfl
                  rw [EM.bind_apply]
                  cases hcb : commitBranch w with
                  | mk w1 res =>
                      rw [hcb] at hne
                      dsimp only at hne
                      cases res with
                      | ok u =>
                          dsimp only
                          exact c7_pack_false (fun hh => Except.noConfusion hh) hrhs
                      | error e =>
                          dsimp only
                          exact c7_pack_false (err_ne_txn (fun h2 => hne (h2 ▸ rfl))) hrhs
          | false =>
              rw [if_neg Bool.false_ne_true]
              cases hg3 : (pyEq (tokens.getD 0 PyVal.vnone) (.vstr "ROLLBACK") &&
                  pyEq (tokens.getD 1 PyVal.vnone) (.vstr "TRANSACTION")) with
              | true =>
                  rw [if_pos rfl]
                  have hB := pyEq_funnel (band_left hg3)
                    (by decide : ("ROLLBACK" == "BEGIN") = false)
                  have hbr := rollbackBranch_run w
                  cases htm : w.txnMode with
                  | none =>
                      have heq := hbr.1 htm
                      rw [EM.bind_apply, heq]
                      dsimp only
                      have hrhs : txnErrCond tokens none = true := by
                        unfold txnErrCond
                        rw [hg2, hg3, hB]
                        rfl
                      exact c7_pack_true rfl hrhs rfl
                  | some m =>
                      have hne := hbr.2 (by rw [htm]; rfl)
                      have hrhs : txnErrCond tokens (some m) = false := by
                        unfold txnErrCond
                        rw [hg2, hg3, hB]
                        rfl
                      rw [EM.bind_apply]
                      cases hcb : rollbackBranch w with
                      | mk w1 res =>
                          rw [hcb] at hne
                          dsimp only at hne
                          cases res with
                          | ok u =>
                              dsimp only
                              exact c7_pack_false (fun hh => Except.noConfusion hh) hrhs
                          | error e =>
                              dsimp only
                              exact c7_pack_false (err_ne_txn (fun h2 => hne (h2 ▸ rfl))) hrhs
              | false =>
                  rw [if_neg Bool.false_ne_true]
                  have hrhs : txnErrCond tokens w.txnMode = false := by
                    unfold txnErrCond
                    rw [hg1, hg2, hg3]
                    rfl
                  cases hg4 : (pyEq (tokens.getD 0 PyVal.vnone) (.vstr "CREATE") &&
                      pyEq (tokens.getD 1 PyVal.vnone) (.vstr "TABLE")) with
                  | true =>
                      rw [if_pos rfl]
                      exact c7_pack_false
                        ((ts_bind (ts_createTableBranch tokens) (fun r => ts_pure _) w hw).1)
                        hrhs
                  | false =>
                  rw [if_neg Bool.false_ne_true]
                  cases hg5 : (pyEq (tokens.getD 0 PyVal.vnone) (.vstr "CREATE") &&
                      pyEq (tokens.getD 1 PyVal.vnone) (.vstr "VIEW")) with
                  | true =>
                      rw [if_pos rfl]
                      exact c7_pack_false
                        ((ts_bind (ts_createViewBranch (executeStmt fuel) stmt tokens hrec)
                          (fun r => ts_pure _) w hw).1) hrhs
                  | false =>
                  rw [if_neg Bool.false_ne_true]
                  cases hg6 : (pyEq (tokens.getD 0 PyVal.vnone) (.vstr "DROP") &&
                      pyEq (tokens.getD 1 PyVal.vnone) (.vstr "TABLE")) with
                  | true =>
                      rw [if_pos rfl]
                      exact c7_pack_false
                        ((ts_bind (ts_dropTableBranch tokens) (fun r => ts_pure _) w hw).1)
                        hrhs
                  | false =>
                  rw [if_neg Bool.false_ne_true]
                  cases hg7 : (pyEq (tokens.getD 0 PyVal.vnone) (.vstr "INSERT") &&
                      pyEq (tokens.getD 1 PyVal.vnone) (.vstr "INTO")) with
                  | true =>
                      rw [if_pos rfl]
                      exact c7_pack_false
                        ((ts_bind (ts_insertBranch tokens) (fun r => ts_pure _) w hw).1)
                        hrhs
                  | false =>
                  rw [if_neg Bool.false_ne_true]
                  cases hg8 : (pyEq (tokens.getD 0 PyVal.vnone) (.vstr "DELETE") &&
                      pyEq (tokens.getD 1 PyVal.vnone) (.vstr "FROM")) with
                  | true =>
                      rw [if_pos rfl]
                      exact c7_pack_false
                        ((ts_bind (ts_deleteBranch tokens) (fun r => ts_pure _) w hw).1)
                        hrhs
                  | false =>
                  rw [if_neg Bool.false_ne_true]
                  cases hg9 : pyEq (tokens.getD 0 PyVal.vnone) (.vstr "UPDATE") with
                  | true =>
                      rw [if_pos rfl]
                      exact c7_pack_false
                        ((ts_bind (ts_updateBranch tokens) (fun r => ts_pure _) w hw).1)
                        hrhs
                  | false =>
                  rw [if_neg Bool.false_ne_true]
                  cases hg10 : (pyListMem tokens (.vstr "LEFT") &&
                      pyListMem tokens (.vstr "OUTER") &&
                      pyListMem tokens (.vstr "JOIN")) with
                  | true =>
                      rw [if_pos rfl]
                      exact c7_pack_false
                        ((ts_bind (ts_joinBranch tokens) (fun r => ts_pure _) w hw).1)
                        hrhs
                  | false =>
                  rw [if_neg Bool.false_ne_true]
                  cases hg11 : pyEq (tokens.getD 0 PyVal.vnone) (.vstr "SELECT") with
                  | true =>
                      rw [if_pos rfl]
                      exact c7_pack_false
                        ((ts_bind (ts_selectBranch (executeStmt fuel) tokens hrec)
                          (fun r => ts_pure _) w hw).1) hrhs
                  | false =>
                      rw [if_neg Bool.false_ne_true]
                      exact c7_pack_false (fun hh => Except.noConfusion hh) hrhs

theorem c7_txn_state_exact_witness :
    (executeStmt 1 "COMMIT TRANSACTION;".data emptyWorld).2 = .error .txnState ∧
    (executeStmt 1 "COMMIT TRANSACTION;".data emptyWorld).1 = emptyWorld :=
  have h := c7_txn_state_exact 0 "COMMIT TRANSACTION;".data
    [.vstr "COMMIT", .vstr "TRANSACTION", .vstr ";"] emptyWorld (by decide) (by decide)
  ⟨h.1.mpr (by decide), h.2 (by decide)⟩
